import Mathlib

/-!
# go_computer_use_mcp_server: argument codec and tool handlers

A shallow embedding of `main.go`: the dynamically typed argument values, the
typed accessors (`getIntArg`, `getRequiredIntArg`, ...), the tool handlers as
state-passing functions over an automation provider that records every call
it receives, and the tool registration tables.
-/

set_option autoImplicit false

namespace ComputerUse

/-! ## Go values -/

/-- A Go `float64`, carried as its IEEE 754 binary64 bit pattern (taken modulo `2^64`):
bit 63 is the sign, bits 52..62 the biased exponent, bits 0..51 the fraction. -/
structure F64 where
  bits : Nat
  deriving DecidableEq, Repr

namespace F64

/-- Sign bit: `true` for a negative number (and for `-0`). -/
def sign (f : F64) : Bool := f.bits / 2 ^ 63 % 2 == 1

/-- The 11-bit biased exponent field. -/
def expBits (f : F64) : Nat := f.bits / 2 ^ 52 % 2 ^ 11

/-- The 52-bit fraction field. -/
def frac (f : F64) : Nat := f.bits % 2 ^ 52

/-- Neither an infinity nor a NaN. -/
def isFinite (f : F64) : Bool := f.expBits != 2047

/-- Integer significand: subnormals have no hidden bit. -/
def mant (f : F64) : Nat := if f.expBits = 0 then f.frac else 2 ^ 52 + f.frac

/-- Exponent of the unit in the last place: the magnitude is `mant * 2 ^ exp`. -/
def exp (f : F64) : Int := if f.expBits = 0 then -1074 else (f.expBits : Int) - 1075

/-- The rational number denoted by a finite `float64`. -/
def toRat (f : F64) : ℚ := (if f.sign then -1 else 1) * (f.mant : ℚ) * (2 : ℚ) ^ f.exp

/-- Magnitude with the fractional bits shifted out. -/
def truncMag (f : F64) : Nat :=
  if 0 ≤ f.exp then f.mant * 2 ^ f.exp.toNat else f.mant / 2 ^ (-f.exp).toNat

/-- Integer part of a finite `float64`: the fraction is discarded. -/
def trunc (f : F64) : Int := if f.sign then -(f.truncMag : Int) else (f.truncMag : Int)

/-- Number of binary digits of `n`, for `n < 2 ^ fuel`. -/
def bitLen : Nat → Nat → Nat
  | 0, _ => 0
  | fuel + 1, n => if n = 0 then 0 else bitLen fuel (n / 2) + 1

/-- Encode the magnitude `n > 0` (below `2^64`) as exponent and fraction fields,
rounding to nearest, ties to even. -/
def encodeMag (n : Nat) : Nat :=
  let len := bitLen 64 n
  if len ≤ 53 then
    (1022 + len) * 2 ^ 52 + (n * 2 ^ (53 - len) - 2 ^ 52)
  else
    let shift := len - 53
    let q := n / 2 ^ shift
    let r := n % 2 ^ shift
    let half := 2 ^ (shift - 1)
    let q1 := if half < r ∨ (r = half ∧ q % 2 = 1) then q + 1 else q
    -- a carry out of the significand lands in the exponent field
    (1022 + len) * 2 ^ 52 + (q1 - 2 ^ 52)

/-- Go's `float64(v)` for an integer `v` of at most 64 bits. -/
def ofInt (v : Int) : F64 :=
  if v = 0 then ⟨0⟩
  else if v < 0 then ⟨2 ^ 63 + encodeMag v.natAbs⟩
  else ⟨encodeMag v.natAbs⟩

end F64

/-- A Go error value, observed through its `Error()` message. -/
structure GoError where
  Error : String
  deriving DecidableEq, Repr

/-- A dynamically typed Go value, as stored in `map[string]interface{}`. -/
inductive Value where
  | nil
  | bool (b : Bool)
  | float64 (f : F64)
  | int (i : Int)
  | int64 (i : Int)
  | string (s : String)
  /-- A `[]interface{}`. -/
  | slice (xs : List Value)
  /-- A `map[string]interface{}`, keys in literal order. -/
  | map (m : List (String × Value))
  /-- A value of any other dynamic type, named by its Go type. -/
  | other (goType : String)

/-- An argument mapping `map[string]interface{}`. -/
abbrev Args := List (String × Value)

/-- Map index `args[key]` in its comma-ok form. -/
def Args.get? (args : Args) (key : String) : Option Value := List.lookup key args

/-- The platform-dependent part of Go's numeric conversions. -/
structure Platform where
  /-- Whether `int` is 64 bits wide (otherwise 32). -/
  is64 : Bool
  /-- Result of `int(v)` for a `float64` that `int` cannot represent: the Go
  specification leaves it implementation-dependent. -/
  floatToIntOverflow : F64 → Int

namespace Platform

/-- Width of `int` in bits. -/
def intSize (P : Platform) : Nat := if P.is64 then 64 else 32

/-- Smallest `int`. -/
def minInt (P : Platform) : Int := -(2 ^ (P.intSize - 1) : Int)

/-- Largest `int`. -/
def maxInt (P : Platform) : Int := (2 ^ (P.intSize - 1) : Int) - 1

/-- Go's `int(v)` for an `int64`: two's-complement truncation to the width of `int`. -/
def intOfInt64 (P : Platform) (v : Int) : Int :=
  (v + 2 ^ (P.intSize - 1)) % 2 ^ P.intSize - 2 ^ (P.intSize - 1)

/-- Go's `int(v)` for a `float64`. -/
def intOfFloat64 (P : Platform) (v : F64) : Int :=
  if v.isFinite ∧ P.minInt ≤ v.trunc ∧ v.trunc ≤ P.maxInt then v.trunc
  else P.floatToIntOverflow v

end Platform

/-! ## Argument accessors (`main.go` lines 32-129) -/

/-- Go's `fmt.Errorf("required parameter '%s' is missing", key)`. -/
def missingParameter (key : String) : GoError :=
  ⟨"required parameter '" ++ key ++ "' is missing"⟩

/-- Optional integer argument. -/
def getIntArg (P : Platform) (args : Args) (key : String) (defaultVal : Int) : Int :=
  match args.get? key with
  | some val =>
    match val with
    | .float64 v => P.intOfFloat64 v
    | .int v => v
    | .int64 v => P.intOfInt64 v
    | _ => defaultVal
  | none => defaultVal

/-- Required integer argument. -/
def getRequiredIntArg (P : Platform) (args : Args) (key : String) : Int × Option GoError :=
  match args.get? key with
  | some val =>
    match val with
    | .float64 v => (P.intOfFloat64 v, none)
    | .int v => (v, none)
    | .int64 v => (P.intOfInt64 v, none)
    | _ => (0, some (missingParameter key))
  | none => (0, some (missingParameter key))

/-- Optional string argument. -/
def getStringArg (args : Args) (key : String) (defaultVal : String) : String :=
  match args.get? key with
  | some val =>
    match val with
    | .string s => s
    | _ => defaultVal
  | none => defaultVal

/-- Required string argument. -/
def getRequiredStringArg (args : Args) (key : String) : String × Option GoError :=
  match args.get? key with
  | some val =>
    match val with
    | .string s => (s, none)
    | _ => ("", some (missingParameter key))
  | none => ("", some (missingParameter key))

/-- Optional boolean argument. -/
def getBoolArg (args : Args) (key : String) (defaultVal : Bool) : Bool :=
  match args.get? key with
  | some val =>
    match val with
    | .bool b => b
    | _ => defaultVal
  | none => defaultVal

/-- Optional float argument. -/
def getFloatArg (args : Args) (key : String) (defaultVal : F64) : F64 :=
  match args.get? key with
  | some val =>
    match val with
    | .float64 v => v
    | .int v => F64.ofInt v
    | .int64 v => F64.ofInt v
    | _ => defaultVal
  | none => defaultVal

/-- The string elements of a `[]interface{}`, in order. -/
def stringItems : List Value → List String
  | [] => []
  | .string s :: rest => s :: stringItems rest
  | _ :: rest => stringItems rest

/-- Optional string-list argument; `none` is the nil slice. -/
def getStringArrayArg (args : Args) (key : String) : Option (List String) :=
  match args.get? key with
  | some val =>
    match val with
    | .slice arr => some (stringItems arr)
    | _ => none
  | none => none

/-! ## The automation provider (`robotgo`) and the other external packages -/

/-- A captured bitmap as handed out by `robotgo.CaptureScreen`; its content is never inspected. -/
structure CBitmap where
  data : List Nat
  deriving DecidableEq, Repr

/-- A Go `image.Image` as produced by `robotgo.ToImage`; its content is never inspected. -/
structure Image where
  data : List Nat
  deriving DecidableEq, Repr

/-- An entry of `robotgo.Process()`. -/
structure Nps where
  Pid : Int
  Name : String
  deriving DecidableEq, Repr

set_option maxHeartbeats 4000000 in
/-- The calls the handlers issue to `robotgo`, with their arguments; a trailing list
holds the variadic arguments that were passed. -/
inductive Call where
  | Move (x y : Int) (displayId : List Int)
  | MoveSmooth (x y : Int) (low high : F64)
  | MoveRelative (x y : Int)
  | Location
  | Click (button : String) (double : Option Bool)
  | MoveClick (x y : Int) (button : String) (double : Option Bool)
  | Toggle (button : String) (direction : String)
  | Drag (x y : Int) (button : String)
  | DragSmooth (x y : Int) (low high : F64) (button : String)
  | Scroll (x y : Int) (displayId : List Int)
  | ScrollDir (amount : Int) (direction : String)
  | ScrollSmooth (to_ num delay : Int)
  | KeyTap (key : String) (modifiers : List String)
  | KeyToggle (key : String) (direction : String)
  | TypeDelay (text : String) (delay : Int)
  | Type_ (text : String)
  | ReadAll
  | WriteAll (text : String)
  | Paste (text : String)
  | GetScaleSize (displayId : Int)
  | GetScreenSize
  | DisplaysNum
  | GetDisplayBounds (displayId : Int)
  | CaptureScreen (args : List Int)
  | FreeBitmap (bitmap : CBitmap)
  | ToImage (bitmap : CBitmap)
  | SaveCapture (path : String) (args : List Int)
  | GetPixelColor (x y : Int) (displayId : List Int)
  | GetLocationColor (displayId : List Int)
  | GetActive
  | GetTitle (pid : List Int)
  | GetPid
  | GetBounds (pid : Int)
  | ActivePid (pid : Int)
  | MoveWindow (pid x y : Int)
  | ResizeWindow (pid width height : Int)
  | MinWindow (pid : Int)
  | MaxWindow (pid : Int)
  | CloseWindow (pid : List Int)
  | Process
  | FindIds (name : String)
  | FindName (pid : Int)
  | PidExists (pid : Int)
  | Kill (pid : Int)
  | Run (command : String)
  | GetVersion
  | Is64Bit
  | GetMainId
  | MilliSleep (milliseconds : Int)
  | Alert (title message : String) (buttons : List String)
  deriving DecidableEq, Repr

/-- What the handler receives back from each call (results it discards are `Unit`). -/
@[reducible] def Call.Resp : Call → Type
  | .MoveSmooth _ _ _ _ => Bool
  | .Location => Int × Int
  | .ReadAll => String × Option GoError
  | .WriteAll _ => Option GoError
  | .Paste _ => Option GoError
  | .GetScaleSize _ => Int × Int
  | .GetScreenSize => Int × Int
  | .DisplaysNum => Int
  | .GetDisplayBounds _ => Int × Int × Int × Int
  | .CaptureScreen _ => CBitmap
  | .ToImage _ => Image
  | .SaveCapture _ _ => Option GoError
  | .GetPixelColor _ _ _ => String
  | .GetLocationColor _ => String
  | .GetActive => Value
  | .GetTitle _ => String
  | .GetPid => Int
  | .GetBounds _ => Int × Int × Int × Int
  | .ActivePid _ => Option GoError
  | .Process => List Nps × Option GoError
  | .FindIds _ => List Int × Option GoError
  | .FindName _ => String × Option GoError
  | .PidExists _ => Bool × Option GoError
  | .Kill _ => Option GoError
  | .Run _ => String × Option GoError
  | .GetVersion => String
  | .Is64Bit => Bool
  | .GetMainId => Int
  | .Alert _ _ _ => Bool
  | _ => Unit

/-- Everything outside `main.go` that a handler depends on: the platform, the
automation provider as a transition function on its state `σ`, and the
standard-library encoders. -/
structure Env (σ : Type) extends Platform where
  /-- The provider answers a call and moves to its next state. -/
  robotgo : (c : Call) → σ → c.Resp × σ
  /-- Go's `json.MarshalIndent(data, "", "  ")`. -/
  jsonMarshalIndent : Value → String × Option GoError
  /-- Go's `png.Encode` into a fresh buffer: the bytes written and the error. -/
  pngEncode : Image → List Nat × Option GoError
  /-- Go's `base64.StdEncoding.EncodeToString`. -/
  base64Encode : List Nat → String

/-- The provider's state together with the calls it has received so far, oldest first. -/
structure World (σ : Type) where
  state : σ
  calls : List Call

/-- Issue one call to the provider: it is recorded and answered. -/
def invoke {σ : Type} (E : Env σ) (c : Call) (w : World σ) : c.Resp × World σ :=
  ((E.robotgo c w.state).1, ⟨(E.robotgo c w.state).2, w.calls ++ [c]⟩)

/-! ## MCP types (`mcp-go`) -/

/-- A text content item of a tool result. -/
structure TextContent where
  Type_ : String
  Text : String
  deriving DecidableEq, Repr

/-- The `mcp.CallToolResult` of a tool call. -/
structure CallToolResult where
  Content : List TextContent
  IsError : Bool
  deriving DecidableEq, Repr

/-- The `mcp.NewToolResultText` constructor. -/
def NewToolResultText (text : String) : CallToolResult :=
  ⟨[⟨"text", text⟩], false⟩

/-- The `mcp.CallToolRequest`, reduced to `request.Params.Arguments`. -/
structure CallToolRequest where
  Arguments : Value

/-- Helper function to get args as map: any other payload gives an empty map. -/
def getArgs (request : CallToolRequest) : Args :=
  match request.Arguments with
  | .map args => args
  | _ => []

/-- A handler's two return values `(*mcp.CallToolResult, error)`; `none` is `nil`. -/
abbrev HandlerResult := Option CallToolResult × Option GoError

/-- A tool handler run against a provider: its return values and the world it leaves. -/
abbrev Handler (σ : Type) := Env σ → CallToolRequest → World σ → HandlerResult × World σ

/-- Helper function to create JSON response. -/
def jsonResponse {σ : Type} (E : Env σ) (data : Value) : String :=
  match E.jsonMarshalIndent data with
  | (_, some err) => "\x7b\"error\": \"" ++ err.Error ++ "\"\x7d"
  | (jsonBytes, none) => jsonBytes

/-- Go's `%d` verb. -/
def fmtInt (i : Int) : String := toString i

/-- Go's `fmt.Errorf(prefix + ": %w", err)`. -/
def wrapError (pfx : String) (err : GoError) : GoError := ⟨pfx ++ ": " ++ err.Error⟩

/-- The success return `mcp.NewToolResultText(jsonResponse(data)), nil`. -/
def successOf {σ : Type} (E : Env σ) (data : Value) : HandlerResult :=
  (some (NewToolResultText (jsonResponse E data)), none)

/-- The failure return `nil, err`. -/
def failureOf (err : GoError) : HandlerResult := (none, some err)

/-! ## Mouse handlers -/

def mouseMoveHandler {σ : Type} : Handler σ := fun E request w =>
  let args := getArgs request
  match getRequiredIntArg E.toPlatform args "x" with
  | (_, some err) => (failureOf err, w)
  | (x, none) =>
  match getRequiredIntArg E.toPlatform args "y" with
  | (_, some err) => (failureOf err, w)
  | (y, none) =>
  let displayId := getIntArg E.toPlatform args "display_id" (-1)
  let w := if displayId ≥ 0 then (invoke E (.Move x y [displayId]) w).2
    else (invoke E (.Move x y []) w).2
  (successOf E (.map [("status", .string "success"),
    ("message", .string ("Mouse moved to (" ++ fmtInt x ++ ", " ++ fmtInt y ++ ")"))]), w)

def mouseMoveSmoothHandler {σ : Type} : Handler σ := fun E request w =>
  let args := getArgs request
  match getRequiredIntArg E.toPlatform args "x" with
  | (_, some err) => (failureOf err, w)
  | (x, none) =>
  match getRequiredIntArg E.toPlatform args "y" with
  | (_, some err) => (failureOf err, w)
  | (y, none) =>
  let low := getFloatArg args "low" ⟨0x3FF0000000000000⟩
  let high := getFloatArg args "high" ⟨0x4008000000000000⟩
  let r := invoke E (.MoveSmooth x y low high) w
  let ok : Bool := r.1
  (successOf E (.map [("status", .string "success"),
    ("success", .bool ok),
    ("message", .string ("Mouse moved smoothly to (" ++ fmtInt x ++ ", " ++ fmtInt y ++ ")"))]),
   r.2)

def mouseMoveRelativeHandler {σ : Type} : Handler σ := fun E request w =>
  let args := getArgs request
  match getRequiredIntArg E.toPlatform args "x" with
  | (_, some err) => (failureOf err, w)
  | (x, none) =>
  match getRequiredIntArg E.toPlatform args "y" with
  | (_, some err) => (failureOf err, w)
  | (y, none) =>
  let w := (invoke E (.MoveRelative x y) w).2
  (successOf E (.map [("status", .string "success"),
    ("message", .string ("Mouse moved relative by (" ++ fmtInt x ++ ", " ++ fmtInt y ++ ")"))]), w)

def mouseGetPositionHandler {σ : Type} : Handler σ := fun E _request w =>
  let r := invoke E .Location w
  let pos : Int × Int := r.1
  (successOf E (.map [("x", .int pos.1), ("y", .int pos.2)]), r.2)

def mouseClickHandler {σ : Type} : Handler σ := fun E request w =>
  let args := getArgs request
  let button := getStringArg args "button" "left"
  let double := getBoolArg args "double" false
  let w := if double then (invoke E (.Click button (some true)) w).2
    else (invoke E (.Click button none) w).2
  (successOf E (.map [("status", .string "success"),
    ("message", .string ("Mouse " ++ button ++ " click performed"))]), w)

def mouseClickAtHandler {σ : Type} : Handler σ := fun E request w =>
  let args := getArgs request
  match getRequiredIntArg E.toPlatform args "x" with
  | (_, some err) => (failureOf err, w)
  | (x, none) =>
  match getRequiredIntArg E.toPlatform args "y" with
  | (_, some err) => (failureOf err, w)
  | (y, none) =>
  let button := getStringArg args "button" "left"
  let double := getBoolArg args "double" false
  let w := if double then (invoke E (.MoveClick x y button (some true)) w).2
    else (invoke E (.MoveClick x y button none) w).2
  (successOf E (.map [("status", .string "success"),
    ("message", .string ("Mouse " ++ button ++ " click at (" ++ fmtInt x ++ ", " ++ fmtInt y ++ ")"))]),
   w)

def mouseToggleHandler {σ : Type} : Handler σ := fun E request w =>
  let args := getArgs request
  let button := getStringArg args "button" "left"
  let down := getBoolArg args "down" true
  let (action, w) := if down then ("down", (invoke E (.Toggle button "down") w).2)
    else ("up", (invoke E (.Toggle button "up") w).2)
  (successOf E (.map [("status", .string "success"),
    ("message", .string ("Mouse button " ++ button ++ " " ++ action))]), w)

def mouseDragHandler {σ : Type} : Handler σ := fun E request w =>
  let args := getArgs request
  match getRequiredIntArg E.toPlatform args "x" with
  | (_, some err) => (failureOf err, w)
  | (x, none) =>
  match getRequiredIntArg E.toPlatform args "y" with
  | (_, some err) => (failureOf err, w)
  | (y, none) =>
  let button := getStringArg args "button" "left"
  let w := (invoke E (.Drag x y button) w).2
  (successOf E (.map [("status", .string "success"),
    ("message", .string ("Mouse dragged to (" ++ fmtInt x ++ ", " ++ fmtInt y ++ ")"))]), w)

def mouseDragSmoothHandler {σ : Type} : Handler σ := fun E request w =>
  let args := getArgs request
  match getRequiredIntArg E.toPlatform args "x" with
  | (_, some err) => (failureOf err, w)
  | (x, none) =>
  match getRequiredIntArg E.toPlatform args "y" with
  | (_, some err) => (failureOf err, w)
  | (y, none) =>
  let low := getFloatArg args "low" ⟨0x3FF0000000000000⟩
  let high := getFloatArg args "high" ⟨0x4008000000000000⟩
  let button := getStringArg args "button" "left"
  let w := (invoke E (.DragSmooth x y low high button) w).2
  (successOf E (.map [("status", .string "success"),
    ("message", .string ("Mouse dragged smoothly to (" ++ fmtInt x ++ ", " ++ fmtInt y ++ ")"))]), w)

def mouseScrollHandler {σ : Type} : Handler σ := fun E request w =>
  let args := getArgs request
  match getRequiredIntArg E.toPlatform args "x" with
  | (_, some err) => (failureOf err, w)
  | (x, none) =>
  match getRequiredIntArg E.toPlatform args "y" with
  | (_, some err) => (failureOf err, w)
  | (y, none) =>
  let displayId := getIntArg E.toPlatform args "display_id" (-1)
  let w := if displayId ≥ 0 then (invoke E (.Scroll x y [displayId]) w).2
    else (invoke E (.Scroll x y []) w).2
  (successOf E (.map [("status", .string "success"),
    ("message", .string ("Mouse scrolled (" ++ fmtInt x ++ ", " ++ fmtInt y ++ ")"))]), w)

def mouseScrollDirectionHandler {σ : Type} : Handler σ := fun E request w =>
  let args := getArgs request
  match getRequiredIntArg E.toPlatform args "amount" with
  | (_, some err) => (failureOf err, w)
  | (amount, none) =>
  match getRequiredStringArg args "direction" with
  | (_, some err) => (failureOf err, w)
  | (direction, none) =>
  let w := (invoke E (.ScrollDir amount direction) w).2
  (successOf E (.map [("status", .string "success"),
    ("message", .string ("Mouse scrolled " ++ direction ++ " by " ++ fmtInt amount))]), w)

def mouseScrollSmoothHandler {σ : Type} : Handler σ := fun E request w =>
  let args := getArgs request
  match getRequiredIntArg E.toPlatform args "to" with
  | (_, some err) => (failureOf err, w)
  | (to_, none) =>
  let num := getIntArg E.toPlatform args "num" 5
  let delay := getIntArg E.toPlatform args "delay" 100
  let w := (invoke E (.ScrollSmooth to_ num delay) w).2
  (successOf E (.map [("status", .string "success"),
    ("message", .string ("Mouse scrolled smoothly to " ++ fmtInt to_))]), w)

/-! ## Keyboard handlers -/

def keyTapHandler {σ : Type} : Handler σ := fun E request w =>
  let args := getArgs request
  match getRequiredStringArg args "key" with
  | (_, some err) => (failureOf err, w)
  | (key, none) =>
  let modifiers := (getStringArrayArg args "modifiers").getD []
  let w := if modifiers.length > 0 then (invoke E (.KeyTap key modifiers) w).2
    else (invoke E (.KeyTap key []) w).2
  (successOf E (.map [("status", .string "success"),
    ("message", .string ("Key '" ++ key ++ "' tapped"))]), w)

def keyToggleHandler {σ : Type} : Handler σ := fun E request w =>
  let args := getArgs request
  match getRequiredStringArg args "key" with
  | (_, some err) => (failureOf err, w)
  | (key, none) =>
  let down := getBoolArg args "down" true
  let (action, w) := if down then ("down", (invoke E (.KeyToggle key "down") w).2)
    else ("up", (invoke E (.KeyToggle key "up") w).2)
  (successOf E (.map [("status", .string "success"),
    ("message", .string ("Key '" ++ key ++ "' " ++ action))]), w)

/-- Go's `len(text)`: the length of a string in bytes. -/
def goLen (text : String) : Int := (text.utf8ByteSize : Int)

def typeTextHandler {σ : Type} : Handler σ := fun E request w =>
  let args := getArgs request
  match getRequiredStringArg args "text" with
  | (_, some err) => (failureOf err, w)
  | (text, none) =>
  let delay := getIntArg E.toPlatform args "delay" 0
  let w := if delay > 0 then (invoke E (.TypeDelay text delay) w).2
    else (invoke E (.Type_ text) w).2
  (successOf E (.map [("status", .string "success"),
    ("message", .string ("Text typed: " ++ fmtInt (goLen text) ++ " characters"))]), w)

def typeTextDelayedHandler {σ : Type} : Handler σ := fun E request w =>
  let args := getArgs request
  match getRequiredStringArg args "text" with
  | (_, some err) => (failureOf err, w)
  | (text, none) =>
  match getRequiredIntArg E.toPlatform args "delay" with
  | (_, some err) => (failureOf err, w)
  | (delay, none) =>
  let w := (invoke E (.TypeDelay text delay) w).2
  (successOf E (.map [("status", .string "success"),
    ("message", .string ("Text typed with " ++ fmtInt delay ++ "ms delay: " ++
      fmtInt (goLen text) ++ " characters"))]), w)

def clipboardReadHandler {σ : Type} : Handler σ := fun E _request w =>
  let r := invoke E .ReadAll w
  let res : String × Option GoError := r.1
  match res with
  | (_, some err) => (failureOf (wrapError "failed to read clipboard" err), r.2)
  | (text, none) => (successOf E (.map [("text", .string text)]), r.2)

def clipboardWriteHandler {σ : Type} : Handler σ := fun E request w =>
  let args := getArgs request
  match getRequiredStringArg args "text" with
  | (_, some err) => (failureOf err, w)
  | (text, none) =>
  let r := invoke E (.WriteAll text) w
  let res : Option GoError := r.1
  match res with
  | some err => (failureOf (wrapError "failed to write to clipboard" err), r.2)
  | none =>
  (successOf E (.map [("status", .string "success"),
    ("message", .string "Text written to clipboard")]), r.2)

def clipboardPasteHandler {σ : Type} : Handler σ := fun E request w =>
  let args := getArgs request
  match getRequiredStringArg args "text" with
  | (_, some err) => (failureOf err, w)
  | (text, none) =>
  let r := invoke E (.Paste text) w
  let res : Option GoError := r.1
  match res with
  | some err => (failureOf (wrapError "failed to paste text" err), r.2)
  | none =>
  (successOf E (.map [("status", .string "success"),
    ("message", .string "Text pasted via clipboard")]), r.2)

/-! ## Screen handlers -/

def screenGetSizeHandler {σ : Type} : Handler σ := fun E request w =>
  let args := getArgs request
  let displayId := getIntArg E.toPlatform args "display_id" (-1)
  let r : (Int × Int) × World σ := if displayId ≥ 0 then invoke E (.GetScaleSize displayId) w
    else invoke E .GetScreenSize w
  (successOf E (.map [("width", .int r.1.1), ("height", .int r.1.2)]), r.2)

def screenGetDisplaysNumHandler {σ : Type} : Handler σ := fun E _request w =>
  let r := invoke E .DisplaysNum w
  let count : Int := r.1
  (successOf E (.map [("count", .int count)]), r.2)

def screenGetDisplayBoundsHandler {σ : Type} : Handler σ := fun E request w =>
  let args := getArgs request
  match getRequiredIntArg E.toPlatform args "display_id" with
  | (_, some err) => (failureOf err, w)
  | (displayId, none) =>
  let r := invoke E (.GetDisplayBounds displayId) w
  let b : Int × Int × Int × Int := r.1
  (successOf E (.map [("x", .int b.1), ("y", .int b.2.1),
    ("width", .int b.2.2.1), ("height", .int b.2.2.2)]), r.2)

/-- The region part of the capture arguments: all four values or nothing. -/
def regionArgs (x y width height : Int) : List Int :=
  if x ≥ 0 ∧ y ≥ 0 ∧ width > 0 ∧ height > 0 then [x, y, width, height] else []

def screenCaptureHandler {σ : Type} : Handler σ := fun E request w =>
  let args := getArgs request
  let x := getIntArg E.toPlatform args "x" (-1)
  let y := getIntArg E.toPlatform args "y" (-1)
  let width := getIntArg E.toPlatform args "width" (-1)
  let height := getIntArg E.toPlatform args "height" (-1)
  let displayId := getIntArg E.toPlatform args "display_id" (-1)
  let captureArgs := regionArgs x y width height
  let (captureArgs, w) : List Int × World σ :=
    if displayId ≥ 0 then
      if captureArgs.length = 0 then
        -- Need to capture full screen first
        let r := invoke E .GetScreenSize w
        let size : Int × Int := r.1
        ([0, 0, size.1, size.2] ++ [displayId], r.2)
      else (captureArgs ++ [displayId], w)
    else (captureArgs, w)
  let r : CBitmap × World σ := if captureArgs.length > 0 then invoke E (.CaptureScreen captureArgs) w
    else invoke E (.CaptureScreen []) w
  let bitmap := r.1
  -- Convert to image
  let r := invoke E (.ToImage bitmap) r.2
  let image : Image := r.1
  -- Encode to PNG; the deferred FreeBitmap runs on either return
  match E.pngEncode image with
  | (_, some err) =>
    (failureOf (wrapError "failed to encode image" err), (invoke E (.FreeBitmap bitmap) r.2).2)
  | (buf, none) =>
  -- Base64 encode
  let base64Str := E.base64Encode buf
  (successOf E (.map [("image", .string base64Str), ("format", .string "png"),
    ("encoding", .string "base64")]), (invoke E (.FreeBitmap bitmap) r.2).2)

def screenCaptureSaveHandler {σ : Type} : Handler σ := fun E request w =>
  let args := getArgs request
  match getRequiredStringArg args "path" with
  | (_, some err) => (failureOf err, w)
  | (path, none) =>
  let x := getIntArg E.toPlatform args "x" (-1)
  let y := getIntArg E.toPlatform args "y" (-1)
  let width := getIntArg E.toPlatform args "width" (-1)
  let height := getIntArg E.toPlatform args "height" (-1)
  let captureArgs := regionArgs x y width height
  let r := invoke E (.SaveCapture path captureArgs) w
  let res : Option GoError := r.1
  match res with
  | some err => (failureOf (wrapError "failed to save capture" err), r.2)
  | none =>
  (successOf E (.map [("status", .string "success"),
    ("message", .string ("Screenshot saved to " ++ path)), ("path", .string path)]), r.2)

def screenGetPixelColorHandler {σ : Type} : Handler σ := fun E request w =>
  let args := getArgs request
  match getRequiredIntArg E.toPlatform args "x" with
  | (_, some err) => (failureOf err, w)
  | (x, none) =>
  match getRequiredIntArg E.toPlatform args "y" with
  | (_, some err) => (failureOf err, w)
  | (y, none) =>
  let displayId := getIntArg E.toPlatform args "display_id" (-1)
  let r : String × World σ := if displayId ≥ 0 then invoke E (.GetPixelColor x y [displayId]) w
    else invoke E (.GetPixelColor x y []) w
  (successOf E (.map [("color", .string r.1)]), r.2)

def screenGetMouseColorHandler {σ : Type} : Handler σ := fun E request w =>
  let args := getArgs request
  let displayId := getIntArg E.toPlatform args "display_id" (-1)
  let r : String × World σ := if displayId ≥ 0 then invoke E (.GetLocationColor [displayId]) w
    else invoke E (.GetLocationColor []) w
  (successOf E (.map [("color", .string r.1)]), r.2)

/-! ## Window handlers -/

def windowGetActiveHandler {σ : Type} : Handler σ := fun E _request w =>
  let r1 := invoke E .GetActive w
  let handle : Value := r1.1
  let r2 := invoke E (.GetTitle []) r1.2
  let title : String := r2.1
  let r3 := invoke E .GetPid r2.2
  let pid : Int := r3.1
  (successOf E (.map [("handle", handle), ("title", .string title), ("pid", .int pid)]), r3.2)

def windowGetTitleHandler {σ : Type} : Handler σ := fun E request w =>
  let args := getArgs request
  let pid := getIntArg E.toPlatform args "pid" (-1)
  let r : String × World σ := if pid ≥ 0 then invoke E (.GetTitle [pid]) w
    else invoke E (.GetTitle []) w
  (successOf E (.map [("title", .string r.1)]), r.2)

def windowGetBoundsHandler {σ : Type} : Handler σ := fun E request w =>
  let args := getArgs request
  match getRequiredIntArg E.toPlatform args "pid" with
  | (_, some err) => (failureOf err, w)
  | (pid, none) =>
  let r := invoke E (.GetBounds pid) w
  let b : Int × Int × Int × Int := r.1
  (successOf E (.map [("x", .int b.1), ("y", .int b.2.1),
    ("width", .int b.2.2.1), ("height", .int b.2.2.2)]), r.2)

def windowSetActiveHandler {σ : Type} : Handler σ := fun E request w =>
  let args := getArgs request
  match getRequiredIntArg E.toPlatform args "pid" with
  | (_, some err) => (failureOf err, w)
  | (pid, none) =>
  let r := invoke E (.ActivePid pid) w
  let res : Option GoError := r.1
  match res with
  | some err => (failureOf (wrapError "failed to activate window" err), r.2)
  | none =>
  (successOf E (.map [("status", .string "success"),
    ("message", .string ("Window with PID " ++ fmtInt pid ++ " activated"))]), r.2)

def windowMoveHandler {σ : Type} : Handler σ := fun E request w =>
  let args := getArgs request
  match getRequiredIntArg E.toPlatform args "pid" with
  | (_, some err) => (failureOf err, w)
  | (pid, none) =>
  match getRequiredIntArg E.toPlatform args "x" with
  | (_, some err) => (failureOf err, w)
  | (x, none) =>
  match getRequiredIntArg E.toPlatform args "y" with
  | (_, some err) => (failureOf err, w)
  | (y, none) =>
  let w := (invoke E (.MoveWindow pid x y) w).2
  (successOf E (.map [("status", .string "success"),
    ("message", .string ("Window moved to (" ++ fmtInt x ++ ", " ++ fmtInt y ++ ")"))]), w)

def windowResizeHandler {σ : Type} : Handler σ := fun E request w =>
  let args := getArgs request
  match getRequiredIntArg E.toPlatform args "pid" with
  | (_, some err) => (failureOf err, w)
  | (pid, none) =>
  match getRequiredIntArg E.toPlatform args "width" with
  | (_, some err) => (failureOf err, w)
  | (width, none) =>
  match getRequiredIntArg E.toPlatform args "height" with
  | (_, some err) => (failureOf err, w)
  | (height, none) =>
  let w := (invoke E (.ResizeWindow pid width height) w).2
  (successOf E (.map [("status", .string "success"),
    ("message", .string ("Window resized to " ++ fmtInt width ++ "x" ++ fmtInt height))]), w)

def windowMinimizeHandler {σ : Type} : Handler σ := fun E request w =>
  let args := getArgs request
  match getRequiredIntArg E.toPlatform args "pid" with
  | (_, some err) => (failureOf err, w)
  | (pid, none) =>
  let w := (invoke E (.MinWindow pid) w).2
  (successOf E (.map [("status", .string "success"), ("message", .string "Window minimized")]), w)

def windowMaximizeHandler {σ : Type} : Handler σ := fun E request w =>
  let args := getArgs request
  match getRequiredIntArg E.toPlatform args "pid" with
  | (_, some err) => (failureOf err, w)
  | (pid, none) =>
  let w := (invoke E (.MaxWindow pid) w).2
  (successOf E (.map [("status", .string "success"), ("message", .string "Window maximized")]), w)

def windowCloseHandler {σ : Type} : Handler σ := fun E request w =>
  let args := getArgs request
  let pid := getIntArg E.toPlatform args "pid" (-1)
  let w := if pid ≥ 0 then (invoke E (.CloseWindow [pid]) w).2
    else (invoke E (.CloseWindow []) w).2
  (successOf E (.map [("status", .string "success"), ("message", .string "Window closed")]), w)

/-! ## Process handlers -/

def processListHandler {σ : Type} : Handler σ := fun E _request w =>
  let r := invoke E .Process w
  let res : List Nps × Option GoError := r.1
  match res with
  | (_, some err) => (failureOf (wrapError "failed to get process list" err), r.2)
  | (processes, none) =>
  let processList : List Value :=
    processes.map (fun p => Value.map [("pid", .int p.Pid), ("name", .string p.Name)])
  (successOf E (.map [("processes", .slice processList),
    ("count", .int (processList.length : Int))]), r.2)

def processFindByNameHandler {σ : Type} : Handler σ := fun E request w =>
  let args := getArgs request
  match getRequiredStringArg args "name" with
  | (_, some err) => (failureOf err, w)
  | (name, none) =>
  let r := invoke E (.FindIds name) w
  let res : List Int × Option GoError := r.1
  match res with
  | (_, some err) => (failureOf (wrapError "failed to find processes" err), r.2)
  | (pids, none) =>
  (successOf E (.map [("pids", .slice (pids.map Value.int)),
    ("count", .int (pids.length : Int))]), r.2)

def processGetNameHandler {σ : Type} : Handler σ := fun E request w =>
  let args := getArgs request
  match getRequiredIntArg E.toPlatform args "pid" with
  | (_, some err) => (failureOf err, w)
  | (pid, none) =>
  let r := invoke E (.FindName pid) w
  let res : String × Option GoError := r.1
  match res with
  | (_, some err) => (failureOf (wrapError "failed to get process name" err), r.2)
  | (name, none) => (successOf E (.map [("name", .string name)]), r.2)

def processExistsHandler {σ : Type} : Handler σ := fun E request w =>
  let args := getArgs request
  match getRequiredIntArg E.toPlatform args "pid" with
  | (_, some err) => (failureOf err, w)
  | (pid, none) =>
  let r := invoke E (.PidExists pid) w
  let res : Bool × Option GoError := r.1
  match res with
  | (_, some err) => (failureOf (wrapError "failed to check process" err), r.2)
  | (pidExists, none) => (successOf E (.map [("exists", .bool pidExists)]), r.2)

def processKillHandler {σ : Type} : Handler σ := fun E request w =>
  let args := getArgs request
  match getRequiredIntArg E.toPlatform args "pid" with
  | (_, some err) => (failureOf err, w)
  | (pid, none) =>
  let r := invoke E (.Kill pid) w
  let res : Option GoError := r.1
  match res with
  | some err => (failureOf (wrapError "failed to kill process" err), r.2)
  | none =>
  (successOf E (.map [("status", .string "success"),
    ("message", .string ("Process " ++ fmtInt pid ++ " killed"))]), r.2)

def processRunHandler {σ : Type} : Handler σ := fun E request w =>
  let args := getArgs request
  match getRequiredStringArg args "command" with
  | (_, some err) => (failureOf err, w)
  | (command, none) =>
  let r := invoke E (.Run command) w
  let res : String × Option GoError := r.1
  match res with
  | (_, some err) => (failureOf (wrapError "failed to run command" err), r.2)
  | (output, none) => (successOf E (.map [("output", .string output)]), r.2)

/-! ## System handlers -/

def systemGetInfoHandler {σ : Type} : Handler σ := fun E _request w =>
  let r1 := invoke E .GetVersion w
  let version : String := r1.1
  let r2 := invoke E .Is64Bit r1.2
  let is64Bit : Bool := r2.1
  let r3 := invoke E .GetMainId r2.2
  let mainDisplayId : Int := r3.1
  let r4 := invoke E .DisplaysNum r3.2
  let displaysCount : Int := r4.1
  (successOf E (.map [("version", .string version), ("is_64bit", .bool is64Bit),
    ("main_display_id", .int mainDisplayId), ("displays_count", .int displaysCount)]), r4.2)

def utilSleepHandler {σ : Type} : Handler σ := fun E request w =>
  let args := getArgs request
  match getRequiredIntArg E.toPlatform args "milliseconds" with
  | (_, some err) => (failureOf err, w)
  | (milliseconds, none) =>
  let w := (invoke E (.MilliSleep milliseconds) w).2
  (successOf E (.map [("status", .string "success"),
    ("message", .string ("Slept for " ++ fmtInt milliseconds ++ " milliseconds"))]), w)

def alertShowHandler {σ : Type} : Handler σ := fun E request w =>
  let args := getArgs request
  match getRequiredStringArg args "title" with
  | (_, some err) => (failureOf err, w)
  | (title, none) =>
  match getRequiredStringArg args "message" with
  | (_, some err) => (failureOf err, w)
  | (message, none) =>
  let defaultBtn := getStringArg args "default_btn" "OK"
  let cancelBtn := getStringArg args "cancel_btn" ""
  let r : Bool × World σ :=
    if cancelBtn ≠ "" then invoke E (.Alert title message [defaultBtn, cancelBtn]) w
    else invoke E (.Alert title message [defaultBtn]) w
  (successOf E (.map [("clicked_default", .bool r.1)]), r.2)

/-! ## Tool registration -/

/-- JSON-schema kind of a declared parameter (`WithNumber`, `WithString`, ...). -/
inductive ParamKind where
  | number
  | string
  | boolean
  | array
  deriving DecidableEq, Repr

/-- One declared parameter of a tool. -/
structure ParamSpec where
  name : String
  kind : ParamKind
  required : Bool
  description : String
  deriving DecidableEq, Repr

/-- The `mcp.Tool` built by `mcp.NewTool`. -/
structure Tool where
  name : String
  description : String
  params : List ParamSpec
  deriving DecidableEq, Repr

/-- A parameter declared with `mcp.Required()`. -/
def req (kind : ParamKind) (name description : String) : ParamSpec :=
  ⟨name, kind, true, description⟩

/-- A parameter declared without `mcp.Required()`. -/
def opt (kind : ParamKind) (name description : String) : ParamSpec :=
  ⟨name, kind, false, description⟩

/-- A registered tool with its handler. -/
structure ServerTool (σ : Type) where
  tool : Tool
  handler : Handler σ

/-- The server's tools in registration order. -/
abbrev MCPServer (σ : Type) := List (ServerTool σ)

/-- The `AddTool` method: one more registration. -/
def MCPServer.AddTool {σ : Type} (s : MCPServer σ) (tool : Tool) (handler : Handler σ) :
    MCPServer σ :=
  s ++ [⟨tool, handler⟩]

def registerMouseTools {σ : Type} (mcpServer : MCPServer σ) : MCPServer σ :=
  -- mouse_move
  let mcpServer := mcpServer.AddTool ⟨"mouse_move",
    "Move mouse cursor to absolute position (x, y)", [
    req .number "x" "X coordinate",
    req .number "y" "Y coordinate",
    opt .number "display_id" "Display ID (optional)"
    ]⟩ mouseMoveHandler
  -- mouse_move_smooth
  let mcpServer := mcpServer.AddTool ⟨"mouse_move_smooth",
    "Move mouse cursor smoothly (human-like) to position", [
    req .number "x" "X coordinate",
    req .number "y" "Y coordinate",
    opt .number "low" "Low speed factor (default: 1.0)",
    opt .number "high" "High speed factor (default: 3.0)"
    ]⟩ mouseMoveSmoothHandler
  -- mouse_move_relative
  let mcpServer := mcpServer.AddTool ⟨"mouse_move_relative",
    "Move mouse cursor relative to current position", [
    req .number "x" "X offset",
    req .number "y" "Y offset"
    ]⟩ mouseMoveRelativeHandler
  -- mouse_get_position
  let mcpServer := mcpServer.AddTool ⟨"mouse_get_position",
    "Get current mouse cursor position", [
    ]⟩ mouseGetPositionHandler
  -- mouse_click
  let mcpServer := mcpServer.AddTool ⟨"mouse_click",
    "Perform mouse click", [
    opt .string "button" "Button: 'left', 'right', 'center' (default: 'left')",
    opt .boolean "double" "Double click (default: false)"
    ]⟩ mouseClickHandler
  -- mouse_click_at
  let mcpServer := mcpServer.AddTool ⟨"mouse_click_at",
    "Move mouse to position and click", [
    req .number "x" "X coordinate",
    req .number "y" "Y coordinate",
    opt .string "button" "Button: 'left', 'right', 'center' (default: 'left')",
    opt .boolean "double" "Double click (default: false)"
    ]⟩ mouseClickAtHandler
  -- mouse_toggle
  let mcpServer := mcpServer.AddTool ⟨"mouse_toggle",
    "Press or release mouse button", [
    opt .string "button" "Button: 'left', 'right', 'center' (default: 'left')",
    opt .boolean "down" "true to press down, false to release (default: true)"
    ]⟩ mouseToggleHandler
  -- mouse_drag
  let mcpServer := mcpServer.AddTool ⟨"mouse_drag",
    "Drag mouse to position", [
    req .number "x" "X coordinate",
    req .number "y" "Y coordinate",
    opt .string "button" "Button to hold during drag (default: 'left')"
    ]⟩ mouseDragHandler
  -- mouse_drag_smooth
  let mcpServer := mcpServer.AddTool ⟨"mouse_drag_smooth",
    "Drag mouse smoothly to position", [
    req .number "x" "X coordinate",
    req .number "y" "Y coordinate",
    opt .number "low" "Low speed factor (default: 1.0)",
    opt .number "high" "High speed factor (default: 3.0)",
    opt .string "button" "Button to hold during drag (default: 'left')"
    ]⟩ mouseDragSmoothHandler
  -- mouse_scroll
  let mcpServer := mcpServer.AddTool ⟨"mouse_scroll",
    "Scroll mouse wheel", [
    req .number "x" "Horizontal scroll amount",
    req .number "y" "Vertical scroll amount",
    opt .number "display_id" "Display ID (optional)"
    ]⟩ mouseScrollHandler
  -- mouse_scroll_direction
  let mcpServer := mcpServer.AddTool ⟨"mouse_scroll_direction",
    "Scroll in a specific direction", [
    req .number "amount" "Scroll amount",
    req .string "direction" "Direction: 'up', 'down', 'left', 'right'"
    ]⟩ mouseScrollDirectionHandler
  -- mouse_scroll_smooth
  let mcpServer := mcpServer.AddTool ⟨"mouse_scroll_smooth",
    "Scroll smoothly", [
    req .number "to" "Target scroll position",
    opt .number "num" "Number of scroll steps (default: 5)",
    opt .number "delay" "Delay between steps in ms (default: 100)"
    ]⟩ mouseScrollSmoothHandler
  mcpServer

def registerKeyboardTools {σ : Type} (mcpServer : MCPServer σ) : MCPServer σ :=
  -- key_tap
  let mcpServer := mcpServer.AddTool ⟨"key_tap",
    "Tap a key (press and release)", [
    req .string "key" "Key to tap (e.g., 'a', 'enter', 'f1')",
    opt .array "modifiers" "Modifier keys: 'alt', 'ctrl', 'shift', 'cmd'"
    ]⟩ keyTapHandler
  -- key_toggle
  let mcpServer := mcpServer.AddTool ⟨"key_toggle",
    "Press or release a key", [
    req .string "key" "Key to toggle",
    opt .boolean "down" "true to press down, false to release (default: true)"
    ]⟩ keyToggleHandler
  -- type_text
  let mcpServer := mcpServer.AddTool ⟨"type_text",
    "Type text (supports UTF-8)", [
    req .string "text" "Text to type",
    opt .number "delay" "Delay between characters in ms (optional)"
    ]⟩ typeTextHandler
  -- type_text_delayed
  let mcpServer := mcpServer.AddTool ⟨"type_text_delayed",
    "Type text with a specific delay between characters", [
    req .string "text" "Text to type",
    req .number "delay" "Delay between characters in ms"
    ]⟩ typeTextDelayedHandler
  -- clipboard_read
  let mcpServer := mcpServer.AddTool ⟨"clipboard_read",
    "Read text from clipboard", [
    ]⟩ clipboardReadHandler
  -- clipboard_write
  let mcpServer := mcpServer.AddTool ⟨"clipboard_write",
    "Write text to clipboard", [
    req .string "text" "Text to write to clipboard"
    ]⟩ clipboardWriteHandler
  -- clipboard_paste
  let mcpServer := mcpServer.AddTool ⟨"clipboard_paste",
    "Paste text via clipboard (writes to clipboard and simulates Ctrl+V/Cmd+V)", [
    req .string "text" "Text to paste"
    ]⟩ clipboardPasteHandler
  mcpServer

def registerScreenTools {σ : Type} (mcpServer : MCPServer σ) : MCPServer σ :=
  -- screen_get_size
  let mcpServer := mcpServer.AddTool ⟨"screen_get_size",
    "Get screen size", [
    opt .number "display_id" "Display ID (optional)"
    ]⟩ screenGetSizeHandler
  -- screen_get_displays_num
  let mcpServer := mcpServer.AddTool ⟨"screen_get_displays_num",
    "Get number of displays/monitors", [
    ]⟩ screenGetDisplaysNumHandler
  -- screen_get_display_bounds
  let mcpServer := mcpServer.AddTool ⟨"screen_get_display_bounds",
    "Get display bounds (x, y, width, height)", [
    req .number "display_id" "Display ID"
    ]⟩ screenGetDisplayBoundsHandler
  -- screen_capture
  let mcpServer := mcpServer.AddTool ⟨"screen_capture",
    "Capture screenshot (returns base64 PNG)", [
    opt .number "x" "X coordinate (optional)",
    opt .number "y" "Y coordinate (optional)",
    opt .number "width" "Width (optional)",
    opt .number "height" "Height (optional)",
    opt .number "display_id" "Display ID (optional)"
    ]⟩ screenCaptureHandler
  -- screen_capture_save
  let mcpServer := mcpServer.AddTool ⟨"screen_capture_save",
    "Capture screenshot and save to file", [
    req .string "path" "File path to save screenshot",
    opt .number "x" "X coordinate (optional)",
    opt .number "y" "Y coordinate (optional)",
    opt .number "width" "Width (optional)",
    opt .number "height" "Height (optional)"
    ]⟩ screenCaptureSaveHandler
  -- screen_get_pixel_color
  let mcpServer := mcpServer.AddTool ⟨"screen_get_pixel_color",
    "Get pixel color at position", [
    req .number "x" "X coordinate",
    req .number "y" "Y coordinate",
    opt .number "display_id" "Display ID (optional)"
    ]⟩ screenGetPixelColorHandler
  -- screen_get_mouse_color
  let mcpServer := mcpServer.AddTool ⟨"screen_get_mouse_color",
    "Get pixel color at current mouse position", [
    opt .number "display_id" "Display ID (optional)"
    ]⟩ screenGetMouseColorHandler
  mcpServer

def registerWindowTools {σ : Type} (mcpServer : MCPServer σ) : MCPServer σ :=
  -- window_get_active
  let mcpServer := mcpServer.AddTool ⟨"window_get_active",
    "Get active window information", [
    ]⟩ windowGetActiveHandler
  -- window_get_title
  let mcpServer := mcpServer.AddTool ⟨"window_get_title",
    "Get window title", [
    opt .number "pid" "Process ID (optional, uses active window if not specified)"
    ]⟩ windowGetTitleHandler
  -- window_get_bounds
  let mcpServer := mcpServer.AddTool ⟨"window_get_bounds",
    "Get window bounds (x, y, width, height)", [
    req .number "pid" "Process ID"
    ]⟩ windowGetBoundsHandler
  -- window_set_active
  let mcpServer := mcpServer.AddTool ⟨"window_set_active",
    "Activate window by PID", [
    req .number "pid" "Process ID"
    ]⟩ windowSetActiveHandler
  -- window_move
  let mcpServer := mcpServer.AddTool ⟨"window_move",
    "Move window to position", [
    req .number "pid" "Process ID",
    req .number "x" "X coordinate",
    req .number "y" "Y coordinate"
    ]⟩ windowMoveHandler
  -- window_resize
  let mcpServer := mcpServer.AddTool ⟨"window_resize",
    "Resize window", [
    req .number "pid" "Process ID",
    req .number "width" "New width",
    req .number "height" "New height"
    ]⟩ windowResizeHandler
  -- window_minimize
  let mcpServer := mcpServer.AddTool ⟨"window_minimize",
    "Minimize window", [
    req .number "pid" "Process ID"
    ]⟩ windowMinimizeHandler
  -- window_maximize
  let mcpServer := mcpServer.AddTool ⟨"window_maximize",
    "Maximize window", [
    req .number "pid" "Process ID"
    ]⟩ windowMaximizeHandler
  -- window_close
  let mcpServer := mcpServer.AddTool ⟨"window_close",
    "Close window", [
    opt .number "pid" "Process ID (optional, closes active window if not specified)"
    ]⟩ windowCloseHandler
  mcpServer

def registerProcessTools {σ : Type} (mcpServer : MCPServer σ) : MCPServer σ :=
  -- process_list
  let mcpServer := mcpServer.AddTool ⟨"process_list",
    "List all running processes", [
    ]⟩ processListHandler
  -- process_find_by_name
  let mcpServer := mcpServer.AddTool ⟨"process_find_by_name",
    "Find processes by name (case insensitive)", [
    req .string "name" "Process name to search for"
    ]⟩ processFindByNameHandler
  -- process_get_name
  let mcpServer := mcpServer.AddTool ⟨"process_get_name",
    "Get process name by PID", [
    req .number "pid" "Process ID"
    ]⟩ processGetNameHandler
  -- process_exists
  let mcpServer := mcpServer.AddTool ⟨"process_exists",
    "Check if process exists", [
    req .number "pid" "Process ID"
    ]⟩ processExistsHandler
  -- process_kill
  let mcpServer := mcpServer.AddTool ⟨"process_kill",
    "Kill process by PID", [
    req .number "pid" "Process ID"
    ]⟩ processKillHandler
  -- process_run
  let mcpServer := mcpServer.AddTool ⟨"process_run",
    "Run shell command", [
    req .string "command" "Command to run"
    ]⟩ processRunHandler
  mcpServer

def registerSystemTools {σ : Type} (mcpServer : MCPServer σ) : MCPServer σ :=
  -- system_get_info
  let mcpServer := mcpServer.AddTool ⟨"system_get_info",
    "Get system information", [
    ]⟩ systemGetInfoHandler
  -- util_sleep
  let mcpServer := mcpServer.AddTool ⟨"util_sleep",
    "Sleep/pause for specified milliseconds", [
    req .number "milliseconds" "Milliseconds to sleep"
    ]⟩ utilSleepHandler
  -- alert_show
  let mcpServer := mcpServer.AddTool ⟨"alert_show",
    "Show alert dialog", [
    req .string "title" "Dialog title",
    req .string "message" "Dialog message",
    opt .string "default_btn" "Default button text (default: 'OK')",
    opt .string "cancel_btn" "Cancel button text (optional)"
    ]⟩ alertShowHandler
  mcpServer

/-- The registrations performed by `main`, in order, on a fresh server. -/
def registeredTools {σ : Type} : MCPServer σ :=
  let mcpServer : MCPServer σ := []
  let mcpServer := registerMouseTools mcpServer
  let mcpServer := registerKeyboardTools mcpServer
  let mcpServer := registerScreenTools mcpServer
  let mcpServer := registerWindowTools mcpServer
  let mcpServer := registerProcessTools mcpServer
  let mcpServer := registerSystemTools mcpServer
  mcpServer

/-! ## Vocabulary of the specification -/

/-- A value the integer and float accessors accept: a `float64`, an `int` or an `int64`. -/
def Value.isNumeric : Value → Bool
  | .float64 _ => true
  | .int _ => true
  | .int64 _ => true
  | _ => false

/-- A string value. -/
def Value.isString : Value → Bool
  | .string _ => true
  | _ => false

/-- The integer a value is coerced to by Go's conversion `int(v)`, when it is numeric. -/
def Platform.coerceInt (P : Platform) : Value → Option Int
  | .float64 f => some (P.intOfFloat64 f)
  | .int i => some i
  | .int64 i => some (P.intOfInt64 i)
  | _ => none

/-- The float a value is widened to by Go's conversion `float64(v)`, when it is numeric. -/
def Value.widenFloat : Value → Option F64
  | .float64 f => some f
  | .int i => some (F64.ofInt i)
  | .int64 i => some (F64.ofInt i)
  | _ => none

/-- Truncation of a rational toward zero. -/
def truncTowardZero (q : ℚ) : Int := if 0 ≤ q then ⌊q⌋ else ⌈q⌉

/-- A 64-bit platform whose out-of-range float conversions give the smallest integer. -/
def amd64 : Platform := ⟨true, fun _ => -(2 ^ 63 : Int)⟩

/-- The float `2.9`. -/
def f2_9 : F64 := ⟨0x4007333333333333⟩

/-- The float `-2.9`. -/
def fNeg2_9 : F64 := ⟨0xC007333333333333⟩

/-! ## A concrete provider for evaluating the handlers -/

/-- A fixed answer to every call: zero, empty, false, no error. -/
def idleResp : (c : Call) → c.Resp
  | .MoveSmooth _ _ _ _ => true
  | .Location => (0, 0)
  | .ReadAll => ("", none)
  | .WriteAll _ => none
  | .Paste _ => none
  | .GetScaleSize _ => (0, 0)
  | .GetScreenSize => (0, 0)
  | .DisplaysNum => 1
  | .GetDisplayBounds _ => (0, 0, 0, 0)
  | .CaptureScreen _ => ⟨[]⟩
  | .ToImage _ => ⟨[]⟩
  | .SaveCapture _ _ => none
  | .GetPixelColor _ _ _ => ""
  | .GetLocationColor _ => ""
  | .GetActive => .nil
  | .GetTitle _ => ""
  | .GetPid => 0
  | .GetBounds _ => (0, 0, 0, 0)
  | .ActivePid _ => none
  | .Process => ([], none)
  | .FindIds _ => ([], none)
  | .FindName _ => ("", none)
  | .PidExists _ => (false, none)
  | .Kill _ => none
  | .Run _ => ("", none)
  | .GetVersion => ""
  | .Is64Bit => true
  | .GetMainId => 0
  | .Alert _ _ _ => true
  | .Move _ _ _ => ()
  | .MoveRelative _ _ => ()
  | .Click _ _ => ()
  | .MoveClick _ _ _ _ => ()
  | .Toggle _ _ => ()
  | .Drag _ _ _ => ()
  | .DragSmooth _ _ _ _ _ => ()
  | .Scroll _ _ _ => ()
  | .ScrollDir _ _ => ()
  | .ScrollSmooth _ _ _ => ()
  | .KeyTap _ _ => ()
  | .KeyToggle _ _ => ()
  | .TypeDelay _ _ => ()
  | .Type_ _ => ()
  | .FreeBitmap _ => ()
  | .MoveWindow _ _ _ => ()
  | .ResizeWindow _ _ _ => ()
  | .MinWindow _ => ()
  | .MaxWindow _ => ()
  | .CloseWindow _ => ()
  | .MilliSleep _ => ()

/-- An environment on the 64-bit platform whose provider has no state and whose
encoders return empty output without error. -/
def idleEnv : Env Unit where
  toPlatform := amd64
  robotgo := fun c s => (idleResp c, s)
  jsonMarshalIndent := fun _ => ("", none)
  pngEncode := fun _ => ([], none)
  base64Encode := fun _ => ""

/-- The world before any call. -/
def idleWorld : World Unit := ⟨(), []⟩

/-! ## Required parameters -/

/-- The mapping holds a numeric value under the key. -/
def Args.hasNumber (args : Args) (k : String) : Bool :=
  match args.get? k with
  | some v => v.isNumeric
  | none => false

/-- The mapping holds a string value under the key. -/
def Args.hasString (args : Args) (k : String) : Bool :=
  match args.get? k with
  | some v => v.isString
  | none => false

/-- The argument mapping holds a value of the declared kind under the parameter's name. -/
def ParamSpec.suppliedIn (p : ParamSpec) (args : Args) : Bool :=
  match p.kind with
  | .number => args.hasNumber p.name
  | .string => args.hasString p.name
  | .boolean => match args.get? p.name with
    | some (.bool _) => true
    | _ => false
  | .array => match args.get? p.name with
    | some (.slice _) => true
    | _ => false

/-- The first parameter, in declaration order, that is declared required and is absent
or wrong-typed in the argument mapping. -/
def Tool.firstMissing (t : Tool) (args : Args) : Option String :=
  ((t.params.filter (fun p => p.required)).find? (fun p => !p.suppliedIn args)).map
    (fun p => p.name)

/-! ## Registrations and environments used as concrete inputs -/

/-- The registration of `mouse_move`. -/
def mouseMoveEntry {σ : Type} : ServerTool σ :=
  ⟨⟨"mouse_move", "Move mouse cursor to absolute position (x, y)",
    [req .number "x" "X coordinate", req .number "y" "Y coordinate",
     opt .number "display_id" "Display ID (optional)"]⟩, mouseMoveHandler⟩

/-- The registration of `key_tap`. -/
def keyTapEntry {σ : Type} : ServerTool σ :=
  ⟨⟨"key_tap", "Tap a key (press and release)",
    [req .string "key" "Key to tap (e.g., 'a', 'enter', 'f1')",
     opt .array "modifiers" "Modifier keys: 'alt', 'ctrl', 'shift', 'cmd'"]⟩, keyTapHandler⟩

/-- The registration of `screen_capture`. -/
def screenCaptureEntry {σ : Type} : ServerTool σ :=
  ⟨⟨"screen_capture", "Capture screenshot (returns base64 PNG)",
    [opt .number "x" "X coordinate (optional)", opt .number "y" "Y coordinate (optional)",
     opt .number "width" "Width (optional)", opt .number "height" "Height (optional)",
     opt .number "display_id" "Display ID (optional)"]⟩, screenCaptureHandler⟩

/-- Exactly one of the two return values is non-nil. -/
def HandlerResult.exclusive (r : HandlerResult) : Prop :=
  (r.1.isSome = true ∧ r.2 = none) ∨ (r.1 = none ∧ r.2.isSome = true)

/-- The idle environment with a PNG encoder that always fails. -/
def failingPngEnv : Env Unit where
  toPlatform := amd64
  robotgo := fun c s => (idleResp c, s)
  jsonMarshalIndent := fun _ => ("", none)
  pngEncode := fun _ => ([], some ⟨"png: unsupported image"⟩)
  base64Encode := fun _ => ""

/-! ## Defaults of optional parameters -/

/-- A default as it is written in a handler's call of a defaulting accessor. -/
inductive DefaultVal where
  | int (i : Int)
  | float (f : F64)
  | string (s : String)
  | bool (b : Bool)
  deriving DecidableEq, Repr

/-- The value `v`, supplied explicitly, stands for the default: it is what the
accessor of that kind coerces to the default. -/
def DefaultVal.heldBy (P : Platform) : DefaultVal → Value → Prop
  | .int i, v => P.coerceInt v = some i
  | .float f, v => v.widenFloat = some f
  | .string s, v => v = .string s
  | .bool b, v => v = .bool b

/-- The optional parameters each handler reads with a default, by tool name: the key
and the default of every `getIntArg`, `getFloatArg`, `getStringArg` and `getBoolArg`
call in the handler registered under that name. -/
def handlerDefaults (toolName : String) : List (String × DefaultVal) :=
  if toolName = "mouse_move" then [("display_id", .int (-1))]
  else if toolName = "mouse_move_smooth" then
    [("low", .float ⟨0x3FF0000000000000⟩), ("high", .float ⟨0x4008000000000000⟩)]
  else if toolName = "mouse_click" then [("button", .string "left"), ("double", .bool false)]
  else if toolName = "mouse_click_at" then [("button", .string "left"), ("double", .bool false)]
  else if toolName = "mouse_toggle" then [("button", .string "left"), ("down", .bool true)]
  else if toolName = "mouse_drag" then [("button", .string "left")]
  else if toolName = "mouse_drag_smooth" then
    [("low", .float ⟨0x3FF0000000000000⟩), ("high", .float ⟨0x4008000000000000⟩),
     ("button", .string "left")]
  else if toolName = "mouse_scroll" then [("display_id", .int (-1))]
  else if toolName = "mouse_scroll_smooth" then [("num", .int 5), ("delay", .int 100)]
  else if toolName = "key_toggle" then [("down", .bool true)]
  else if toolName = "type_text" then [("delay", .int 0)]
  else if toolName = "screen_get_size" then [("display_id", .int (-1))]
  else if toolName = "screen_capture" then
    [("x", .int (-1)), ("y", .int (-1)), ("width", .int (-1)), ("height", .int (-1)),
     ("display_id", .int (-1))]
  else if toolName = "screen_capture_save" then
    [("x", .int (-1)), ("y", .int (-1)), ("width", .int (-1)), ("height", .int (-1))]
  else if toolName = "screen_get_pixel_color" then [("display_id", .int (-1))]
  else if toolName = "screen_get_mouse_color" then [("display_id", .int (-1))]
  else if toolName = "window_get_title" then [("pid", .int (-1))]
  else if toolName = "window_close" then [("pid", .int (-1))]
  else if toolName = "alert_show" then [("default_btn", .string "OK"), ("cancel_btn", .string "")]
  else []

/-! ## Provider errors -/

/-- The error part of a provider response, for the calls that return one. -/
def Call.error? : (c : Call) → c.Resp → Option GoError
  | .ReadAll, r => r.2
  | .WriteAll _, r => r
  | .Paste _, r => r
  | .SaveCapture _ _, r => r
  | .ActivePid _, r => r
  | .Process, r => r.2
  | .FindIds _, r => r.2
  | .FindName _, r => r.2
  | .PidExists _, r => r.2
  | .Kill _, r => r
  | .Run _, r => r.2
  | _, _ => none

/-- The provider call whose error the handler registered under the name checks, with
the arguments the handler passes; `none` when a required argument is missing or the
handler checks no provider error. -/
def fallibleCall (toolName : String) (P : Platform) (args : Args) : Option Call :=
  if toolName = "clipboard_read" then some .ReadAll
  else if toolName = "clipboard_write" then
    if args.hasString "text" then some (.WriteAll (getStringArg args "text" "")) else none
  else if toolName = "clipboard_paste" then
    if args.hasString "text" then some (.Paste (getStringArg args "text" "")) else none
  else if toolName = "screen_capture_save" then
    if args.hasString "path" then
      some (.SaveCapture (getStringArg args "path" "")
        (regionArgs (getIntArg P args "x" (-1)) (getIntArg P args "y" (-1))
          (getIntArg P args "width" (-1)) (getIntArg P args "height" (-1))))
    else none
  else if toolName = "window_set_active" then
    if args.hasNumber "pid" then some (.ActivePid (getIntArg P args "pid" 0)) else none
  else if toolName = "process_list" then some .Process
  else if toolName = "process_find_by_name" then
    if args.hasString "name" then some (.FindIds (getStringArg args "name" "")) else none
  else if toolName = "process_get_name" then
    if args.hasNumber "pid" then some (.FindName (getIntArg P args "pid" 0)) else none
  else if toolName = "process_exists" then
    if args.hasNumber "pid" then some (.PidExists (getIntArg P args "pid" 0)) else none
  else if toolName = "process_kill" then
    if args.hasNumber "pid" then some (.Kill (getIntArg P args "pid" 0)) else none
  else if toolName = "process_run" then
    if args.hasString "command" then some (.Run (getStringArg args "command" "")) else none
  else none

/-- The context a handler puts in front of a provider error, by tool name: the text
before `: %w` in the handler's `fmt.Errorf`. -/
def errorContext (toolName : String) : String :=
  if toolName = "clipboard_read" then "failed to read clipboard"
  else if toolName = "clipboard_write" then "failed to write to clipboard"
  else if toolName = "clipboard_paste" then "failed to paste text"
  else if toolName = "screen_capture_save" then "failed to save capture"
  else if toolName = "window_set_active" then "failed to activate window"
  else if toolName = "process_list" then "failed to get process list"
  else if toolName = "process_find_by_name" then "failed to find processes"
  else if toolName = "process_get_name" then "failed to get process name"
  else if toolName = "process_exists" then "failed to check process"
  else if toolName = "process_kill" then "failed to kill process"
  else if toolName = "process_run" then "failed to run command"
  else ""

/-- The answers of `idleResp`, except that every call that can return an error
returns the error `e`. -/
def brokenResp (e : GoError) : (c : Call) → c.Resp
  | .ReadAll => ("", some e)
  | .WriteAll _ => some e
  | .Paste _ => some e
  | .SaveCapture _ _ => some e
  | .ActivePid _ => some e
  | .Process => ([], some e)
  | .FindIds _ => ([], some e)
  | .FindName _ => ("", some e)
  | .PidExists _ => (false, some e)
  | .Kill _ => some e
  | .Run _ => ("", some e)
  | c => idleResp c

/-- An environment whose provider fails every fallible call with "access denied". -/
def brokenEnv : Env Unit where
  toPlatform := amd64
  robotgo := fun c s => (brokenResp ⟨"access denied"⟩ c, s)
  jsonMarshalIndent := fun _ => ("", none)
  pngEncode := fun _ => ([], none)
  base64Encode := fun _ => ""

/-- The registration of `clipboard_read`. -/
def clipboardReadEntry {σ : Type} : ServerTool σ :=
  ⟨⟨"clipboard_read", "Read text from clipboard", []⟩, clipboardReadHandler⟩

/-- The registration of `process_kill`. -/
def processKillEntry {σ : Type} : ServerTool σ :=
  ⟨⟨"process_kill", "Kill process by PID", [req .number "pid" "Process ID"]⟩,
    processKillHandler⟩

/-! ## Pure queries -/

/-- The provider calls that only read: positions, sizes, counts, titles, identifiers
and version information. Every other call is a mutating call. -/
def Call.isQuery : Call → Bool
  | .Location => true
  | .GetScaleSize _ => true
  | .GetScreenSize => true
  | .DisplaysNum => true
  | .GetDisplayBounds _ => true
  | .GetPixelColor _ _ _ => true
  | .GetLocationColor _ => true
  | .GetActive => true
  | .GetTitle _ => true
  | .GetPid => true
  | .GetBounds _ => true
  | .GetVersion => true
  | .Is64Bit => true
  | .GetMainId => true
  | _ => false

/-- The provider answers read-only calls without changing its state. -/
def Env.queriesPure {σ : Type} (E : Env σ) : Prop :=
  ∀ c : Call, c.isQuery = true → ∀ s : σ, (E.robotgo c s).2 = s

/-- The tools the specification names as pure queries. -/
def pureQueryTools : List String :=
  ["mouse_get_position", "screen_get_size", "screen_get_displays_num", "window_get_active",
   "system_get_info"]

/-- The registration of `mouse_get_position`. -/
def mouseGetPositionEntry {σ : Type} : ServerTool σ :=
  ⟨⟨"mouse_get_position", "Get current mouse cursor position", []⟩, mouseGetPositionHandler⟩

/-- A provider that keeps the pointer position as its state: `Move` sets it,
`Location` reads it, every other call is answered as by `idleResp`. -/
def pointerRobot : (c : Call) → Int × Int → c.Resp × (Int × Int)
  | .Move x y _, _ => ((), (x, y))
  | .Location, s => (s, s)
  | c, s => (idleResp c, s)

/-- The environment of the pointer-tracking provider. -/
def pointerEnv : Env (Int × Int) where
  toPlatform := amd64
  robotgo := pointerRobot
  jsonMarshalIndent := fun _ => ("", none)
  pngEncode := fun _ => ([], none)
  base64Encode := fun _ => ""

/-! ## Documented defaults -/

/-- The text that announces a default in a parameter description. -/
def defaultMarker : List Char := "(default: ".data

/-- The default a description documents: the text between "(default: " and the
next closing parenthesis. -/
def documentedDefault : List Char → Option (List Char)
  | [] => none
  | c :: cs =>
    if defaultMarker.isPrefixOf (c :: cs) then
      some (((c :: cs).drop defaultMarker.length).takeWhile (fun x => x != Char.ofNat 41))
    else documentedDefault cs

/-- The value of a decimal digit. -/
def digitVal (c : Char) : Option Nat :=
  if 48 ≤ c.toNat ∧ c.toNat ≤ 57 then some (c.toNat - 48) else none

/-- The number written by a run of decimal digits, continuing from `acc`. -/
def parseDigits : List Char → Nat → Option Nat
  | [], acc => some acc
  | c :: cs, acc => (digitVal c).bind (fun d => parseDigits cs (acc * 10 + d))

/-- An unsigned decimal numeral `I` or `I.F` read as `(n, k)`, standing for `n / 10^k`. -/
def parseDecimal (tok : List Char) : Option (Nat × Nat) :=
  match tok.dropWhile (fun x => x != Char.ofNat 46) with
  | [] => if tok = [] then none else (parseDigits tok 0).map (fun n => (n, 0))
  | _ :: fp =>
    if tok.takeWhile (fun x => x != Char.ofNat 46) = [] ∨ fp = [] then none
    else (parseDigits (tok.takeWhile (fun x => x != Char.ofNat 46) ++ fp) 0).map
      (fun n => (n, fp.length))

/-- The float is finite, not negative, and denotes exactly `n / 10^k`. -/
def F64.eqDecimal (f : F64) (n k : Nat) : Bool :=
  f.isFinite && !f.sign &&
    (if 0 ≤ f.exp then f.mant * 2 ^ f.exp.toNat * 10 ^ k == n
     else f.mant * 10 ^ k == n * 2 ^ (-f.exp).toNat)

/-- The token found in a description denotes the default: a decimal numeral for
numbers, `true` or `false` for booleans, the text in single quotes for strings. -/
def DefaultVal.documentedAs : DefaultVal → List Char → Bool
  | .int i, tok =>
    match parseDecimal tok with
    | some (n, 0) => i == (n : Int)
    | _ => false
  | .float f, tok =>
    match parseDecimal tok with
    | some (n, k) => f.eqDecimal n k
    | none => false
  | .string s, tok => tok == Char.ofNat 39 :: (s.data ++ [Char.ofNat 39])
  | .bool b, tok => tok == (if b then "true".data else "false".data)

/-- Every default documented in a description of the tool is the default the
handler's table holds for that parameter. -/
def Tool.docConsistent (t : Tool) : Bool :=
  t.params.all (fun p =>
    match documentedDefault p.description.data with
    | none => true
    | some tok =>
      (handlerDefaults t.name).any (fun e => e.1 == p.name && e.2.documentedAs tok))

/-- The documented defaults of a tool: parameter name and the documented text. -/
def Tool.documentedDefaults (t : Tool) : List (String × String) :=
  t.params.filterMap (fun p =>
    (documentedDefault p.description.data).map (fun tok => (p.name, String.mk tok)))

/-- The registration of `mouse_scroll_smooth`. -/
def mouseScrollSmoothEntry {σ : Type} : ServerTool σ :=
  ⟨⟨"mouse_scroll_smooth", "Scroll smoothly",
    [req .number "to" "Target scroll position",
     opt .number "num" "Number of scroll steps (default: 5)",
     opt .number "delay" "Delay between steps in ms (default: 100)"]⟩,
   mouseScrollSmoothHandler⟩

/-! ## Base64 and the PNG signature -/

/-- The character of a 6-bit value in the standard base64 alphabet
(`A`-`Z`, `a`-`z`, `0`-`9`, `+`, `/`). -/
def b64Char (n : Nat) : Char :=
  if n < 26 then Char.ofNat (65 + n)
  else if n < 52 then Char.ofNat (97 + (n - 26))
  else if n < 62 then Char.ofNat (48 + (n - 52))
  else if n = 62 then Char.ofNat 43
  else Char.ofNat 47

/-- The 6-bit value of a character of the standard base64 alphabet. -/
def b64Index (c : Char) : Option Nat :=
  if 65 ≤ c.toNat ∧ c.toNat ≤ 90 then some (c.toNat - 65)
  else if 97 ≤ c.toNat ∧ c.toNat ≤ 122 then some (c.toNat - 97 + 26)
  else if 48 ≤ c.toNat ∧ c.toNat ≤ 57 then some (c.toNat - 48 + 52)
  else if c.toNat = 43 then some 62
  else if c.toNat = 47 then some 63
  else none

/-- The padding character `=`. -/
def b64Pad : Char := Char.ofNat 61

/-- Standard base64 of a byte sequence, three bytes to four characters, padded. -/
def base64EncodeChars : List Nat → List Char
  | [] => []
  | [a] => [b64Char (a / 4), b64Char (a % 4 * 16), b64Pad, b64Pad]
  | [a, b] => [b64Char (a / 4), b64Char (a % 4 * 16 + b / 16), b64Char (b % 16 * 4), b64Pad]
  | a :: b :: c :: rest =>
    b64Char (a / 4) :: b64Char (a % 4 * 16 + b / 16) :: b64Char (b % 16 * 4 + c / 64) ::
      b64Char (c % 64) :: base64EncodeChars rest

/-- Go's `base64.StdEncoding.EncodeToString`. -/
def base64StdEncode (bytes : List Nat) : String := String.mk (base64EncodeChars bytes)

/-- Standard base64 decoding, four characters to three bytes; padding only in the
last group. -/
def base64DecodeChars : List Char → Option (List Nat)
  | [] => some []
  | w :: x :: y :: z :: rest =>
    if y = b64Pad ∧ z = b64Pad then
      if rest = [] then
        (b64Index w).bind (fun s1 => (b64Index x).bind (fun s2 => some [s1 * 4 + s2 / 16]))
      else none
    else if z = b64Pad then
      if rest = [] then
        (b64Index w).bind (fun s1 => (b64Index x).bind (fun s2 => (b64Index y).bind (fun s3 =>
          some [s1 * 4 + s2 / 16, s2 % 16 * 16 + s3 / 4])))
      else none
    else
      (b64Index w).bind (fun s1 => (b64Index x).bind (fun s2 => (b64Index y).bind (fun s3 =>
        (b64Index z).bind (fun s4 => (base64DecodeChars rest).bind (fun tail =>
          some ((s1 * 4 + s2 / 16) :: (s2 % 16 * 16 + s3 / 4) :: (s3 % 4 * 64 + s4) :: tail))))))
  | _ => none

/-- Go's `base64.StdEncoding.DecodeString`; `none` is a decoding error. -/
def base64StdDecode (s : String) : Option (List Nat) := base64DecodeChars s.data

/-! ## A marshaller and the capture chain, for stating results -/

/-- A character that `encoding/json` writes into a string unescaped: printable ASCII
other than the double quote, the backslash, `<`, `>` and `&`. -/
def jsonPlain (c : Char) : Bool :=
  decide (32 ≤ c.toNat) && decide (c.toNat < 127) && c.toNat != 34 && c.toNat != 92 &&
    c.toNat != 60 && c.toNat != 62 && c.toNat != 38

/-- The string fields of a mapping, when every field is a string of plain characters. -/
def plainFields : List (String × Value) → Option (List (String × String))
  | [] => some []
  | (k, .string s) :: rest =>
    if k.data.all jsonPlain && s.data.all jsonPlain then
      (plainFields rest).map (fun l => (k, s) :: l)
    else none
  | _ :: _ => none

/-- The order in which `encoding/json` writes the keys of a mapping: by character
code, a proper initial part first. -/
def keyLe : List Char → List Char → Bool
  | [], _ => true
  | _ :: _, [] => false
  | a :: as, b :: bs => decide (a.toNat < b.toNat) || (a.toNat == b.toNat && keyLe as bs)

/-- What `json.MarshalIndent(data, "", "  ")` writes for a mapping from strings to
plain strings: one line per field, keys in sorted order, indented by two spaces.
Other values are outside this stand-in and give an error. -/
def marshalStringMap (data : Value) : String × Option GoError :=
  match data with
  | .map fields =>
    match plainFields fields with
    | some l =>
      ("\x7b\n" ++ ",\n".intercalate
        ((l.insertionSort (fun a b => keyLe a.1.data b.1.data = true)).map
          (fun e => "  \"" ++ e.1 ++ "\": \"" ++ e.2 ++ "\"")) ++ "\n\x7d", none)
    | none => ("", some ⟨"json: unsupported value"⟩)
  | _ => ("", some ⟨"json: unsupported value"⟩)

/-- The idle environment with the marshaller for mappings of strings. -/
def jsonEnv : Env Unit where
  toPlatform := amd64
  robotgo := fun c s => (idleResp c, s)
  jsonMarshalIndent := marshalStringMap
  pngEncode := fun _ => ([], none)
  base64Encode := fun _ => ""

/-- The bitmap the provider returns for `CaptureScreen(args...)` issued in world `w`. -/
def capturedBitmap {σ : Type} (E : Env σ) (args : List Int) (w : World σ) : CBitmap :=
  (invoke E (.CaptureScreen args) w).1

/-- The image the provider then makes of that bitmap with `ToImage`. -/
def capturedImage {σ : Type} (E : Env σ) (args : List Int) (w : World σ) : Image :=
  (invoke E (.ToImage (capturedBitmap E args w)) (invoke E (.CaptureScreen args) w).2).1

/-- The world after `CaptureScreen(args...)`, `ToImage` of its bitmap and `FreeBitmap`
of the same bitmap, issued in this order from world `w`. -/
def captureDone {σ : Type} (E : Env σ) (args : List Int) (w : World σ) : World σ :=
  (invoke E (.FreeBitmap (capturedBitmap E args w))
    (invoke E (.ToImage (capturedBitmap E args w)) (invoke E (.CaptureScreen args) w).2).2).2

/-- The 8-byte PNG signature `89 50 4E 47 0D 0A 1A 0A`. -/
def pngSignature : List Nat := [0x89, 0x50, 0x4E, 0x47, 0x0D, 0x0A, 0x1A, 0x0A]

/-- An environment with the standard base64 encoding and a PNG encoder stand-in
that writes the PNG signature followed by the image data. -/
def pngEnv : Env Unit where
  toPlatform := amd64
  robotgo := fun c s => (idleResp c, s)
  jsonMarshalIndent := marshalStringMap
  pngEncode := fun img => (pngSignature ++ img.data, none)
  base64Encode := base64StdEncode

/-! ## Dispatch by tool name -/

/-- Modelled from the spec: `lookup(name) -> (descriptor, handler) | NotFound`, a pure
read of the registry: the registration made under the name, if there is one. -/
def MCPServer.lookup {σ : Type} (s : MCPServer σ) (name : String) : Option (ServerTool σ) :=
  s.find? (fun st => st.tool.name == name)

/-- Modelled from the spec: the outcome of one invocation: the `UnknownTool` failure,
carrying the requested name, or what the bound handler returned. -/
inductive InvocationResult where
  | UnknownTool (toolName : String)
  | handled (r : HandlerResult)

/-- Modelled from the spec: the Dispatch Core. Step 1 resolves `toolName` by
`lookup`; not found fails with `UnknownTool` carrying the requested name and no
handler is invoked. Step 2 invokes the bound handler with the raw argument mapping;
its success or failure is the result. -/
def dispatch {σ : Type} (s : MCPServer σ) (E : Env σ) (toolName : String)
    (request : CallToolRequest) (w : World σ) : InvocationResult × World σ :=
  match s.lookup toolName with
  | none => (.UnknownTool toolName, w)
  | some st =>
    let r := st.handler E request w
    (.handled r.1, r.2)

/-! ## Theorems: the argument codec -/

theorem coerceInt_isSome (P : Platform) (v : Value) :
    (P.coerceInt v).isSome = v.isNumeric := by
  cases v <;> rfl

/-- C1: `getRequiredIntArg` returns an error exactly when the key is absent or its
value is not numeric; the error comes with the value 0 and names the key, and in
every other case the coerced integer is returned with no error. -/
theorem getRequiredIntArg_error_iff (P : Platform) (args : Args) (k : String) :
    ((getRequiredIntArg P args k).2 ≠ none ↔
        (args.get? k = none ∨ ∃ v, args.get? k = some v ∧ v.isNumeric = false)) ∧
    ((getRequiredIntArg P args k).2 ≠ none ↔
        getRequiredIntArg P args k = (0, some (missingParameter k))) ∧
    ((getRequiredIntArg P args k).2 = none ↔
        ∃ v i, args.get? k = some v ∧ v.isNumeric = true ∧ P.coerceInt v = some i ∧
          getRequiredIntArg P args k = (i, none)) := by
  unfold getRequiredIntArg
  cases h : args.get? k with
  | none => simp
  | some v => cases v <;> simp [Value.isNumeric, Platform.coerceInt]

/-- C4: `getIntArg` is total: it returns the coerced integer when the key holds a
numeric value and the default when the key is absent or holds any other value. -/
theorem getIntArg_spec (P : Platform) (args : Args) (k : String) (d : Int) :
    (∀ v, args.get? k = some v → v.isNumeric = true →
        ∃ i, P.coerceInt v = some i ∧ getIntArg P args k d = i) ∧
    (args.get? k = none → getIntArg P args k d = d) ∧
    (∀ v, args.get? k = some v → v.isNumeric = false → getIntArg P args k d = d) := by
  unfold getIntArg
  cases h : args.get? k with
  | none => simp
  | some v => cases v <;> simp [Value.isNumeric, Platform.coerceInt]

/-- C7: a string value is never coerced to a number: the required integer accessor
fails, and the optional integer and float accessors return their defaults. -/
theorem string_never_coerced (P : Platform) (args : Args) (k s : String) (d : Int) (fd : F64)
    (h : args.get? k = some (.string s)) :
    getRequiredIntArg P args k = (0, some (missingParameter k)) ∧
    getIntArg P args k d = d ∧
    getFloatArg args k fd = fd := by
  simp [getRequiredIntArg, getIntArg, getFloatArg, h]

theorem string_never_coerced_witness :
    getRequiredIntArg amd64 [("x", .string "42")] "x" = (0, some (missingParameter "x")) ∧
    getIntArg amd64 [("x", .string "42")] "x" 7 = 7 ∧
    getFloatArg [("x", .string "42")] "x" ⟨0⟩ = ⟨0⟩ :=
  string_never_coerced amd64 [("x", .string "42")] "x" "42" 7 ⟨0⟩ rfl

/-! ## Theorems: float to integer conversion -/

theorem truncTowardZero_signed (x : ℚ) (M : Nat) (hx : 0 ≤ x) (hM : ⌊x⌋ = (M : Int)) (s : Bool) :
    truncTowardZero ((if s then -1 else 1) * x) = if s then -(M : Int) else (M : Int) := by
  unfold truncTowardZero
  cases s with
  | false => simp [hx, hM]
  | true =>
    simp only [if_true, neg_mul, one_mul]
    by_cases h0 : 0 ≤ -x
    · have hx0 : x = 0 := le_antisymm (by linarith) hx
      subst hx0
      simp at hM
      simp [← hM]
    · rw [if_neg h0, Int.ceil_neg, hM]

theorem F64.floor_mag (f : F64) :
    0 ≤ (f.mant : ℚ) * (2 : ℚ) ^ f.exp ∧ ⌊(f.mant : ℚ) * (2 : ℚ) ^ f.exp⌋ = (f.truncMag : Int) := by
  constructor
  · positivity
  · unfold F64.truncMag
    by_cases he : 0 ≤ f.exp
    · rw [if_pos he]
      obtain ⟨n, hn⟩ := Int.eq_ofNat_of_zero_le he
      rw [hn]
      simp only [Int.toNat_ofNat, zpow_natCast]
      have : (f.mant : ℚ) * 2 ^ n = (((f.mant * 2 ^ n : Nat) : Int) : ℚ) := by push_cast; ring
      rw [this, Int.floor_intCast]
    · rw [if_neg he]
      have hneg : 0 ≤ -f.exp := by omega
      obtain ⟨n, hn⟩ := Int.eq_ofNat_of_zero_le hneg
      have he2 : f.exp = -(n : Int) := by omega
      rw [hn, he2]
      simp only [Int.toNat_ofNat, zpow_neg, zpow_natCast]
      have : (f.mant : ℚ) * ((2 : ℚ) ^ n)⁻¹ = ((f.mant : Nat) : ℚ) / ((2 ^ n : Nat) : ℚ) := by
        push_cast; ring
      rw [this, Rat.floor_natCast_div_natCast]
      push_cast; rfl

/-- The integer part computed from the bit pattern is the truncation toward zero
of the rational number the float denotes. -/
theorem F64.trunc_eq_truncTowardZero (f : F64) : f.trunc = truncTowardZero f.toRat := by
  obtain ⟨h0, hM⟩ := F64.floor_mag f
  have := truncTowardZero_signed _ _ h0 hM f.sign
  unfold F64.trunc F64.toRat
  rw [mul_assoc, this]

theorem truncTowardZero_mem_range (q : ℚ) (lo hi : Int) (hlo : (lo : ℚ) ≤ q) (hhi : q ≤ (hi : ℚ)) :
    lo ≤ truncTowardZero q ∧ truncTowardZero q ≤ hi := by
  unfold truncTowardZero
  split
  · refine ⟨Int.le_floor.mpr hlo, ?_⟩
    have h1 : ((⌊q⌋ : Int) : ℚ) ≤ q := Int.floor_le q
    exact_mod_cast h1.trans hhi
  · refine ⟨?_, Int.ceil_le.mpr hhi⟩
    have h1 : q ≤ ((⌈q⌉ : Int) : ℚ) := Int.le_ceil q
    exact_mod_cast hlo.trans h1

theorem truncTowardZero_intCast (n : Int) : truncTowardZero (n : ℚ) = n := by
  unfold truncTowardZero
  split <;> simp

theorem intOfFloat64_in_range (P : Platform) (f : F64) (hfin : f.isFinite = true)
    (hlo : (P.minInt : ℚ) ≤ f.toRat) (hhi : f.toRat ≤ (P.maxInt : ℚ)) :
    P.intOfFloat64 f = truncTowardZero f.toRat := by
  have hr := truncTowardZero_mem_range f.toRat P.minInt P.maxInt hlo hhi
  rw [← F64.trunc_eq_truncTowardZero] at hr
  unfold Platform.intOfFloat64
  rw [if_pos ⟨hfin, hr.1, hr.2⟩, F64.trunc_eq_truncTowardZero]

/-- C6: a floating-point argument that lies within the range of `int` is returned by
`getRequiredIntArg` and `getIntArg` truncated toward zero; an integer-valued float is
returned as exactly that integer. -/
theorem float_arg_truncates (P : Platform) (args : Args) (k : String) (f : F64) (d : Int)
    (hk : args.get? k = some (.float64 f)) (hfin : f.isFinite = true)
    (hlo : (P.minInt : ℚ) ≤ f.toRat) (hhi : f.toRat ≤ (P.maxInt : ℚ)) :
    getRequiredIntArg P args k = (truncTowardZero f.toRat, none) ∧
    getIntArg P args k d = truncTowardZero f.toRat ∧
    (∀ n : Int, f.toRat = (n : ℚ) →
      getRequiredIntArg P args k = (n, none) ∧ getIntArg P args k d = n) := by
  have h := intOfFloat64_in_range P f hfin hlo hhi
  refine ⟨by simp [getRequiredIntArg, hk, h], by simp [getIntArg, hk, h], ?_⟩
  intro n hn
  rw [hn, truncTowardZero_intCast] at h
  exact ⟨by simp [getRequiredIntArg, hk, h], by simp [getIntArg, hk, h]⟩

theorem f2_9_toRat : f2_9.toRat = 6530219459687219 / 2251799813685248 := by
  have hs : f2_9.sign = false := by decide
  have hm : f2_9.mant = 6530219459687219 := by decide
  have he : f2_9.exp = -51 := by decide
  rw [F64.toRat, hs, hm, he]
  norm_num

theorem fNeg2_9_toRat : fNeg2_9.toRat = -(6530219459687219 / 2251799813685248) := by
  have hs : fNeg2_9.sign = true := by decide
  have hm : fNeg2_9.mant = 6530219459687219 := by decide
  have he : fNeg2_9.exp = -51 := by decide
  rw [F64.toRat, hs, hm, he]
  norm_num

theorem amd64_minInt : amd64.minInt = -9223372036854775808 := by decide

theorem amd64_maxInt : amd64.maxInt = 9223372036854775807 := by decide

theorem float_arg_truncates_witness :
    (getRequiredIntArg amd64 [("x", .float64 f2_9)] "x" = (truncTowardZero f2_9.toRat, none) ∧
      getIntArg amd64 [("x", .float64 f2_9)] "x" 0 = truncTowardZero f2_9.toRat ∧
      (∀ n : Int, f2_9.toRat = (n : ℚ) →
        getRequiredIntArg amd64 [("x", .float64 f2_9)] "x" = (n, none) ∧
        getIntArg amd64 [("x", .float64 f2_9)] "x" 0 = n)) ∧
    getIntArg amd64 [("x", .float64 f2_9)] "x" 0 = 2 ∧
    getIntArg amd64 [("x", .float64 fNeg2_9)] "x" 0 = -2 ∧
    getRequiredIntArg amd64 [("x", .float64 (F64.ofInt 100))] "x" = (100, none) :=
  ⟨float_arg_truncates amd64 [("x", .float64 f2_9)] "x" f2_9 0 rfl (by decide)
      (by rw [f2_9_toRat, amd64_minInt]; norm_num) (by rw [f2_9_toRat, amd64_maxInt]; norm_num),
    by decide, by decide, by decide⟩

/-! ## Theorems: integer to float conversion -/

theorem F64.bitLen_zero (fuel : Nat) : F64.bitLen fuel 0 = 0 := by
  cases fuel <;> simp [F64.bitLen]

theorem F64.bitLen_spec (fuel n : Nat) (hn : n < 2 ^ fuel) (hpos : 0 < n) :
    1 ≤ F64.bitLen fuel n ∧ 2 ^ (F64.bitLen fuel n - 1) ≤ n ∧ n < 2 ^ F64.bitLen fuel n := by
  induction fuel generalizing n with
  | zero => rw [Nat.pow_zero] at hn; omega
  | succ fuel ih =>
    have hne : n ≠ 0 := by omega
    simp only [F64.bitLen, if_neg hne]
    by_cases h2 : n / 2 = 0
    · have h1 : n = 1 := by omega
      subst h1
      simp [F64.bitLen_zero]
    · have hlt : n / 2 < 2 ^ fuel := by
        rw [Nat.pow_succ] at hn
        omega
      obtain ⟨hL, hlo, hhi⟩ := ih (n / 2) hlt (by omega)
      refine ⟨by omega, ?_, ?_⟩
      · have e : 2 ^ (F64.bitLen fuel (n / 2) + 1 - 1) = 2 * 2 ^ (F64.bitLen fuel (n / 2) - 1) := by
          rw [Nat.add_sub_cancel]
          conv_lhs => rw [show F64.bitLen fuel (n / 2) = (F64.bitLen fuel (n / 2) - 1) + 1 by omega]
          rw [Nat.pow_succ, Nat.mul_comm]
        rw [e]
        omega
      · rw [Nat.pow_succ]
        omega

theorem F64.encodeMag_decode (n : Nat) (hpos : 0 < n) (hn : n < 2 ^ 53) (s : Nat) (hs : s ≤ 1) :
    (F64.mk (s * 2 ^ 63 + F64.encodeMag n)).toRat = (if s = 1 then -1 else 1) * (n : ℚ) := by
  have hn64 : n < 2 ^ 64 := lt_of_lt_of_le hn (by norm_num)
  obtain ⟨hL1, hlo, hhi⟩ := F64.bitLen_spec 64 n hn64 hpos
  set len := F64.bitLen 64 n with hlen
  have hlen53 : len ≤ 53 := by
    by_contra hc
    have : 2 ^ 53 ≤ 2 ^ (len - 1) := Nat.pow_le_pow_right (by norm_num) (by omega)
    omega
  have hX1 : 2 ^ 52 ≤ n * 2 ^ (53 - len) := by
    calc 2 ^ 52 = 2 ^ (len - 1) * 2 ^ (53 - len) := by
          rw [← Nat.pow_add]; congr 1; omega
      _ ≤ n * 2 ^ (53 - len) := Nat.mul_le_mul_right _ hlo
  have hX2 : n * 2 ^ (53 - len) < 2 ^ 53 := by
    calc n * 2 ^ (53 - len) < 2 ^ len * 2 ^ (53 - len) :=
          Nat.mul_lt_mul_of_pos_right hhi (by positivity)
      _ = 2 ^ 53 := by rw [← Nat.pow_add]; congr 1; omega
  have henc : F64.encodeMag n = (1022 + len) * 2 ^ 52 + (n * 2 ^ (53 - len) - 2 ^ 52) := by
    simp only [F64.encodeMag, ← hlen, if_pos hlen53]
  generalize hX : n * 2 ^ (53 - len) = X at hX1 hX2 henc
  norm_num at hX1 hX2
  have hbits : s * 2 ^ 63 + F64.encodeMag n =
      s * 9223372036854775808 + (1022 + len) * 4503599627370496 + (X - 4503599627370496) := by
    rw [henc]; norm_num; omega
  have hexp : (F64.mk (s * 2 ^ 63 + F64.encodeMag n)).expBits = 1022 + len := by
    simp only [F64.expBits, hbits]; norm_num; omega
  have hfrac : (F64.mk (s * 2 ^ 63 + F64.encodeMag n)).frac = X - 4503599627370496 := by
    simp only [F64.frac, hbits]; norm_num; omega
  have hsign : (F64.mk (s * 2 ^ 63 + F64.encodeMag n)).sign = decide (s = 1) := by
    simp only [F64.sign, hbits]
    have : (s * 9223372036854775808 + (1022 + len) * 4503599627370496 + (X - 4503599627370496))
        / 2 ^ 63 % 2 = s := by norm_num; omega
    rw [this]
    rcases Nat.le_one_iff_eq_zero_or_eq_one.mp hs with rfl | rfl <;> rfl
  have hmant : (F64.mk (s * 2 ^ 63 + F64.encodeMag n)).mant = X := by
    simp only [F64.mant, hexp, hfrac]
    rw [if_neg (by omega)]; norm_num; omega
  have hexp2 : (F64.mk (s * 2 ^ 63 + F64.encodeMag n)).exp = (len : Int) - 53 := by
    simp only [F64.exp, hexp]
    rw [if_neg (by omega)]; push_cast; omega
  rw [F64.toRat, hsign, hmant, hexp2, ← hX]
  have hpow : ((n * 2 ^ (53 - len) : Nat) : ℚ) * (2 : ℚ) ^ ((len : Int) - 53) = n := by
    have h53 : ((len : Int) - 53) = -((53 - len : Nat) : Int) := by omega
    rw [h53, zpow_neg, zpow_natCast]
    push_cast
    field_simp
  by_cases h1 : s = 1
  · simp only [h1, decide_True, if_true]
    rw [mul_assoc, hpow]
  · simp only [h1, decide_False, if_false]
    rw [mul_assoc, hpow]
    simp

/-- Go's `float64(v)` is exact for integers of magnitude below `2^53`. -/
theorem F64.ofInt_toRat (i : Int) (h : i.natAbs < 2 ^ 53) : (F64.ofInt i).toRat = (i : ℚ) := by
  unfold F64.ofInt
  by_cases h0 : i = 0
  · subst h0
    simp [F64.toRat, F64.mant, F64.expBits, F64.frac]
  · rw [if_neg h0]
    have hpos : 0 < i.natAbs := Int.natAbs_pos.mpr h0
    by_cases hneg : i < 0
    · rw [if_pos hneg]
      have := F64.encodeMag_decode i.natAbs hpos h 1 (le_refl 1)
      simp only [one_mul, if_true] at this
      rw [this]
      have : ((i.natAbs : Int) : ℚ) = -(i : ℚ) := by
        rw [Int.ofNat_natAbs_of_nonpos (le_of_lt hneg)]; push_cast; ring
      have h2 : ((i.natAbs : Nat) : ℚ) = ((i.natAbs : Int) : ℚ) := (Int.cast_natCast i.natAbs).symm
      rw [h2, this]; ring
    · rw [if_neg hneg]
      have := F64.encodeMag_decode i.natAbs hpos h 0 (by norm_num)
      simp only [zero_mul, zero_add] at this
      rw [this]
      have : ((i.natAbs : Int) : ℚ) = (i : ℚ) := by
        rw [Int.natAbs_of_nonneg (by omega)]
      have h2 : ((i.natAbs : Nat) : ℚ) = ((i.natAbs : Int) : ℚ) := (Int.cast_natCast i.natAbs).symm
      rw [h2, this]; simp

/-! ## Theorems: the string, boolean and float accessors -/

/-- C8: the string, boolean and float accessors return the stored value when the key
holds a value of the declared kind (for float: a `float64`, or an `int` or `int64`
widened by `float64(v)`) and the default otherwise; `getRequiredStringArg` succeeds
with the stored value exactly when the key holds a string and otherwise fails. The
widening keeps the number itself for integers of magnitude below `2^53`. -/
theorem accessors_coerce_or_default (args : Args) (k : String) (ds : String) (db : Bool)
    (df : F64) :
    (∀ s, args.get? k = some (.string s) → getStringArg args k ds = s) ∧
    ((∀ s, args.get? k ≠ some (.string s)) → getStringArg args k ds = ds) ∧
    (∀ b, args.get? k = some (.bool b) → getBoolArg args k db = b) ∧
    ((∀ b, args.get? k ≠ some (.bool b)) → getBoolArg args k db = db) ∧
    (∀ v x, args.get? k = some v → v.widenFloat = some x → getFloatArg args k df = x) ∧
    ((∀ v, args.get? k = some v → v.isNumeric = false) → getFloatArg args k df = df) ∧
    (∀ s, args.get? k = some (.string s) ↔ getRequiredStringArg args k = (s, none)) ∧
    ((∀ s, args.get? k ≠ some (.string s)) ↔
      getRequiredStringArg args k = ("", some (missingParameter k))) ∧
    (∀ i : Int, i.natAbs < 2 ^ 53 →
      (args.get? k = some (.int i) ∨ args.get? k = some (.int64 i)) →
      (getFloatArg args k df).toRat = (i : ℚ)) := by
  refine ⟨?_, ?_, ?_, ?_, ?_, ?_, ?_, ?_, ?_⟩
  · intro s h
    simp [getStringArg, h]
  · intro h
    unfold getStringArg
    cases hv : args.get? k with
    | none => rfl
    | some v => cases v <;> simp_all
  · intro b h
    simp [getBoolArg, h]
  · intro h
    unfold getBoolArg
    cases hv : args.get? k with
    | none => rfl
    | some v => cases v <;> simp_all
  · intro v x hv hx
    cases v <;> simp_all [getFloatArg, Value.widenFloat]
  · intro h
    unfold getFloatArg
    cases hv : args.get? k with
    | none => rfl
    | some v => cases v <;> simp_all [Value.isNumeric]
  · intro s
    unfold getRequiredStringArg
    cases hv : args.get? k with
    | none => simp
    | some v => cases v <;> simp
  · unfold getRequiredStringArg
    cases hv : args.get? k with
    | none => simp
    | some v => cases v <;> simp
  · intro i hi h
    rcases h with h | h <;> simp [getFloatArg, h, F64.ofInt_toRat i hi]

/-! ## Theorems: missing required parameters -/

theorem getRequiredIntArg_eq (P : Platform) (args : Args) (k : String) :
    getRequiredIntArg P args k =
      if args.hasNumber k then (getIntArg P args k 0, none)
      else (0, some (missingParameter k)) := by
  unfold getRequiredIntArg getIntArg Args.hasNumber
  cases hv : args.get? k with
  | none => simp
  | some v => cases v <;> simp [Value.isNumeric]

theorem getRequiredStringArg_eq (args : Args) (k : String) :
    getRequiredStringArg args k =
      if args.hasString k then (getStringArg args k "", none)
      else ("", some (missingParameter k)) := by
  unfold getRequiredStringArg getStringArg Args.hasString
  cases hv : args.get? k with
  | none => simp
  | some v => cases v <;> simp [Value.isString]

theorem handler_fails_on_first_missing {σ : Type} :
    ∀ st ∈ (registeredTools : MCPServer σ), ∀ (E : Env σ) (request : CallToolRequest)
      (w : World σ) (p : String), st.tool.firstMissing (getArgs request) = some p →
      st.handler E request w = (failureOf (missingParameter p), w) := by
  simp only [registeredTools, registerMouseTools, registerKeyboardTools, registerScreenTools,
    registerWindowTools, registerProcessTools, registerSystemTools,
    MCPServer.AddTool, List.nil_append, List.cons_append,
    List.forall_mem_cons, List.not_mem_nil, false_imp_iff, implies_true, and_true]
  refine ⟨?_, ?_, ?_, ?_, ?_, ?_, ?_, ?_, ?_, ?_, ?_, ?_, ?_, ?_, ?_, ?_, ?_, ?_, ?_, ?_, ?_, ?_,
    ?_, ?_, ?_, ?_, ?_, ?_, ?_, ?_, ?_, ?_, ?_, ?_, ?_, ?_, ?_, ?_, ?_, ?_, ?_, ?_, ?_, ?_⟩
  all_goals
    intro E request w p h
    simp [Tool.firstMissing, req, opt, ParamSpec.suppliedIn, List.filter, List.find?] at h <;>
    (simp only [mouseMoveHandler, mouseMoveSmoothHandler, mouseMoveRelativeHandler,
      mouseGetPositionHandler, mouseClickHandler, mouseClickAtHandler, mouseToggleHandler,
      mouseDragHandler, mouseDragSmoothHandler, mouseScrollHandler, mouseScrollDirectionHandler,
      mouseScrollSmoothHandler, keyTapHandler, keyToggleHandler, typeTextHandler,
      typeTextDelayedHandler, clipboardReadHandler, clipboardWriteHandler, clipboardPasteHandler,
      screenGetSizeHandler, screenGetDisplaysNumHandler, screenGetDisplayBoundsHandler,
      screenCaptureHandler, screenCaptureSaveHandler, screenGetPixelColorHandler,
      screenGetMouseColorHandler, windowGetActiveHandler, windowGetTitleHandler,
      windowGetBoundsHandler, windowSetActiveHandler, windowMoveHandler, windowResizeHandler,
      windowMinimizeHandler, windowMaximizeHandler, windowCloseHandler, processListHandler,
      processFindByNameHandler, processGetNameHandler, processExistsHandler, processKillHandler,
      processRunHandler, systemGetInfoHandler, utilSleepHandler, alertShowHandler,
      getRequiredIntArg_eq, getRequiredStringArg_eq]
     split_ifs at h ⊢ <;> simp_all)

theorem firstMissing_isSome_iff (t : Tool) (args : Args) :
    (∃ p ∈ t.params, p.required = true ∧ p.suppliedIn args = false) ↔
      ∃ q ∈ t.params, q.required = true ∧ q.suppliedIn args = false ∧
        t.firstMissing args = some q.name := by
  constructor
  · rintro ⟨p, hp, hr, hs⟩
    unfold Tool.firstMissing
    cases hf : (t.params.filter (fun p => p.required)).find? (fun p => !p.suppliedIn args) with
    | none =>
      rw [List.find?_eq_none] at hf
      have := hf p (List.mem_filter.mpr ⟨hp, hr⟩)
      simp [hs] at this
    | some q =>
      have hq1 := List.find?_some hf
      have hq2 := List.mem_of_find?_eq_some hf
      rw [List.mem_filter] at hq2
      exact ⟨q, hq2.1, hq2.2, by simpa using hq1, rfl⟩
  · rintro ⟨q, hq, hr, hs, _⟩
    exact ⟨q, hq, hr, hs⟩

theorem missingParameter_contains (p : String) :
    p.data <:+: (missingParameter p).Error.data := by
  refine ⟨"required parameter '".data, "' is missing".data, ?_⟩
  simp [missingParameter, String.data_append]

/-- C3: when some required parameter of a registered tool is absent or wrong-typed,
the handler returns the missing-parameter failure for such a parameter and leaves
the world as it was: no call has reached the provider. -/
theorem missing_required_no_provider_call {σ : Type} (st : ServerTool σ)
    (hst : st ∈ (registeredTools : MCPServer σ)) (E : Env σ) (request : CallToolRequest)
    (w : World σ)
    (hmiss : ∃ p ∈ st.tool.params, p.required = true ∧ p.suppliedIn (getArgs request) = false) :
    ∃ q ∈ st.tool.params, q.required = true ∧ q.suppliedIn (getArgs request) = false ∧
      st.handler E request w = ((none, some (missingParameter q.name)), w) := by
  obtain ⟨q, hq, hr, hs, hf⟩ := (firstMissing_isSome_iff st.tool (getArgs request)).mp hmiss
  exact ⟨q, hq, hr, hs, handler_fails_on_first_missing st hst E request w q.name hf⟩

theorem mouseMoveEntry_mem {σ : Type} : mouseMoveEntry ∈ (registeredTools : MCPServer σ) := by
  simp [registeredTools, registerMouseTools, registerKeyboardTools, registerScreenTools,
    registerWindowTools, registerProcessTools, registerSystemTools, MCPServer.AddTool,
    mouseMoveEntry]

theorem keyTapEntry_mem {σ : Type} : keyTapEntry ∈ (registeredTools : MCPServer σ) := by
  simp [registeredTools, registerMouseTools, registerKeyboardTools, registerScreenTools,
    registerWindowTools, registerProcessTools, registerSystemTools, MCPServer.AddTool,
    keyTapEntry]

theorem suppliedIn_of_absent (p : ParamSpec) (args : Args) (h : args.get? p.name = none) :
    p.suppliedIn args = false := by
  unfold ParamSpec.suppliedIn Args.hasNumber Args.hasString
  cases p.kind <;> simp [h]

/-- C2, as stated, fails: `mouse_move` declares the required parameter `y`, the empty
mapping does not contain it, and the failure message names `x` and does not contain `y`. -/
theorem missing_param_message_counterexample :
    mouseMoveEntry ∈ (registeredTools : MCPServer Unit) ∧
    req .number "y" "Y coordinate" ∈ (mouseMoveEntry : ServerTool Unit).tool.params ∧
    (req .number "y" "Y coordinate").required = true ∧
    Args.get? [] (req .number "y" "Y coordinate").name = none ∧
    ((mouseMoveEntry : ServerTool Unit).handler idleEnv ⟨.map []⟩ idleWorld).1 =
      (none, some ⟨"required parameter 'x' is missing"⟩) ∧
    ¬ ((req .number "y" "Y coordinate").name.data <:+:
        "required parameter 'x' is missing".data) := by
  refine ⟨mouseMoveEntry_mem, by simp [mouseMoveEntry], rfl, rfl, rfl, by decide⟩

/-- C2, amended: when a required parameter of a registered tool is absent, the handler
fails and the message is "required parameter 'Q' is missing" for the first required
parameter Q, in declaration order, that is absent or wrong-typed; the message contains
the name Q. -/
theorem missing_param_message {σ : Type} (st : ServerTool σ)
    (hst : st ∈ (registeredTools : MCPServer σ)) (E : Env σ) (args : Args) (w : World σ)
    (p : ParamSpec) (hp : p ∈ st.tool.params) (hreq : p.required = true)
    (habs : args.get? p.name = none) :
    ∃ q ∈ st.tool.params, q.required = true ∧ q.suppliedIn args = false ∧
      st.tool.firstMissing args = some q.name ∧
      (st.handler E ⟨.map args⟩ w).1 =
        (none, some ⟨"required parameter '" ++ q.name ++ "' is missing"⟩) ∧
      q.name.data <:+: ("required parameter '" ++ q.name ++ "' is missing").data := by
  obtain ⟨q, hq, hr, hs, hf⟩ := (firstMissing_isSome_iff st.tool args).mp
    ⟨p, hp, hreq, suppliedIn_of_absent p args habs⟩
  refine ⟨q, hq, hr, hs, hf, ?_, missingParameter_contains q.name⟩
  have := handler_fails_on_first_missing st hst E ⟨.map args⟩ w q.name hf
  rw [this]
  rfl

theorem missing_param_message_witness :
    (∃ q ∈ (keyTapEntry : ServerTool Unit).tool.params, q.required = true ∧
      q.suppliedIn [] = false ∧
      (keyTapEntry : ServerTool Unit).tool.firstMissing [] = some q.name ∧
      ((keyTapEntry : ServerTool Unit).handler idleEnv ⟨.map []⟩ idleWorld).1 =
        (none, some ⟨"required parameter '" ++ q.name ++ "' is missing"⟩) ∧
      q.name.data <:+: ("required parameter '" ++ q.name ++ "' is missing").data) ∧
    (keyTapHandler idleEnv ⟨.map []⟩ idleWorld).1 =
      (none, some ⟨"required parameter 'key' is missing"⟩) ∧
    "key".data <:+: "required parameter 'key' is missing".data :=
  ⟨missing_param_message keyTapEntry keyTapEntry_mem idleEnv [] idleWorld
      (req .string "key" "Key to tap (e.g., 'a', 'enter', 'f1')") (by simp [keyTapEntry]) rfl rfl,
    rfl, by decide⟩

theorem missing_required_no_provider_call_witness :
    (∃ p ∈ (mouseMoveEntry : ServerTool Unit).tool.params,
      p.required = true ∧ p.suppliedIn (getArgs ⟨.map [("x", .int 1)]⟩) = false) ∧
    (∃ q ∈ (mouseMoveEntry : ServerTool Unit).tool.params, q.required = true ∧
      q.suppliedIn (getArgs ⟨.map [("x", .int 1)]⟩) = false ∧
      (mouseMoveEntry : ServerTool Unit).handler idleEnv ⟨.map [("x", .int 1)]⟩ idleWorld =
        ((none, some (missingParameter q.name)), idleWorld)) :=
  ⟨⟨req .number "y" "Y coordinate", by simp [mouseMoveEntry], rfl, by decide⟩,
    missing_required_no_provider_call mouseMoveEntry mouseMoveEntry_mem idleEnv
      ⟨.map [("x", .int 1)]⟩ idleWorld
      ⟨req .number "y" "Y coordinate", by simp [mouseMoveEntry], rfl, by decide⟩⟩

/-! ## Theorems: result or failure, never both -/

theorem screenCaptureEntry_mem {σ : Type} :
    screenCaptureEntry ∈ (registeredTools : MCPServer σ) := by
  simp [registeredTools, registerMouseTools, registerKeyboardTools, registerScreenTools,
    registerWindowTools, registerProcessTools, registerSystemTools, MCPServer.AddTool,
    screenCaptureEntry]

/-- Every registered handler returns exactly one of a result and an error, on every
request and every provider. -/
theorem handler_exclusive {σ : Type} :
    ∀ st ∈ (registeredTools : MCPServer σ), ∀ (E : Env σ) (request : CallToolRequest)
      (w : World σ), (st.handler E request w).1.exclusive := by
  simp only [registeredTools, registerMouseTools, registerKeyboardTools, registerScreenTools,
    registerWindowTools, registerProcessTools, registerSystemTools,
    MCPServer.AddTool, List.nil_append, List.cons_append,
    List.forall_mem_cons, List.not_mem_nil, false_imp_iff, implies_true, and_true]
  refine ⟨?_, ?_, ?_, ?_, ?_, ?_, ?_, ?_, ?_, ?_, ?_, ?_, ?_, ?_, ?_, ?_, ?_, ?_, ?_, ?_, ?_, ?_,
    ?_, ?_, ?_, ?_, ?_, ?_, ?_, ?_, ?_, ?_, ?_, ?_, ?_, ?_, ?_, ?_, ?_, ?_, ?_, ?_, ?_, ?_⟩
  all_goals
    intro E request w
    simp only [mouseMoveHandler, mouseMoveSmoothHandler, mouseMoveRelativeHandler,
      mouseGetPositionHandler, mouseClickHandler, mouseClickAtHandler, mouseToggleHandler,
      mouseDragHandler, mouseDragSmoothHandler, mouseScrollHandler, mouseScrollDirectionHandler,
      mouseScrollSmoothHandler, keyTapHandler, keyToggleHandler, typeTextHandler,
      typeTextDelayedHandler, clipboardReadHandler, clipboardWriteHandler, clipboardPasteHandler,
      screenGetSizeHandler, screenGetDisplaysNumHandler, screenGetDisplayBoundsHandler,
      screenCaptureHandler, screenCaptureSaveHandler, screenGetPixelColorHandler,
      screenGetMouseColorHandler, windowGetActiveHandler, windowGetTitleHandler,
      windowGetBoundsHandler, windowSetActiveHandler, windowMoveHandler, windowResizeHandler,
      windowMinimizeHandler, windowMaximizeHandler, windowCloseHandler, processListHandler,
      processFindByNameHandler, processGetNameHandler, processExistsHandler, processKillHandler,
      processRunHandler, systemGetInfoHandler, utilSleepHandler, alertShowHandler,
      getRequiredIntArg_eq, getRequiredStringArg_eq, HandlerResult.exclusive]
    repeat (first | (focus (simp [successOf, failureOf]; done)) | split)

/-! ## Theorems: defaults of optional parameters -/

theorem get?_cons (p : String) (v : Value) (args : Args) (k : String) :
    Args.get? ((p, v) :: args) k = if k = p then some v else args.get? k := by
  unfold Args.get?
  rw [List.lookup_cons]
  by_cases h : k = p
  · simp [h]
  · have : (k == p) = false := by simpa using h
    simp [h, this]

theorem getIntArg_cons_eq (P : Platform) (p : String) (v : Value) (args : Args) (d i : Int)
    (h : P.coerceInt v = some i) : getIntArg P ((p, v) :: args) p d = i := by
  unfold getIntArg
  rw [get?_cons, if_pos rfl]
  cases v <;> simp_all [Platform.coerceInt]

theorem getIntArg_cons_ne (P : Platform) (p : String) (v : Value) (args : Args) (k : String)
    (d : Int) (h : k ≠ p) : getIntArg P ((p, v) :: args) k d = getIntArg P args k d := by
  unfold getIntArg
  rw [get?_cons, if_neg h]

theorem getRequiredIntArg_cons_ne (P : Platform) (p : String) (v : Value) (args : Args)
    (k : String) (h : k ≠ p) :
    getRequiredIntArg P ((p, v) :: args) k = getRequiredIntArg P args k := by
  unfold getRequiredIntArg
  rw [get?_cons, if_neg h]

theorem getRequiredStringArg_cons_ne (p : String) (v : Value) (args : Args)
    (k : String) (h : k ≠ p) :
    getRequiredStringArg ((p, v) :: args) k = getRequiredStringArg args k := by
  unfold getRequiredStringArg
  rw [get?_cons, if_neg h]

theorem getStringArrayArg_cons_ne (p : String) (v : Value) (args : Args)
    (k : String) (h : k ≠ p) :
    getStringArrayArg ((p, v) :: args) k = getStringArrayArg args k := by
  unfold getStringArrayArg
  rw [get?_cons, if_neg h]

theorem getFloatArg_cons_eq (p : String) (v : Value) (args : Args) (d f : F64)
    (h : v.widenFloat = some f) : getFloatArg ((p, v) :: args) p d = f := by
  unfold getFloatArg
  rw [get?_cons, if_pos rfl]
  cases v <;> simp_all [Value.widenFloat]

theorem getFloatArg_cons_ne (p : String) (v : Value) (args : Args) (k : String) (d : F64)
    (h : k ≠ p) : getFloatArg ((p, v) :: args) k d = getFloatArg args k d := by
  unfold getFloatArg
  rw [get?_cons, if_neg h]

theorem getStringArg_cons_eq (p s : String) (args : Args) (d : String) :
    getStringArg ((p, .string s) :: args) p d = s := by
  simp [getStringArg, get?_cons]

theorem getStringArg_cons_ne (p : String) (v : Value) (args : Args) (k : String) (d : String)
    (h : k ≠ p) : getStringArg ((p, v) :: args) k d = getStringArg args k d := by
  unfold getStringArg
  rw [get?_cons, if_neg h]

theorem getBoolArg_cons_eq (p : String) (b : Bool) (args : Args) (d : Bool) :
    getBoolArg ((p, .bool b) :: args) p d = b := by
  simp [getBoolArg, get?_cons]

theorem getBoolArg_cons_ne (p : String) (v : Value) (args : Args) (k : String) (d : Bool)
    (h : k ≠ p) : getBoolArg ((p, v) :: args) k d = getBoolArg args k d := by
  unfold getBoolArg
  rw [get?_cons, if_neg h]

theorem getIntArg_absent (P : Platform) (args : Args) (k : String) (d : Int)
    (h : args.get? k = none) : getIntArg P args k d = d := by
  simp [getIntArg, h]

theorem getFloatArg_absent (args : Args) (k : String) (d : F64)
    (h : args.get? k = none) : getFloatArg args k d = d := by
  simp [getFloatArg, h]

theorem getStringArg_absent (args : Args) (k : String) (d : String)
    (h : args.get? k = none) : getStringArg args k d = d := by
  simp [getStringArg, h]

theorem getBoolArg_absent (args : Args) (k : String) (d : Bool)
    (h : args.get? k = none) : getBoolArg args k d = d := by
  simp [getBoolArg, h]

theorem getArgs_map (args : Args) : getArgs ⟨.map args⟩ = args := rfl

/-- Every optional parameter declared by a registered tool, other than the list-valued
`modifiers`, is read by the handler with a default, and nothing else is. -/
theorem handlerDefaults_covers_optional :
    ∀ st ∈ (registeredTools : MCPServer Unit),
      ((st.tool.params.filter (fun p => !p.required && p.kind != .array)).map
        (fun p => p.name)) = (handlerDefaults st.tool.name).map (fun e => e.1) := by
  decide

/-- A handler reads an optional parameter only through its defaulting accessor: a
mapping lacking the parameter and the mapping extended by a value that stands for
the default give the same run. -/
theorem handler_default_absent {σ : Type} (st : ServerTool σ)
    (hst : st ∈ (registeredTools : MCPServer σ)) (E : Env σ) (args : Args) (w : World σ)
    (p : String) (d : DefaultVal) (v : Value)
    (hd : (p, d) ∈ handlerDefaults st.tool.name) (hv : d.heldBy E.toPlatform v)
    (habs : args.get? p = none) :
    st.handler E ⟨.map ((p, v) :: args)⟩ w = st.handler E ⟨.map args⟩ w := by
  revert st E args w p d v
  simp only [registeredTools, registerMouseTools, registerKeyboardTools, registerScreenTools,
    registerWindowTools, registerProcessTools, registerSystemTools,
    MCPServer.AddTool, List.nil_append, List.cons_append,
    List.forall_mem_cons, List.not_mem_nil, false_imp_iff, implies_true, and_true]
  refine ⟨?_, ?_, ?_, ?_, ?_, ?_, ?_, ?_, ?_, ?_, ?_, ?_, ?_, ?_, ?_, ?_, ?_, ?_, ?_, ?_, ?_, ?_,
    ?_, ?_, ?_, ?_, ?_, ?_, ?_, ?_, ?_, ?_, ?_, ?_, ?_, ?_, ?_, ?_, ?_, ?_, ?_, ?_, ?_, ?_⟩
  all_goals
    intro E args w p d v hd hv habs
    simp [handlerDefaults] at hd
  all_goals
    casesm* _ ∨ _, _ ∧ _
  all_goals
    subst_vars
    try simp only [DefaultVal.heldBy] at hv
    try subst hv
    simp only [mouseMoveHandler, mouseMoveSmoothHandler, mouseMoveRelativeHandler,
      mouseGetPositionHandler, mouseClickHandler, mouseClickAtHandler, mouseToggleHandler,
      mouseDragHandler, mouseDragSmoothHandler, mouseScrollHandler, mouseScrollDirectionHandler,
      mouseScrollSmoothHandler, keyTapHandler, keyToggleHandler, typeTextHandler,
      typeTextDelayedHandler, clipboardReadHandler, clipboardWriteHandler, clipboardPasteHandler,
      screenGetSizeHandler, screenGetDisplaysNumHandler, screenGetDisplayBoundsHandler,
      screenCaptureHandler, screenCaptureSaveHandler, screenGetPixelColorHandler,
      screenGetMouseColorHandler, windowGetActiveHandler, windowGetTitleHandler,
      windowGetBoundsHandler, windowSetActiveHandler, windowMoveHandler, windowResizeHandler,
      windowMinimizeHandler, windowMaximizeHandler, windowCloseHandler, processListHandler,
      processFindByNameHandler, processGetNameHandler, processExistsHandler, processKillHandler,
      processRunHandler, systemGetInfoHandler, utilSleepHandler, alertShowHandler, getArgs_map]
    repeat (first
      | rw [getIntArg_cons_eq _ _ _ _ _ _ hv]
      | rw [getFloatArg_cons_eq _ _ _ _ _ hv]
      | rw [getStringArg_cons_eq]
      | rw [getBoolArg_cons_eq])
    repeat (first
      | (rw [getIntArg_cons_ne] <;> try decide)
      | (rw [getFloatArg_cons_ne] <;> try decide)
      | (rw [getStringArg_cons_ne] <;> try decide)
      | (rw [getBoolArg_cons_ne] <;> try decide)
      | (rw [getRequiredIntArg_cons_ne] <;> try decide)
      | (rw [getRequiredStringArg_cons_ne] <;> try decide))
    try rw [getIntArg_absent _ _ _ _ habs]
    try rw [getFloatArg_absent _ _ _ habs]
    try rw [getStringArg_absent _ _ _ habs]
    try rw [getBoolArg_absent _ _ _ habs]
    try simp [getStringArg_cons_eq, getStringArg_cons_ne, getBoolArg_cons_eq, getBoolArg_cons_ne,
      getRequiredIntArg_cons_ne, getRequiredStringArg_cons_ne, getStringArrayArg_cons_ne,
      getIntArg_cons_ne, getFloatArg_cons_ne, getIntArg_absent, getFloatArg_absent,
      getStringArg_absent, getBoolArg_absent, habs]

/-- C5: for every registered tool and every optional parameter P that its handler
reads with a default V, a mapping lacking P and the same mapping extended by P = V
give the same result and leave the same world: the same provider calls in the same
order with the same answers. -/
theorem default_equals_explicit {σ : Type} (st : ServerTool σ)
    (hst : st ∈ (registeredTools : MCPServer σ)) (E : Env σ) (args : Args) (w : World σ)
    (p : String) (d : DefaultVal) (v : Value)
    (hd : (p, d) ∈ handlerDefaults st.tool.name) (hv : d.heldBy E.toPlatform v)
    (habs : args.get? p = none) :
    st.handler E ⟨.map ((p, v) :: args)⟩ w = st.handler E ⟨.map args⟩ w :=
  handler_default_absent st hst E args w p d v hd hv habs

theorem default_equals_explicit_witness :
    screenCaptureEntry ∈ (registeredTools : MCPServer Unit) ∧
    ("display_id", DefaultVal.int (-1)) ∈
      handlerDefaults (screenCaptureEntry : ServerTool Unit).tool.name ∧
    (DefaultVal.int (-1)).heldBy idleEnv.toPlatform (.float64 (F64.ofInt (-1))) ∧
    Args.get? [("x", .int 5)] "display_id" = none ∧
    (screenCaptureEntry : ServerTool Unit).handler idleEnv
        ⟨.map (("display_id", .float64 (F64.ofInt (-1))) :: [("x", .int 5)])⟩ idleWorld =
      (screenCaptureEntry : ServerTool Unit).handler idleEnv ⟨.map [("x", .int 5)]⟩ idleWorld :=
  ⟨screenCaptureEntry_mem, by decide, by unfold DefaultVal.heldBy; decide, rfl,
    default_equals_explicit screenCaptureEntry screenCaptureEntry_mem idleEnv [("x", .int 5)]
      idleWorld "display_id" (.int (-1)) (.float64 (F64.ofInt (-1))) (by decide) (by unfold DefaultVal.heldBy; decide) rfl⟩

/-! ## Theorems: `mouse_click` -/

/-- C11: `mouse_click` with button `b` sends the provider exactly one call: the
double-click request `Click(b, true)` when `double` is true, and the single-click
request `Click(b)` when `double` is false or absent. -/
theorem mouseClick_calls {σ : Type} (E : Env σ) (args : Args) (b : String) (w : World σ)
    (hb : args.get? "button" = some (.string b)) :
    (args.get? "double" = some (.bool true) →
      (mouseClickHandler E ⟨.map args⟩ w).2.calls = w.calls ++ [.Click b (some true)]) ∧
    ((args.get? "double" = some (.bool false) ∨ args.get? "double" = none) →
      (mouseClickHandler E ⟨.map args⟩ w).2.calls = w.calls ++ [.Click b none]) := by
  have hbtn : getStringArg args "button" "left" = b := by simp [getStringArg, hb]
  constructor
  · intro hd
    have hdbl : getBoolArg args "double" false = true := by simp [getBoolArg, hd]
    simp [mouseClickHandler, getArgs, hbtn, hdbl, invoke]
  · intro hd
    have hdbl : getBoolArg args "double" false = false := by
      rcases hd with hd | hd <;> simp [getBoolArg, hd]
    simp [mouseClickHandler, getArgs, hbtn, hdbl, invoke]

theorem mouseClick_calls_witness :
    ((Args.get? [("button", .string "left"), ("double", .bool true)] "double" =
        some (.bool true) →
      (mouseClickHandler idleEnv ⟨.map [("button", .string "left"), ("double", .bool true)]⟩
        idleWorld).2.calls = idleWorld.calls ++ [.Click "left" (some true)]) ∧
     ((Args.get? [("button", .string "left"), ("double", .bool true)] "double" =
          some (.bool false) ∨
        Args.get? [("button", .string "left"), ("double", .bool true)] "double" = none) →
      (mouseClickHandler idleEnv ⟨.map [("button", .string "left"), ("double", .bool true)]⟩
        idleWorld).2.calls = idleWorld.calls ++ [.Click "left" none])) ∧
    (mouseClickHandler idleEnv ⟨.map [("button", .string "left"), ("double", .bool true)]⟩
        idleWorld).2.calls = [.Click "left" (some true)] ∧
    (mouseClickHandler idleEnv ⟨.map [("button", .string "left")]⟩ idleWorld).2.calls =
      [.Click "left" none] :=
  ⟨mouseClick_calls idleEnv [("button", .string "left"), ("double", .bool true)] "left"
      idleWorld rfl, rfl, rfl⟩

/-! ## Theorems: `window_get_title` and `window_close` -/

/-- C17: `window_get_title` and `window_close` call the provider once: without a
pid when `pid` is not specified (the active window), and with exactly the pid `p`
when a pid `p ≥ 0` is specified. -/
theorem window_pid_calls {σ : Type} (E : Env σ) (args : Args) (w : World σ) :
    (args.get? "pid" = none →
      (windowGetTitleHandler E ⟨.map args⟩ w).2.calls = w.calls ++ [.GetTitle []] ∧
      (windowCloseHandler E ⟨.map args⟩ w).2.calls = w.calls ++ [.CloseWindow []]) ∧
    (∀ (v : Value) (p : Int), args.get? "pid" = some v → E.coerceInt v = some p → 0 ≤ p →
      (windowGetTitleHandler E ⟨.map args⟩ w).2.calls = w.calls ++ [.GetTitle [p]] ∧
      (windowCloseHandler E ⟨.map args⟩ w).2.calls = w.calls ++ [.CloseWindow [p]]) := by
  constructor
  · intro h
    have hp : getIntArg E.toPlatform args "pid" (-1) = -1 := by simp [getIntArg, h]
    simp [windowGetTitleHandler, windowCloseHandler, getArgs, hp, invoke]
  · intro v p h hv hp0
    have hp : getIntArg E.toPlatform args "pid" (-1) = p := by
      cases v <;> simp_all [getIntArg, Platform.coerceInt]
    simp [windowGetTitleHandler, windowCloseHandler, getArgs, hp, hp0, invoke]

theorem window_pid_calls_witness :
    (Args.get? [("pid", .float64 (F64.ofInt 42))] "pid" = none →
      (windowGetTitleHandler idleEnv ⟨.map [("pid", .float64 (F64.ofInt 42))]⟩
        idleWorld).2.calls = idleWorld.calls ++ [.GetTitle []] ∧
      (windowCloseHandler idleEnv ⟨.map [("pid", .float64 (F64.ofInt 42))]⟩
        idleWorld).2.calls = idleWorld.calls ++ [.CloseWindow []]) ∧
    ((windowGetTitleHandler idleEnv ⟨.map [("pid", .float64 (F64.ofInt 42))]⟩
        idleWorld).2.calls = idleWorld.calls ++ [.GetTitle [42]] ∧
      (windowCloseHandler idleEnv ⟨.map [("pid", .float64 (F64.ofInt 42))]⟩
        idleWorld).2.calls = idleWorld.calls ++ [.CloseWindow [42]]) ∧
    (windowCloseHandler idleEnv ⟨.map []⟩ idleWorld).2.calls = [.CloseWindow []] :=
  ⟨(window_pid_calls idleEnv [("pid", .float64 (F64.ofInt 42))] idleWorld).1,
    (window_pid_calls idleEnv [("pid", .float64 (F64.ofInt 42))] idleWorld).2
      (.float64 (F64.ofInt 42)) 42 rfl (by decide) (by decide),
    rfl⟩

/-! ## Theorems: the registered names -/

/-- The names registered at startup, in registration order. -/
theorem registeredTools_names {σ : Type} :
    (registeredTools : MCPServer σ).map (fun st => st.tool.name) =
      ["mouse_move", "mouse_move_smooth", "mouse_move_relative", "mouse_get_position",
       "mouse_click", "mouse_click_at", "mouse_toggle", "mouse_drag", "mouse_drag_smooth",
       "mouse_scroll", "mouse_scroll_direction", "mouse_scroll_smooth",
       "key_tap", "key_toggle", "type_text", "type_text_delayed", "clipboard_read",
       "clipboard_write", "clipboard_paste",
       "screen_get_size", "screen_get_displays_num", "screen_get_display_bounds",
       "screen_capture", "screen_capture_save", "screen_get_pixel_color",
       "screen_get_mouse_color",
       "window_get_active", "window_get_title", "window_get_bounds", "window_set_active",
       "window_move", "window_resize", "window_minimize", "window_maximize", "window_close",
       "process_list", "process_find_by_name", "process_get_name", "process_exists",
       "process_kill", "process_run",
       "system_get_info", "util_sleep", "alert_show"] := by
  simp [registeredTools, registerMouseTools, registerKeyboardTools, registerScreenTools,
    registerWindowTools, registerProcessTools, registerSystemTools, MCPServer.AddTool]

/-- C15: the 44 tool names registered at startup are pairwise distinct, so a name
determines its registration: two registered entries with the same name are the same
entry, with the same handler. -/
theorem registered_names_distinct {σ : Type} :
    (registeredTools : MCPServer σ).length = 44 ∧
    ((registeredTools : MCPServer σ).map (fun st => st.tool.name)).Nodup ∧
    (∀ st1 ∈ (registeredTools : MCPServer σ), ∀ st2 ∈ (registeredTools : MCPServer σ),
      st1.tool.name = st2.tool.name → st1 = st2) := by
  have hnd : ((registeredTools : MCPServer σ).map (fun st => st.tool.name)).Nodup := by
    rw [registeredTools_names]
    decide
  have hlen : (registeredTools : MCPServer σ).length = 44 := by
    have := congrArg List.length (@registeredTools_names σ)
    simpa using this
  refine ⟨hlen, hnd, ?_⟩
  intro st1 h1 st2 h2 hname
  exact List.inj_on_of_nodup_map hnd h1 h2 hname

/-! ## Theorems: the typed-text message -/

theorem goLen_ascii (text : String) (h : ∀ c ∈ text.data, c.val ≤ 127) :
    goLen text = (text.length : Int) := by
  unfold goLen
  congr 1
  rcases text with ⟨cs⟩
  show String.utf8ByteSize ⟨cs⟩ = cs.length
  simp only at h
  induction cs with
  | nil => rfl
  | cons c cs ih =>
    have hc : c.utf8Size = 1 := by
      have := h c (List.mem_cons_self _ _)
      simp [Char.utf8Size, this]
    have ih2 := ih (fun d hd => h d (List.mem_cons_of_mem _ hd))
    simp only [String.utf8ByteSize, String.utf8ByteSize.go, List.length_cons] at ih2 ⊢
    omega

/-- C18, evaluated on the code: the number in the `type_text` and `type_text_delayed`
messages is `len(text)`, the length of the text in bytes; for the one-character
text "é" both handlers report 2 characters. The byte count is the character count
when every character of the text is ASCII. -/
theorem typeText_message_counts_bytes {σ : Type} (E : Env σ) (w : World σ) :
    (∀ text : String, (typeTextHandler E ⟨.map [("text", .string text)]⟩ w).1 =
      successOf E (.map [("status", .string "success"),
        ("message", .string ("Text typed: " ++ fmtInt (text.utf8ByteSize : Int) ++
          " characters"))])) ∧
    "é".length = 1 ∧
    (typeTextHandler E ⟨.map [("text", .string "é")]⟩ w).1 =
      successOf E (.map [("status", .string "success"),
        ("message", .string "Text typed: 2 characters")]) ∧
    (typeTextDelayedHandler E ⟨.map [("text", .string "é"), ("delay", .int 10)]⟩ w).1 =
      successOf E (.map [("status", .string "success"),
        ("message", .string "Text typed with 10ms delay: 2 characters")]) ∧
    (∀ text : String, (∀ c ∈ text.data, c.val ≤ 127) →
      (typeTextHandler E ⟨.map [("text", .string text)]⟩ w).1 =
        successOf E (.map [("status", .string "success"),
          ("message", .string ("Text typed: " ++ fmtInt (text.length : Int) ++
            " characters"))])) := by
  have hgen : ∀ text : String, (typeTextHandler E ⟨.map [("text", .string text)]⟩ w).1 =
      successOf E (.map [("status", .string "success"),
        ("message", .string ("Text typed: " ++ fmtInt (goLen text) ++ " characters"))]) := by
    intro text
    simp [typeTextHandler, getArgs, getRequiredStringArg, getIntArg, Args.get?, List.lookup]
  refine ⟨hgen, by decide, ?_, ?_, ?_⟩
  · rw [hgen]; rfl
  · simp [typeTextDelayedHandler, getArgs, getRequiredStringArg, getRequiredIntArg, Args.get?,
      List.lookup]
    rfl
  · intro text h
    rw [hgen, goLen_ascii text h]

/-! ## Theorems: provider errors -/

theorem clipboardReadEntry_mem {σ : Type} :
    clipboardReadEntry ∈ (registeredTools : MCPServer σ) := by
  simp [registeredTools, registerMouseTools, registerKeyboardTools, registerScreenTools,
    registerWindowTools, registerProcessTools, registerSystemTools, MCPServer.AddTool,
    clipboardReadEntry]

theorem processKillEntry_mem {σ : Type} :
    processKillEntry ∈ (registeredTools : MCPServer σ) := by
  simp [registeredTools, registerMouseTools, registerKeyboardTools, registerScreenTools,
    registerWindowTools, registerProcessTools, registerSystemTools, MCPServer.AddTool,
    processKillEntry]

/-- When the provider call a handler checks returns an error, the handler returns
that error wrapped in the handler's context, and nothing else. -/
theorem handler_wraps_provider_error {σ : Type} (st : ServerTool σ)
    (hst : st ∈ (registeredTools : MCPServer σ)) (E : Env σ) (request : CallToolRequest)
    (w : World σ) (c : Call) (e : GoError)
    (hc : fallibleCall st.tool.name E.toPlatform (getArgs request) = some c)
    (he : c.error? (invoke E c w).1 = some e) :
    st.handler E request w =
      ((none, some (wrapError (errorContext st.tool.name) e)), (invoke E c w).2) := by
  revert st E request w c e
  simp only [registeredTools, registerMouseTools, registerKeyboardTools, registerScreenTools,
    registerWindowTools, registerProcessTools, registerSystemTools,
    MCPServer.AddTool, List.nil_append, List.cons_append,
    List.forall_mem_cons, List.not_mem_nil, false_imp_iff, implies_true, and_true]
  refine ⟨?_, ?_, ?_, ?_, ?_, ?_, ?_, ?_, ?_, ?_, ?_, ?_, ?_, ?_, ?_, ?_, ?_, ?_, ?_, ?_, ?_, ?_,
    ?_, ?_, ?_, ?_, ?_, ?_, ?_, ?_, ?_, ?_, ?_, ?_, ?_, ?_, ?_, ?_, ?_, ?_, ?_, ?_, ?_, ?_⟩
  all_goals
    intro E request w c e hc he
    simp [fallibleCall] at hc
  all_goals
    try obtain ⟨hs, hc⟩ := hc
  all_goals
    try subst hc
    simp only [Call.error?] at he
    simp only [clipboardReadHandler, clipboardWriteHandler, clipboardPasteHandler,
      screenCaptureSaveHandler, windowSetActiveHandler, processListHandler,
      processFindByNameHandler, processGetNameHandler, processExistsHandler,
      processKillHandler, processRunHandler, getRequiredIntArg_eq, getRequiredStringArg_eq,
      errorContext, failureOf]
    try simp only [hs, if_true]
    split <;> simp_all

theorem errorContext_ne_empty (toolName : String) (P : Platform) (args : Args) (c : Call)
    (hc : fallibleCall toolName P args = some c) : errorContext toolName ≠ "" := by
  have hmem : toolName ∈ ["clipboard_read", "clipboard_write", "clipboard_paste",
      "screen_capture_save", "window_set_active", "process_list", "process_find_by_name",
      "process_get_name", "process_exists", "process_kill", "process_run"] := by
    by_contra hn
    simp only [List.mem_cons, List.mem_singleton, not_or, List.not_mem_nil, or_false] at hn
    obtain ⟨h1, h2, h3, h4, h5, h6, h7, h8, h9, h10, h11⟩ := hn
    simp [fallibleCall, h1, h2, h3, h4, h5, h6, h7, h8, h9, h10, h11] at hc
  simp only [List.mem_cons, List.mem_singleton, List.not_mem_nil, or_false] at hmem
  rcases hmem with h | h | h | h | h | h | h | h | h | h | h <;> subst h <;> decide

/-- C13, as stated, fails: when the provider's `ReadAll` fails with "access denied",
`clipboard_read` returns the message "failed to read clipboard: access denied",
which is not equal to the provider's message. -/
theorem provider_error_verbatim_counterexample :
    clipboardReadEntry ∈ (registeredTools : MCPServer Unit) ∧
    Call.error? .ReadAll (invoke brokenEnv .ReadAll idleWorld).1 = some ⟨"access denied"⟩ ∧
    ((clipboardReadEntry : ServerTool Unit).handler brokenEnv ⟨.map []⟩ idleWorld).1 =
      (none, some ⟨"failed to read clipboard: access denied"⟩) ∧
    (⟨"failed to read clipboard: access denied"⟩ : GoError).Error ≠
      (⟨"access denied"⟩ : GoError).Error := by
  refine ⟨clipboardReadEntry_mem, rfl, rfl, by decide⟩

/-- C13, amended: when the provider call checked by a registered handler returns an
error, the failure message is the handler's context, then ": ", then the provider's
message verbatim; the context is never empty. -/
theorem provider_error_prefixed {σ : Type} (st : ServerTool σ)
    (hst : st ∈ (registeredTools : MCPServer σ)) (E : Env σ) (request : CallToolRequest)
    (w : World σ) (c : Call) (e : GoError)
    (hc : fallibleCall st.tool.name E.toPlatform (getArgs request) = some c)
    (he : c.error? (invoke E c w).1 = some e) :
    (st.handler E request w).1 =
      (none, some ⟨errorContext st.tool.name ++ ": " ++ e.Error⟩) ∧
    errorContext st.tool.name ≠ "" := by
  rw [handler_wraps_provider_error st hst E request w c e hc he]
  exact ⟨rfl, errorContext_ne_empty _ _ _ _ hc⟩

theorem provider_error_prefixed_witness :
    processKillEntry ∈ (registeredTools : MCPServer Unit) ∧
    fallibleCall (processKillEntry : ServerTool Unit).tool.name brokenEnv.toPlatform
      (getArgs ⟨.map [("pid", .int 7)]⟩) = some (.Kill 7) ∧
    Call.error? (.Kill 7) (invoke brokenEnv (.Kill 7) idleWorld).1 = some ⟨"access denied"⟩ ∧
    (((processKillEntry : ServerTool Unit).handler brokenEnv ⟨.map [("pid", .int 7)]⟩
        idleWorld).1 =
      (none, some ⟨errorContext (processKillEntry : ServerTool Unit).tool.name ++ ": " ++
        (⟨"access denied"⟩ : GoError).Error⟩) ∧
      errorContext (processKillEntry : ServerTool Unit).tool.name ≠ "") ∧
    (processKillHandler brokenEnv ⟨.map [("pid", .int 7)]⟩ idleWorld).1 =
      (none, some ⟨"failed to kill process: access denied"⟩) :=
  ⟨processKillEntry_mem, by decide, rfl,
    provider_error_prefixed processKillEntry processKillEntry_mem brokenEnv
      ⟨.map [("pid", .int 7)]⟩ idleWorld (.Kill 7) ⟨"access denied"⟩ (by decide) rfl,
    rfl⟩

theorem wrapError_contains (pfx : String) (e : GoError) :
    e.Error.data <:+: (wrapError pfx e).Error.data := by
  refine ⟨(pfx ++ ": ").data, [], ?_⟩
  simp [wrapError, String.data_append]

/-- C14: when the provider call checked by a registered handler returns an error,
the handler returns a failure and no result, and the provider's message is contained
unchanged in the failure message. -/
theorem provider_error_preserved {σ : Type} (st : ServerTool σ)
    (hst : st ∈ (registeredTools : MCPServer σ)) (E : Env σ) (request : CallToolRequest)
    (w : World σ) (c : Call) (e : GoError)
    (hc : fallibleCall st.tool.name E.toPlatform (getArgs request) = some c)
    (he : c.error? (invoke E c w).1 = some e) :
    (st.handler E request w).1.1 = none ∧
    ∃ err, (st.handler E request w).1.2 = some err ∧ e.Error.data <:+: err.Error.data := by
  rw [handler_wraps_provider_error st hst E request w c e hc he]
  exact ⟨rfl, _, rfl, wrapError_contains _ e⟩

theorem provider_error_preserved_witness :
    clipboardReadEntry ∈ (registeredTools : MCPServer Unit) ∧
    fallibleCall (clipboardReadEntry : ServerTool Unit).tool.name brokenEnv.toPlatform
      (getArgs ⟨.map []⟩) = some .ReadAll ∧
    Call.error? .ReadAll (invoke brokenEnv .ReadAll idleWorld).1 = some ⟨"access denied"⟩ ∧
    (((clipboardReadEntry : ServerTool Unit).handler brokenEnv ⟨.map []⟩ idleWorld).1.1 =
        none ∧
      ∃ err, ((clipboardReadEntry : ServerTool Unit).handler brokenEnv ⟨.map []⟩
          idleWorld).1.2 = some err ∧
        (⟨"access denied"⟩ : GoError).Error.data <:+: err.Error.data) :=
  ⟨clipboardReadEntry_mem, by decide, rfl,
    provider_error_preserved clipboardReadEntry clipboardReadEntry_mem brokenEnv ⟨.map []⟩
      idleWorld .ReadAll ⟨"access denied"⟩ (by decide) rfl⟩

/-! ## Theorems: pure queries -/

theorem mouseGetPositionEntry_mem {σ : Type} :
    mouseGetPositionEntry ∈ (registeredTools : MCPServer σ) := by
  simp [registeredTools, registerMouseTools, registerKeyboardTools, registerScreenTools,
    registerWindowTools, registerProcessTools, registerSystemTools, MCPServer.AddTool,
    mouseGetPositionEntry]

theorem pointerEnv_queriesPure : pointerEnv.queriesPure := by
  intro c hc s
  cases c <;> first | rfl | simp [Call.isQuery] at hc

/-- C19: on a provider whose read-only calls leave its state unchanged, each pure
query tool leaves the provider state unchanged, issues read-only calls only, and
returns a result that depends on the provider state alone; so invoking it twice in
a row with the same arguments returns identical results. -/
theorem pure_query_idempotent {σ : Type} (st : ServerTool σ)
    (hst : st ∈ (registeredTools : MCPServer σ)) (hq : st.tool.name ∈ pureQueryTools)
    (E : Env σ) (hpure : E.queriesPure) (request : CallToolRequest) (w : World σ) :
    (st.handler E request w).2.state = w.state ∧
    (∃ cs, (st.handler E request w).2.calls = w.calls ++ cs ∧ ∀ c ∈ cs, c.isQuery = true) ∧
    (∀ w2 : World σ, w2.state = w.state →
      (st.handler E request w2).1 = (st.handler E request w).1) ∧
    (st.handler E request (st.handler E request w).2).1 = (st.handler E request w).1 := by
  have key : (st.handler E request w).2.state = w.state ∧
      (∃ cs, (st.handler E request w).2.calls = w.calls ++ cs ∧ ∀ c ∈ cs, c.isQuery = true) ∧
      (∀ w2 : World σ, w2.state = w.state →
        (st.handler E request w2).1 = (st.handler E request w).1) := by
    revert st
    simp only [registeredTools, registerMouseTools, registerKeyboardTools, registerScreenTools,
      registerWindowTools, registerProcessTools, registerSystemTools,
      MCPServer.AddTool, List.nil_append, List.cons_append,
      List.forall_mem_cons, List.not_mem_nil, false_imp_iff, implies_true, and_true]
    refine ⟨?_, ?_, ?_, ?_, ?_, ?_, ?_, ?_, ?_, ?_, ?_, ?_, ?_, ?_, ?_, ?_, ?_, ?_, ?_, ?_, ?_,
      ?_, ?_, ?_, ?_, ?_, ?_, ?_, ?_, ?_, ?_, ?_, ?_, ?_, ?_, ?_, ?_, ?_, ?_, ?_, ?_, ?_, ?_,
      ?_⟩
    all_goals
      intro hq
      simp [pureQueryTools] at hq
    · -- mouse_get_position
      have h1 := hpure .Location rfl
      refine ⟨?_, ⟨[.Location], ?_, ?_⟩, ?_⟩
      · simp [mouseGetPositionHandler, invoke, h1]
      · simp [mouseGetPositionHandler, invoke]
      · simp [Call.isQuery]
      · intro w2 h2
        simp [mouseGetPositionHandler, invoke, h2]
    · -- screen_get_size
      by_cases hd : getIntArg E.toPlatform (getArgs request) "display_id" (-1) ≥ 0
      · have h1 := hpure (.GetScaleSize (getIntArg E.toPlatform (getArgs request) "display_id" (-1))) rfl
        refine ⟨?_, ⟨[.GetScaleSize (getIntArg E.toPlatform (getArgs request) "display_id" (-1))], ?_, ?_⟩, ?_⟩
        · simp [screenGetSizeHandler, invoke, h1, hd]
        · simp [screenGetSizeHandler, invoke, hd]
        · simp [Call.isQuery]
        · intro w2 h2
          simp [screenGetSizeHandler, invoke, h2, hd]
      · have h1 := hpure .GetScreenSize rfl
        refine ⟨?_, ⟨[.GetScreenSize], ?_, ?_⟩, ?_⟩
        · simp [screenGetSizeHandler, invoke, h1, hd]
        · simp [screenGetSizeHandler, invoke, hd]
        · simp [Call.isQuery]
        · intro w2 h2
          simp [screenGetSizeHandler, invoke, h2, hd]
    · -- screen_get_displays_num
      have h1 := hpure .DisplaysNum rfl
      refine ⟨?_, ⟨[.DisplaysNum], ?_, ?_⟩, ?_⟩
      · simp [screenGetDisplaysNumHandler, invoke, h1]
      · simp [screenGetDisplaysNumHandler, invoke]
      · simp [Call.isQuery]
      · intro w2 h2
        simp [screenGetDisplaysNumHandler, invoke, h2]
    · -- window_get_active
      have h1 := hpure .GetActive rfl
      have h2 := hpure (.GetTitle []) rfl
      have h3 := hpure .GetPid rfl
      refine ⟨?_, ⟨[.GetActive, .GetTitle [], .GetPid], ?_, ?_⟩, ?_⟩
      · simp [windowGetActiveHandler, invoke, h1, h2, h3]
      · simp [windowGetActiveHandler, invoke]
      · simp [Call.isQuery]
      · intro w2 hw
        simp [windowGetActiveHandler, invoke, hw, h1, h2, h3]
    · -- system_get_info
      have h1 := hpure .GetVersion rfl
      have h2 := hpure .Is64Bit rfl
      have h3 := hpure .GetMainId rfl
      have h4 := hpure .DisplaysNum rfl
      refine ⟨?_, ⟨[.GetVersion, .Is64Bit, .GetMainId, .DisplaysNum], ?_, ?_⟩, ?_⟩
      · simp [systemGetInfoHandler, invoke, h1, h2, h3, h4]
      · simp [systemGetInfoHandler, invoke]
      · simp [Call.isQuery]
      · intro w2 hw
        simp [systemGetInfoHandler, invoke, hw, h1, h2, h3, h4]
  exact ⟨key.1, key.2.1, key.2.2, key.2.2 _ key.1⟩

theorem pure_query_idempotent_witness :
    mouseGetPositionEntry ∈ (registeredTools : MCPServer (Int × Int)) ∧
    (mouseGetPositionEntry : ServerTool (Int × Int)).tool.name ∈ pureQueryTools ∧
    pointerEnv.queriesPure ∧
    (((mouseGetPositionEntry : ServerTool (Int × Int)).handler pointerEnv ⟨.map []⟩
        ⟨(100, 200), []⟩).2.state = (⟨(100, 200), []⟩ : World (Int × Int)).state ∧
      (∃ cs, ((mouseGetPositionEntry : ServerTool (Int × Int)).handler pointerEnv ⟨.map []⟩
          ⟨(100, 200), []⟩).2.calls = (⟨(100, 200), []⟩ : World (Int × Int)).calls ++ cs ∧
        ∀ c ∈ cs, c.isQuery = true) ∧
      (∀ w2 : World (Int × Int), w2.state = (⟨(100, 200), []⟩ : World (Int × Int)).state →
        ((mouseGetPositionEntry : ServerTool (Int × Int)).handler pointerEnv ⟨.map []⟩ w2).1 =
          ((mouseGetPositionEntry : ServerTool (Int × Int)).handler pointerEnv ⟨.map []⟩
            ⟨(100, 200), []⟩).1) ∧
      ((mouseGetPositionEntry : ServerTool (Int × Int)).handler pointerEnv ⟨.map []⟩
          ((mouseGetPositionEntry : ServerTool (Int × Int)).handler pointerEnv ⟨.map []⟩
            ⟨(100, 200), []⟩).2).1 =
        ((mouseGetPositionEntry : ServerTool (Int × Int)).handler pointerEnv ⟨.map []⟩
          ⟨(100, 200), []⟩).1) ∧
    (mouseMoveHandler pointerEnv ⟨.map [("x", .int 100), ("y", .int 200)]⟩
        ⟨(0, 0), []⟩).2.state = (100, 200) ∧
    (invoke pointerEnv .Location
        (mouseMoveHandler pointerEnv ⟨.map [("x", .int 100), ("y", .int 200)]⟩
          ⟨(0, 0), []⟩).2).1 = (100, 200) :=
  ⟨mouseGetPositionEntry_mem, by decide, pointerEnv_queriesPure,
    pure_query_idempotent mouseGetPositionEntry mouseGetPositionEntry_mem (by decide)
      pointerEnv pointerEnv_queriesPure ⟨.map []⟩ ⟨(100, 200), []⟩,
    rfl, rfl⟩

/-! ## Theorems: documented defaults -/

theorem mouseScrollSmoothEntry_mem {σ : Type} :
    mouseScrollSmoothEntry ∈ (registeredTools : MCPServer σ) := by
  simp [registeredTools, registerMouseTools, registerKeyboardTools, registerScreenTools,
    registerWindowTools, registerProcessTools, registerSystemTools, MCPServer.AddTool,
    mouseScrollSmoothEntry]

/-- The registered descriptors do not depend on the provider's state type. -/
theorem registeredTools_tools {σ : Type} :
    (registeredTools : MCPServer σ).map (fun st => st.tool) =
      (registeredTools : MCPServer Unit).map (fun st => st.tool) := by
  simp [registeredTools, registerMouseTools, registerKeyboardTools, registerScreenTools,
    registerWindowTools, registerProcessTools, registerSystemTools, MCPServer.AddTool]

theorem registered_docConsistent :
    ∀ t ∈ (registeredTools : MCPServer Unit).map (fun st => st.tool),
      t.docConsistent = true := by
  decide

/-- The defaults documented in the registered descriptions, tool by tool. -/
theorem registered_documentedDefaults :
    ((registeredTools : MCPServer Unit).map
        (fun st => (st.tool.name, st.tool.documentedDefaults))).filter
        (fun e => !e.2.isEmpty) =
      [("mouse_move_smooth", [("low", "1.0"), ("high", "3.0")]),
       ("mouse_click", [("button", "'left'"), ("double", "false")]),
       ("mouse_click_at", [("button", "'left'"), ("double", "false")]),
       ("mouse_toggle", [("button", "'left'"), ("down", "true")]),
       ("mouse_drag", [("button", "'left'")]),
       ("mouse_drag_smooth", [("low", "1.0"), ("high", "3.0"), ("button", "'left'")]),
       ("mouse_scroll_smooth", [("num", "5"), ("delay", "100")]),
       ("key_toggle", [("down", "true")]),
       ("alert_show", [("default_btn", "'OK'")])] := by
  decide

theorem F64.eqDecimal_sound (f : F64) (n k : Nat) (h : f.eqDecimal n k = true) :
    f.toRat = (n : ℚ) / (10 : ℚ) ^ k := by
  unfold F64.eqDecimal at h
  simp only [Bool.and_eq_true, Bool.not_eq_true'] at h
  obtain ⟨⟨_, hs⟩, hv⟩ := h
  have h10 : ((10 : ℚ) ^ k) ≠ 0 := by positivity
  unfold F64.toRat
  rw [hs]
  simp only [Bool.false_eq_true, if_false, one_mul]
  by_cases he : 0 ≤ f.exp
  · rw [if_pos he] at hv
    have hv2 : f.mant * 2 ^ f.exp.toNat * 10 ^ k = n := by simpa using hv
    obtain ⟨m, hm⟩ := Int.eq_ofNat_of_zero_le he
    rw [hm] at hv2 ⊢
    simp only [Int.toNat_ofNat] at hv2
    rw [zpow_natCast, eq_div_iff h10, ← hv2]
    push_cast
    ring
  · rw [if_neg he] at hv
    have hv2 : f.mant * 10 ^ k = n * 2 ^ (-f.exp).toNat := by simpa using hv
    obtain ⟨m, hm⟩ := Int.eq_ofNat_of_zero_le (show 0 ≤ -f.exp by omega)
    have he2 : f.exp = -(m : Int) := by omega
    rw [hm] at hv2
    simp only [Int.toNat_ofNat] at hv2
    rw [he2, zpow_neg, zpow_natCast, eq_div_iff h10]
    have h2 : ((2 : ℚ) ^ m) ≠ 0 := by positivity
    field_simp
    have := congrArg (fun x : Nat => (x : ℚ)) hv2
    push_cast at this
    linarith

/-! ## Theorems: base64 and `screen_capture` -/

theorem b64Index_b64Char : ∀ n : Fin 64, b64Index (b64Char n.val) = some n.val := by
  decide

theorem b64Char_ne_pad : ∀ n : Fin 64, b64Char n.val ≠ b64Pad := by
  decide

theorem b64Index_char (n : Nat) (h : n < 64) : b64Index (b64Char n) = some n :=
  b64Index_b64Char ⟨n, h⟩

theorem b64Char_ne (n : Nat) (h : n < 64) : b64Char n ≠ b64Pad :=
  b64Char_ne_pad ⟨n, h⟩

theorem base64EncodeChars_eq_nil (bytes : List Nat) (h : base64EncodeChars bytes = []) :
    bytes = [] := by
  match bytes with
  | [] => rfl
  | [_] => simp [base64EncodeChars] at h
  | [_, _] => simp [base64EncodeChars] at h
  | _ :: _ :: _ :: _ => simp [base64EncodeChars] at h

/-- Decoding the standard base64 of a byte sequence gives the sequence back. -/
theorem base64DecodeChars_encode (bytes : List Nat) (h : ∀ b ∈ bytes, b < 256) :
    base64DecodeChars (base64EncodeChars bytes) = some bytes := by
  match bytes with
  | [] => rfl
  | [a] =>
    have ha : a < 256 := h a (by simp)
    simp only [base64EncodeChars, base64DecodeChars, and_self, if_true]
    rw [b64Index_char _ (by omega), b64Index_char _ (by omega)]
    simp only [Option.some_bind, Option.some.injEq, List.cons.injEq, and_true]
    omega
  | [a, b] =>
    have ha : a < 256 := h a (by simp)
    have hb : b < 256 := h b (by simp)
    simp only [base64EncodeChars, base64DecodeChars]
    rw [if_neg (by
      intro hc
      exact b64Char_ne _ (by omega) hc.1)]
    simp only [if_true]
    rw [b64Index_char _ (by omega), b64Index_char _ (by omega), b64Index_char _ (by omega)]
    simp only [Option.some_bind, Option.some.injEq, List.cons.injEq, and_true]
    omega
  | a :: b :: c :: rest =>
    have ha : a < 256 := h a (by simp)
    have hb : b < 256 := h b (by simp)
    have hc : c < 256 := h c (by simp)
    have hrest : ∀ x ∈ rest, x < 256 := fun x hx => h x (by simp [hx])
    have ih := base64DecodeChars_encode rest hrest
    simp only [base64EncodeChars, base64DecodeChars]
    rw [if_neg (by
      intro hc2
      exact b64Char_ne _ (by omega) hc2.2)]
    rw [if_neg (b64Char_ne _ (by omega))]
    rw [b64Index_char _ (by omega), b64Index_char _ (by omega), b64Index_char _ (by omega),
      b64Index_char _ (by omega), ih]
    simp only [Option.some_bind, Option.some.injEq, List.cons.injEq, and_true]
    omega

theorem base64StdDecode_encode (bytes : List Nat) (h : ∀ b ∈ bytes, b < 256) :
    base64StdDecode (base64StdEncode bytes) = some bytes :=
  base64DecodeChars_encode bytes h

/-- The standard test vectors of base64 (RFC 4648): "M", "Ma", "Man", "foobar". -/
theorem base64StdEncode_vectors :
    base64StdEncode [77] = "TQ==" ∧ base64StdEncode [77, 97] = "TWE=" ∧
    base64StdEncode [77, 97, 110] = "TWFu" ∧
    base64StdEncode [102, 111, 111, 98, 97, 114] = "Zm9vYmFy" ∧
    base64StdEncode [251, 255, 191] = "+/+/" := by
  decide

/-! ## Theorems: required and optional accessors agree -/

/-- C22: the optional and required accessors use the same coercion rules: when
`getRequiredIntArg` succeeds with `v`, `getIntArg` returns `v` for every default, and
when it fails `getIntArg` returns the default; the same holds between
`getRequiredStringArg` and `getStringArg`. -/
theorem required_optional_agree (P : Platform) (args : Args) (k : String) (d : Int)
    (ds : String) :
    (∀ v, getRequiredIntArg P args k = (v, none) → getIntArg P args k d = v) ∧
    ((getRequiredIntArg P args k).2 ≠ none → getIntArg P args k d = d) ∧
    (∀ s, getRequiredStringArg args k = (s, none) → getStringArg args k ds = s) ∧
    ((getRequiredStringArg args k).2 ≠ none → getStringArg args k ds = ds) ∧
    ((getRequiredIntArg P args k).2 = none →
      getRequiredIntArg P args k = (getIntArg P args k d, none)) ∧
    ((getRequiredStringArg args k).2 = none →
      getRequiredStringArg args k = (getStringArg args k ds, none)) := by
  unfold getRequiredIntArg getIntArg getRequiredStringArg getStringArg
  cases h : args.get? k with
  | none => simp
  | some v => cases v <;> simp

theorem required_optional_agree_witness :
    (∀ v, getRequiredIntArg amd64 [("n", .float64 f2_9)] "n" = (v, none) →
      getIntArg amd64 [("n", .float64 f2_9)] "n" 7 = v) ∧
    getRequiredIntArg amd64 [("n", .float64 f2_9)] "n" = (2, none) ∧
    getIntArg amd64 [("n", .float64 f2_9)] "n" 7 = 2 ∧
    ((getRequiredIntArg amd64 [("n", .string "2")] "n").2 ≠ none →
      getIntArg amd64 [("n", .string "2")] "n" 7 = 7) ∧
    getIntArg amd64 [("n", .string "2")] "n" 7 = 7 :=
  ⟨(required_optional_agree amd64 [("n", .float64 f2_9)] "n" 7 "").1, by decide, by decide,
    (required_optional_agree amd64 [("n", .string "2")] "n" 7 "").2.1, by decide⟩

/-! ## Theorems: `getStringArrayArg` -/

theorem stringItems_eq_filterMap (arr : List Value) :
    stringItems arr = arr.filterMap (fun v => match v with
      | .string s => some s
      | _ => none) := by
  induction arr with
  | nil => rfl
  | cons v rest ih => cases v <;> simp [stringItems, ih]

theorem stringItems_length_le (arr : List Value) : (stringItems arr).length ≤ arr.length := by
  rw [stringItems_eq_filterMap]
  exact List.length_filterMap_le _ _

theorem stringItems_map_string (ss : List String) :
    stringItems (ss.map Value.string) = ss := by
  induction ss with
  | nil => rfl
  | cons s rest ih => simp [stringItems, ih]

theorem stringItems_sublist (arr : List Value) :
    ((stringItems arr).map Value.string).Sublist arr := by
  induction arr with
  | nil => exact List.Sublist.slnil
  | cons v rest ih =>
    cases v <;> simp only [stringItems, List.map_cons] <;>
      first
      | exact List.Sublist.cons₂ _ ih
      | exact List.Sublist.cons _ ih

/-- C25: `getStringArrayArg` returns nil when the key is absent or its value is not
a list; for a list it returns exactly the string elements in their original order,
dropping every other element: the result is a sublist of the input, never longer,
and is the input itself when all elements are strings. -/
theorem getStringArrayArg_spec (args : Args) (k : String) :
    (args.get? k = none → getStringArrayArg args k = none) ∧
    (∀ v, args.get? k = some v → (∀ arr, v ≠ .slice arr) → getStringArrayArg args k = none) ∧
    (∀ arr, args.get? k = some (.slice arr) →
      getStringArrayArg args k = some (arr.filterMap (fun v => match v with
        | .string s => some s
        | _ => none)) ∧
      (∃ res, getStringArrayArg args k = some res ∧ res.length ≤ arr.length ∧
        (res.map Value.string).Sublist arr)) ∧
    (∀ ss : List String, args.get? k = some (.slice (ss.map Value.string)) →
      getStringArrayArg args k = some ss) := by
  refine ⟨?_, ?_, ?_, ?_⟩
  · intro h
    simp [getStringArrayArg, h]
  · intro v h hv
    cases v <;> simp_all [getStringArrayArg]
  · intro arr h
    have hg : getStringArrayArg args k = some (stringItems arr) := by
      simp [getStringArrayArg, h]
    refine ⟨by rw [hg, stringItems_eq_filterMap], stringItems arr, hg,
      stringItems_length_le arr, stringItems_sublist arr⟩
  · intro ss h
    simp [getStringArrayArg, h, stringItems_map_string]

theorem getStringArrayArg_spec_witness :
    getStringArrayArg
        [("modifiers", .slice [.string "ctrl", .int 3, .string "shift", .nil])] "modifiers" =
      some ["ctrl", "shift"] ∧
    getStringArrayArg [("modifiers", .string "ctrl")] "modifiers" = none ∧
    getStringArrayArg [] "modifiers" = none ∧
    (∀ ss : List String,
      Args.get? [("modifiers", .slice [.string "ctrl"])] "modifiers" =
        some (.slice (ss.map Value.string)) →
      getStringArrayArg [("modifiers", .slice [.string "ctrl"])] "modifiers" = some ss) :=
  ⟨by decide, by decide, by decide,
    (getStringArrayArg_spec [("modifiers", .slice [.string "ctrl"])] "modifiers").2.2.2⟩
/-! ## Theorems: `mouse_toggle` and `key_toggle` -/

/-- C23: `mouse_toggle` and `key_toggle` send the provider exactly one toggle call,
with direction "down" when `down` is true or absent and "up" when it is false, and
the success message names the direction that was sent. -/
theorem toggle_direction {σ : Type} (E : Env σ) (args : Args) (w : World σ) :
    ((args.get? "down" = some (.bool true) ∨ args.get? "down" = none) →
      (mouseToggleHandler E ⟨.map args⟩ w).2.calls =
        w.calls ++ [.Toggle (getStringArg args "button" "left") "down"] ∧
      (mouseToggleHandler E ⟨.map args⟩ w).1 =
        successOf E (.map [("status", .string "success"),
          ("message", .string ("Mouse button " ++ getStringArg args "button" "left" ++ " " ++
            "down"))]) ∧
      ∀ key, args.get? "key" = some (.string key) →
        (keyToggleHandler E ⟨.map args⟩ w).2.calls = w.calls ++ [.KeyToggle key "down"] ∧
        (keyToggleHandler E ⟨.map args⟩ w).1 =
          successOf E (.map [("status", .string "success"),
            ("message", .string ("Key '" ++ key ++ "' " ++ "down"))])) ∧
    (args.get? "down" = some (.bool false) →
      (mouseToggleHandler E ⟨.map args⟩ w).2.calls =
        w.calls ++ [.Toggle (getStringArg args "button" "left") "up"] ∧
      (mouseToggleHandler E ⟨.map args⟩ w).1 =
        successOf E (.map [("status", .string "success"),
          ("message", .string ("Mouse button " ++ getStringArg args "button" "left" ++ " " ++
            "up"))]) ∧
      ∀ key, args.get? "key" = some (.string key) →
        (keyToggleHandler E ⟨.map args⟩ w).2.calls = w.calls ++ [.KeyToggle key "up"] ∧
        (keyToggleHandler E ⟨.map args⟩ w).1 =
          successOf E (.map [("status", .string "success"),
            ("message", .string ("Key '" ++ key ++ "' " ++ "up"))])) := by
  constructor
  · intro hd
    have hdown : getBoolArg args "down" true = true := by
      rcases hd with hd | hd <;> simp [getBoolArg, hd]
    refine ⟨by simp [mouseToggleHandler, getArgs, hdown, invoke],
      by simp [mouseToggleHandler, getArgs, hdown], ?_⟩
    intro key hk
    have hkey : getRequiredStringArg args "key" = (key, none) := by
      simp [getRequiredStringArg, hk]
    simp [keyToggleHandler, getArgs, hkey, hdown, invoke]
  · intro hd
    have hdown : getBoolArg args "down" true = false := by simp [getBoolArg, hd]
    refine ⟨by simp [mouseToggleHandler, getArgs, hdown, invoke],
      by simp [mouseToggleHandler, getArgs, hdown], ?_⟩
    intro key hk
    have hkey : getRequiredStringArg args "key" = (key, none) := by
      simp [getRequiredStringArg, hk]
    simp [keyToggleHandler, getArgs, hkey, hdown, invoke]

theorem toggle_direction_witness :
    (keyToggleHandler idleEnv ⟨.map [("key", .string "shift"), ("down", .bool false)]⟩
        idleWorld).2.calls = [.KeyToggle "shift" "up"] ∧
    (mouseToggleHandler idleEnv ⟨.map []⟩ idleWorld).2.calls = [.Toggle "left" "down"] ∧
    (mouseToggleHandler idleEnv ⟨.map [("key", .string "shift"), ("down", .bool false)]⟩
        idleWorld).2.calls = idleWorld.calls ++
          [.Toggle (getStringArg [("key", .string "shift"), ("down", .bool false)] "button"
            "left") "up"] ∧
    (keyToggleHandler idleEnv ⟨.map [("key", .string "shift"), ("down", .bool false)]⟩
        idleWorld).2.calls = idleWorld.calls ++ [.KeyToggle "shift" "up"] :=
  ⟨rfl, rfl,
    ((toggle_direction idleEnv [("key", .string "shift"), ("down", .bool false)]
      idleWorld).2 rfl).1,
    (((toggle_direction idleEnv [("key", .string "shift"), ("down", .bool false)]
      idleWorld).2 rfl).2.2 "shift" rfl).1⟩

/-! ## Theorems: `key_tap` -/

/-- C27: `key_tap` sends the provider exactly one `KeyTap` call: the key followed by
the string elements of `modifiers` in the order supplied; when `modifiers` is
absent, not a list, empty, or holds no strings, the call is `KeyTap(key)` with no
modifiers. -/
theorem keyTap_call {σ : Type} (E : Env σ) (args : Args) (w : World σ) (key : String)
    (hk : args.get? "key" = some (.string key)) :
    (keyTapHandler E ⟨.map args⟩ w).2.calls =
      w.calls ++ [.KeyTap key ((getStringArrayArg args "modifiers").getD [])] ∧
    (∀ arr, args.get? "modifiers" = some (.slice arr) →
      (keyTapHandler E ⟨.map args⟩ w).2.calls = w.calls ++ [.KeyTap key (stringItems arr)]) ∧
    (∀ mods : List String, args.get? "modifiers" = some (.slice (mods.map Value.string)) →
      (keyTapHandler E ⟨.map args⟩ w).2.calls = w.calls ++ [.KeyTap key mods]) ∧
    ((args.get? "modifiers" = none ∨
        (∃ v, args.get? "modifiers" = some v ∧ ∀ arr, v ≠ .slice arr) ∨
        (∃ arr, args.get? "modifiers" = some (.slice arr) ∧ stringItems arr = [])) →
      (keyTapHandler E ⟨.map args⟩ w).2.calls = w.calls ++ [.KeyTap key []]) ∧
    (keyTapHandler E ⟨.map args⟩ w).1 =
      successOf E (.map [("status", .string "success"),
        ("message", .string ("Key '" ++ key ++ "' tapped"))]) := by
  have hkey : getRequiredStringArg args "key" = (key, none) := by
    simp [getRequiredStringArg, hk]
  have hcalls : (keyTapHandler E ⟨.map args⟩ w).2.calls =
      w.calls ++ [.KeyTap key ((getStringArrayArg args "modifiers").getD [])] := by
    simp only [keyTapHandler, getArgs, hkey]
    by_cases hlen : ((getStringArrayArg args "modifiers").getD []).length > 0
    · simp [hlen, invoke]
    · have hnil : (getStringArrayArg args "modifiers").getD [] = [] := by
        cases hm : (getStringArrayArg args "modifiers").getD [] with
        | nil => rfl
        | cons a l => simp [hm] at hlen
      rw [if_neg hlen, hnil]
      simp [invoke]
  refine ⟨hcalls, ?_, ?_, ?_, ?_⟩
  · intro arr h
    rw [hcalls]
    simp [getStringArrayArg, h]
  · intro mods h
    rw [hcalls]
    simp [getStringArrayArg, h, stringItems_map_string]
  · intro h
    rw [hcalls]
    rcases h with h | ⟨v, h, hv⟩ | ⟨arr, h, harr⟩
    · simp [getStringArrayArg, h]
    · cases v <;> simp_all [getStringArrayArg]
    · simp [getStringArrayArg, h, harr]
  · simp only [keyTapHandler, getArgs, hkey]

theorem keyTap_call_witness :
    Args.get? [("key", .string "c"), ("modifiers", .slice [.string "ctrl", .int 1,
      .string "shift"])] "key" = some (.string "c") ∧
    (keyTapHandler idleEnv ⟨.map [("key", .string "c"),
        ("modifiers", .slice [.string "ctrl", .int 1, .string "shift"])]⟩ idleWorld).2.calls =
      [.KeyTap "c" ["ctrl", "shift"]] ∧
    (keyTapHandler idleEnv ⟨.map [("key", .string "c"), ("modifiers", .slice [.int 1])]⟩
        idleWorld).2.calls = [.KeyTap "c" []] ∧
    (keyTapHandler idleEnv ⟨.map [("key", .string "c"),
        ("modifiers", .slice [.string "ctrl", .int 1, .string "shift"])]⟩ idleWorld).2.calls =
      idleWorld.calls ++ [.KeyTap "c" ((getStringArrayArg [("key", .string "c"),
        ("modifiers", .slice [.string "ctrl", .int 1, .string "shift"])]
        "modifiers").getD [])] :=
  ⟨rfl, rfl, rfl,
    (keyTap_call idleEnv [("key", .string "c"),
      ("modifiers", .slice [.string "ctrl", .int 1, .string "shift"])] idleWorld "c" rfl).1⟩
/-! ## Theorems: the arguments of `CaptureScreen` -/

theorem regionArgs_valid (x y width height : Int)
    (h : 0 ≤ x ∧ 0 ≤ y ∧ 0 < width ∧ 0 < height) :
    regionArgs x y width height = [x, y, width, height] := by
  unfold regionArgs
  rw [if_pos (by omega)]

theorem regionArgs_invalid (x y width height : Int)
    (h : ¬ (0 ≤ x ∧ 0 ≤ y ∧ 0 < width ∧ 0 < height)) :
    regionArgs x y width height = [] := by
  unfold regionArgs
  rw [if_neg (by omega)]

/-- The provider calls of `screen_capture`, by validity of the region and sign of
`display_id`. -/
theorem screenCaptureHandler_calls {σ : Type} (E : Env σ) (request : CallToolRequest)
    (w : World σ) (x y width height displayId : Int)
    (hx : getIntArg E.toPlatform (getArgs request) "x" (-1) = x)
    (hy : getIntArg E.toPlatform (getArgs request) "y" (-1) = y)
    (hw : getIntArg E.toPlatform (getArgs request) "width" (-1) = width)
    (hh : getIntArg E.toPlatform (getArgs request) "height" (-1) = height)
    (hd : getIntArg E.toPlatform (getArgs request) "display_id" (-1) = displayId) :
    (0 ≤ x ∧ 0 ≤ y ∧ 0 < width ∧ 0 < height → displayId < 0 →
      ∃ bitmap, (screenCaptureHandler E request w).2.calls =
        w.calls ++ [.CaptureScreen [x, y, width, height], .ToImage bitmap,
          .FreeBitmap bitmap]) ∧
    (0 ≤ x ∧ 0 ≤ y ∧ 0 < width ∧ 0 < height → 0 ≤ displayId →
      ∃ bitmap, (screenCaptureHandler E request w).2.calls =
        w.calls ++ [.CaptureScreen [x, y, width, height, displayId], .ToImage bitmap,
          .FreeBitmap bitmap]) ∧
    (¬ (0 ≤ x ∧ 0 ≤ y ∧ 0 < width ∧ 0 < height) → 0 ≤ displayId →
      ∃ bitmap, (screenCaptureHandler E request w).2.calls =
        w.calls ++ [.GetScreenSize,
          .CaptureScreen [0, 0, (E.robotgo .GetScreenSize w.state).1.1,
            (E.robotgo .GetScreenSize w.state).1.2, displayId],
          .ToImage bitmap, .FreeBitmap bitmap]) ∧
    (¬ (0 ≤ x ∧ 0 ≤ y ∧ 0 < width ∧ 0 < height) → displayId < 0 →
      ∃ bitmap, (screenCaptureHandler E request w).2.calls =
        w.calls ++ [.CaptureScreen [], .ToImage bitmap, .FreeBitmap bitmap]) := by
  subst hx hy hw hh hd
  refine ⟨?_, ?_, ?_, ?_⟩
  · intro hr hneg
    have hnd : ¬ getIntArg E.toPlatform (getArgs request) "display_id" (-1) ≥ 0 := by omega
    refine ⟨(E.robotgo (.CaptureScreen [getIntArg E.toPlatform (getArgs request) "x" (-1),
      getIntArg E.toPlatform (getArgs request) "y" (-1), getIntArg E.toPlatform (getArgs request) "width" (-1),
      getIntArg E.toPlatform (getArgs request) "height" (-1)]) w.state).1, ?_⟩
    unfold screenCaptureHandler
    dsimp only
    rw [regionArgs_valid _ _ _ _ hr, if_neg hnd]
    dsimp only
    rw [if_pos (by simp)]
    split <;> simp [invoke]
  · intro hr hpos
    refine ⟨(E.robotgo (.CaptureScreen [getIntArg E.toPlatform (getArgs request) "x" (-1),
      getIntArg E.toPlatform (getArgs request) "y" (-1), getIntArg E.toPlatform (getArgs request) "width" (-1),
      getIntArg E.toPlatform (getArgs request) "height" (-1),
      getIntArg E.toPlatform (getArgs request) "display_id" (-1)]) w.state).1, ?_⟩
    unfold screenCaptureHandler
    dsimp only
    rw [regionArgs_valid _ _ _ _ hr, if_pos hpos,
      if_neg (show ¬ ([_, _, _, _] : List Int).length = 0 from by simp)]
    dsimp only
    rw [if_pos (by simp)]
    split <;> simp [invoke]
  · intro hr hpos
    refine ⟨(E.robotgo (.CaptureScreen [0, 0, (E.robotgo .GetScreenSize w.state).1.1,
      (E.robotgo .GetScreenSize w.state).1.2,
      getIntArg E.toPlatform (getArgs request) "display_id" (-1)])
      (E.robotgo .GetScreenSize w.state).2).1, ?_⟩
    unfold screenCaptureHandler
    dsimp only
    rw [regionArgs_invalid _ _ _ _ hr, if_pos hpos,
      if_pos (show ([] : List Int).length = 0 from rfl)]
    dsimp only
    rw [if_pos (by simp)]
    split <;> simp [invoke]
  · intro hr hneg
    have hnd : ¬ getIntArg E.toPlatform (getArgs request) "display_id" (-1) ≥ 0 := by omega
    refine ⟨(E.robotgo (.CaptureScreen []) w.state).1, ?_⟩
    unfold screenCaptureHandler
    dsimp only
    rw [regionArgs_invalid _ _ _ _ hr, if_neg hnd]
    dsimp only
    rw [if_neg (by simp)]
    split <;> simp [invoke]


theorem screenCapture_grows {σ : Type} (E : Env σ) (request : CallToolRequest) (w : World σ) :
    w.calls.length < (screenCaptureHandler E request w).2.calls.length := by
  have h := screenCaptureHandler_calls E request w _ _ _ _ _ rfl rfl rfl rfl rfl
  by_cases hr : 0 ≤ getIntArg E.toPlatform (getArgs request) "x" (-1) ∧
      0 ≤ getIntArg E.toPlatform (getArgs request) "y" (-1) ∧
      0 < getIntArg E.toPlatform (getArgs request) "width" (-1) ∧
      0 < getIntArg E.toPlatform (getArgs request) "height" (-1) <;>
    by_cases hd : 0 ≤ getIntArg E.toPlatform (getArgs request) "display_id" (-1)
  · obtain ⟨b, hb⟩ := h.2.1 hr hd
    rw [hb]; simp
  · obtain ⟨b, hb⟩ := h.1 hr (by omega)
    rw [hb]; simp
  · obtain ⟨b, hb⟩ := h.2.2.1 hr hd
    rw [hb]; simp
  · obtain ⟨b, hb⟩ := h.2.2.2 hr (by omega)
    rw [hb]; simp

/-- C26: `screen_capture` calls `CaptureScreen` exactly once, with 0, 4 or 5
arguments. With `x`, `y`, `width`, `height` and `display_id` read with default -1:
the region `x, y, width, height` is passed only when `x ≥ 0`, `y ≥ 0`, `width > 0`
and `height > 0` all hold; a `display_id ≥ 0` is appended as the fifth argument,
after the region `0, 0, screenWidth, screenHeight` from `GetScreenSize` when the
supplied region is not valid; with no valid region and `display_id < 0` there are
no arguments. The only other calls are `ToImage` and `FreeBitmap` on the bitmap. -/
theorem screenCapture_args {σ : Type} (E : Env σ) (args : Args) (w : World σ)
    (x y width height displayId : Int)
    (hx : getIntArg E.toPlatform args "x" (-1) = x)
    (hy : getIntArg E.toPlatform args "y" (-1) = y)
    (hw : getIntArg E.toPlatform args "width" (-1) = width)
    (hh : getIntArg E.toPlatform args "height" (-1) = height)
    (hd : getIntArg E.toPlatform args "display_id" (-1) = displayId) :
    (0 ≤ x ∧ 0 ≤ y ∧ 0 < width ∧ 0 < height → displayId < 0 →
      ∃ bitmap, (screenCaptureHandler E ⟨.map args⟩ w).2.calls =
        w.calls ++ [.CaptureScreen [x, y, width, height], .ToImage bitmap,
          .FreeBitmap bitmap]) ∧
    (0 ≤ x ∧ 0 ≤ y ∧ 0 < width ∧ 0 < height → 0 ≤ displayId →
      ∃ bitmap, (screenCaptureHandler E ⟨.map args⟩ w).2.calls =
        w.calls ++ [.CaptureScreen [x, y, width, height, displayId], .ToImage bitmap,
          .FreeBitmap bitmap]) ∧
    (¬ (0 ≤ x ∧ 0 ≤ y ∧ 0 < width ∧ 0 < height) → 0 ≤ displayId →
      ∃ bitmap, (screenCaptureHandler E ⟨.map args⟩ w).2.calls =
        w.calls ++ [.GetScreenSize,
          .CaptureScreen [0, 0, (E.robotgo .GetScreenSize w.state).1.1,
            (E.robotgo .GetScreenSize w.state).1.2, displayId],
          .ToImage bitmap, .FreeBitmap bitmap]) ∧
    (¬ (0 ≤ x ∧ 0 ≤ y ∧ 0 < width ∧ 0 < height) → displayId < 0 →
      ∃ bitmap, (screenCaptureHandler E ⟨.map args⟩ w).2.calls =
        w.calls ++ [.CaptureScreen [], .ToImage bitmap, .FreeBitmap bitmap]) :=
  screenCaptureHandler_calls E ⟨.map args⟩ w x y width height displayId hx hy hw hh hd

theorem screenCapture_args_witness :
    (screenCaptureHandler idleEnv ⟨.map [("x", .int 10), ("y", .int 20), ("width", .int 300),
        ("height", .int 200)]⟩ idleWorld).2.calls =
      [.CaptureScreen [10, 20, 300, 200], .ToImage ⟨[]⟩, .FreeBitmap ⟨[]⟩] ∧
    (screenCaptureHandler idleEnv ⟨.map [("x", .int 10), ("y", .int 20), ("width", .int 300),
        ("height", .int 200), ("display_id", .int 1)]⟩ idleWorld).2.calls =
      [.CaptureScreen [10, 20, 300, 200, 1], .ToImage ⟨[]⟩, .FreeBitmap ⟨[]⟩] ∧
    (screenCaptureHandler idleEnv ⟨.map [("x", .int 10), ("y", .int 20), ("width", .int 0),
        ("height", .int 200)]⟩ idleWorld).2.calls =
      [.CaptureScreen [], .ToImage ⟨[]⟩, .FreeBitmap ⟨[]⟩] ∧
    ∃ bitmap, (screenCaptureHandler idleEnv ⟨.map [("x", .int 10), ("width", .int 300),
        ("height", .int 200), ("display_id", .int 1)]⟩ idleWorld).2.calls =
      idleWorld.calls ++ [.GetScreenSize,
        .CaptureScreen [0, 0, (idleEnv.robotgo .GetScreenSize idleWorld.state).1.1,
          (idleEnv.robotgo .GetScreenSize idleWorld.state).1.2, 1],
        .ToImage bitmap, .FreeBitmap bitmap] :=
  ⟨by decide, by decide, by decide,
    (screenCapture_args idleEnv [("x", .int 10), ("width", .int 300), ("height", .int 200),
      ("display_id", .int 1)] idleWorld 10 (-1) 300 200 1 (by decide) (by decide) (by decide)
      (by decide) (by decide)).2.2.1 (by decide) (by decide)⟩
/-! ## Theorems: requiredness in the schema and in the handler -/

theorem firstMissing_eq_none_iff (t : Tool) (args : Args) :
    t.firstMissing args = none ↔
      ∀ p ∈ t.params, p.required = true → p.suppliedIn args = true := by
  unfold Tool.firstMissing
  simp [List.find?_eq_none, List.mem_filter]

set_option maxHeartbeats 4000000 in
theorem handler_runs_when_supplied {σ : Type} :
    ∀ st ∈ (registeredTools : MCPServer σ), ∀ (E : Env σ) (request : CallToolRequest)
      (w : World σ), st.tool.firstMissing (getArgs request) = none →
      w.calls.length < (st.handler E request w).2.calls.length := by
  simp only [registeredTools, registerMouseTools, registerKeyboardTools, registerScreenTools,
    registerWindowTools, registerProcessTools, registerSystemTools,
    MCPServer.AddTool, List.nil_append, List.cons_append,
    List.forall_mem_cons, List.not_mem_nil, false_imp_iff, implies_true, and_true]
  refine ⟨?_, ?_, ?_, ?_, ?_, ?_, ?_, ?_, ?_, ?_, ?_, ?_, ?_, ?_, ?_, ?_, ?_, ?_, ?_, ?_, ?_, ?_,
    ?_, ?_, ?_, ?_, ?_, ?_, ?_, ?_, ?_, ?_, ?_, ?_, ?_, ?_, ?_, ?_, ?_, ?_, ?_, ?_, ?_, ?_⟩
  all_goals
    intro E request w h
    rw [firstMissing_eq_none_iff] at h
    simp only [req, opt, ParamSpec.suppliedIn, List.forall_mem_cons, List.not_mem_nil,
      false_imp_iff, implies_true, and_true, forall_const, true_and, Bool.false_eq_true] at h
  all_goals
    simp only [mouseMoveHandler, mouseMoveSmoothHandler, mouseMoveRelativeHandler,
      mouseGetPositionHandler, mouseClickHandler, mouseClickAtHandler, mouseToggleHandler,
      mouseDragHandler, mouseDragSmoothHandler, mouseScrollHandler, mouseScrollDirectionHandler,
      mouseScrollSmoothHandler, keyTapHandler, keyToggleHandler, typeTextHandler,
      typeTextDelayedHandler, clipboardReadHandler, clipboardWriteHandler, clipboardPasteHandler,
      screenGetSizeHandler, screenGetDisplaysNumHandler, screenGetDisplayBoundsHandler,
      screenCaptureHandler, screenCaptureSaveHandler, screenGetPixelColorHandler,
      screenGetMouseColorHandler, windowGetActiveHandler, windowGetTitleHandler,
      windowGetBoundsHandler, windowSetActiveHandler, windowMoveHandler, windowResizeHandler,
      windowMinimizeHandler, windowMaximizeHandler, windowCloseHandler, processListHandler,
      processFindByNameHandler, processGetNameHandler, processExistsHandler, processKillHandler,
      processRunHandler, systemGetInfoHandler, utilSleepHandler, alertShowHandler,
      getRequiredIntArg_eq, getRequiredStringArg_eq, h, if_true]
  all_goals
    first
    | exact screenCapture_grows E request w
    | repeat (first
      | (focus (simp [invoke]; done))
      | split)

theorem keyTap_modifiers_absent {σ : Type} (E : Env σ) (args : Args) (w : World σ)
    (h : args.get? "modifiers" = none) :
    keyTapHandler E ⟨.map (("modifiers", .slice []) :: args)⟩ w =
      keyTapHandler E ⟨.map args⟩ w := by
  have h1 : getStringArrayArg (("modifiers", .slice []) :: args) "modifiers" = some [] := by
    simp [getStringArrayArg, get?_cons, stringItems]
  have h2 : getStringArrayArg args "modifiers" = none := by
    simp [getStringArrayArg, h]
  simp only [keyTapHandler, getArgs_map]
  rw [getRequiredStringArg_cons_ne _ _ _ _ (by decide), h1, h2]
  rfl

theorem handler_array_absent {σ : Type} :
    ∀ st ∈ (registeredTools : MCPServer σ), ∀ p ∈ st.tool.params, p.kind = .array →
      ∀ (E : Env σ) (args : Args) (w : World σ), args.get? p.name = none →
        st.handler E ⟨.map ((p.name, .slice []) :: args)⟩ w = st.handler E ⟨.map args⟩ w := by
  simp only [registeredTools, registerMouseTools, registerKeyboardTools, registerScreenTools,
    registerWindowTools, registerProcessTools, registerSystemTools,
    MCPServer.AddTool, List.nil_append, List.cons_append,
    List.forall_mem_cons, List.not_mem_nil, false_imp_iff, implies_true, and_true]
  refine ⟨?_, ?_, ?_, ?_, ?_, ?_, ?_, ?_, ?_, ?_, ?_, ?_, ?_, ?_, ?_, ?_, ?_, ?_, ?_, ?_, ?_, ?_,
    ?_, ?_, ?_, ?_, ?_, ?_, ?_, ?_, ?_, ?_, ?_, ?_, ?_, ?_, ?_, ?_, ?_, ?_, ?_, ?_, ?_, ?_⟩
  all_goals
    simp only [req, opt, reduceCtorEq, false_imp_iff, implies_true, true_imp_iff, and_true,
      true_and]
  intro E args w h
  exact keyTap_modifiers_absent E args w h

theorem optional_has_default {σ : Type} (st : ServerTool σ)
    (hst : st ∈ (registeredTools : MCPServer σ)) (p : ParamSpec) (hp : p ∈ st.tool.params)
    (hr : p.required = false) (hk : p.kind ≠ .array) :
    ∃ d, (p.name, d) ∈ handlerDefaults st.tool.name := by
  have hmem : st.tool ∈ (registeredTools : MCPServer Unit).map (fun st => st.tool) := by
    rw [← @registeredTools_tools σ]
    exact List.mem_map.mpr ⟨st, hst, rfl⟩
  obtain ⟨st2, hst2, heq⟩ := List.mem_map.mp hmem
  have hcov := handlerDefaults_covers_optional st2 hst2
  have heq2 : st2.tool = st.tool := heq
  rw [heq2] at hcov
  have hin : p.name ∈ (st.tool.params.filter (fun p => !p.required && p.kind != .array)).map
      (fun p => p.name) := by
    refine List.mem_map.mpr ⟨p, List.mem_filter.mpr ⟨hp, ?_⟩, rfl⟩
    simp [hr, hk]
  rw [hcov] at hin
  obtain ⟨⟨n, d⟩, hnd, hn⟩ := List.mem_map.mp hin
  simp only at hn
  subst hn
  exact ⟨d, hnd⟩

/-- C24: schema and handler agree on requiredness, for every registered tool. When
a parameter marked Required in the schema is not supplied, the handler fails with the
missing-parameter error of the first such parameter and calls nothing; when every
parameter marked Required is supplied, the handler reaches the provider, whatever
else the mapping holds, so it requires no other key. Hence the handler fails with a
missing-parameter error before any call exactly when a Required parameter is not
supplied. Every parameter not marked Required is read with a default: a mapping
lacking it gives the same run as the mapping extended by the default (for the list
parameter, by the empty list). -/
theorem schema_handler_requiredness {σ : Type} (st : ServerTool σ)
    (hst : st ∈ (registeredTools : MCPServer σ)) (E : Env σ) (args : Args) (w : World σ) :
    (∀ q, st.tool.firstMissing args = some q →
      st.handler E ⟨.map args⟩ w = (failureOf (missingParameter q), w)) ∧
    ((∀ p ∈ st.tool.params, p.required = true → p.suppliedIn args = true) →
      w.calls.length < (st.handler E ⟨.map args⟩ w).2.calls.length) ∧
    ((∃ q, st.handler E ⟨.map args⟩ w = (failureOf (missingParameter q), w)) ↔
      ∃ p ∈ st.tool.params, p.required = true ∧ p.suppliedIn args = false) ∧
    (∀ p ∈ st.tool.params, p.required = false → args.get? p.name = none →
      (p.kind ≠ .array → ∃ d, (p.name, d) ∈ handlerDefaults st.tool.name ∧
        ∀ v, d.heldBy E.toPlatform v →
          st.handler E ⟨.map ((p.name, v) :: args)⟩ w = st.handler E ⟨.map args⟩ w) ∧
      (p.kind = .array →
        st.handler E ⟨.map ((p.name, .slice []) :: args)⟩ w = st.handler E ⟨.map args⟩ w)) := by
  have hA : ∀ q, st.tool.firstMissing args = some q →
      st.handler E ⟨.map args⟩ w = (failureOf (missingParameter q), w) :=
    fun q hq => handler_fails_on_first_missing st hst E ⟨.map args⟩ w q hq
  have hB : (∀ p ∈ st.tool.params, p.required = true → p.suppliedIn args = true) →
      w.calls.length < (st.handler E ⟨.map args⟩ w).2.calls.length :=
    fun h => handler_runs_when_supplied st hst E ⟨.map args⟩ w
      ((firstMissing_eq_none_iff st.tool args).mpr h)
  refine ⟨hA, hB, ⟨?_, ?_⟩, ?_⟩
  · rintro ⟨q, hq⟩
    by_contra hno
    have hall : ∀ p ∈ st.tool.params, p.required = true → p.suppliedIn args = true := by
      intro p hp hr
      by_contra hs
      exact hno ⟨p, hp, hr, by simpa using hs⟩
    have hlt := hB hall
    rw [hq] at hlt
    exact Nat.lt_irrefl _ hlt
  · intro hex
    obtain ⟨q, _, _, _, hq⟩ := (firstMissing_isSome_iff st.tool args).mp hex
    exact ⟨q.name, hA q.name hq⟩
  · intro p hp hr habs
    refine ⟨fun hk => ?_, fun hk => handler_array_absent st hst p hp hk E args w habs⟩
    obtain ⟨d, hd⟩ := optional_has_default st hst p hp hr hk
    exact ⟨d, hd, fun v hv => handler_default_absent st hst E args w p.name d v hd hv habs⟩

theorem schema_handler_requiredness_witness :
    mouseMoveEntry ∈ (registeredTools : MCPServer Unit) ∧
    (mouseMoveEntry : ServerTool Unit).tool.firstMissing [("x", .int 3)] = some "y" ∧
    (mouseMoveEntry : ServerTool Unit).handler idleEnv ⟨.map [("x", .int 3)]⟩ idleWorld =
      (failureOf (missingParameter "y"), idleWorld) ∧
    ((∃ q, (mouseMoveEntry : ServerTool Unit).handler idleEnv ⟨.map [("x", .int 3)]⟩ idleWorld =
        (failureOf (missingParameter q), idleWorld)) ↔
      ∃ p ∈ (mouseMoveEntry : ServerTool Unit).tool.params,
        p.required = true ∧ p.suppliedIn [("x", .int 3)] = false) ∧
    ((mouseMoveEntry : ServerTool Unit).handler idleEnv
        ⟨.map [("x", .int 3), ("y", .int 4)]⟩ idleWorld).2.calls = [.Move 3 4 []] :=
  ⟨mouseMoveEntry_mem, by decide, rfl,
    (schema_handler_requiredness mouseMoveEntry mouseMoveEntry_mem idleEnv [("x", .int 3)]
      idleWorld).2.2.1, by decide⟩
/-! ## Theorems: dispatch of an unregistered name -/

theorem lookup_eq_none_iff {σ : Type} (s : MCPServer σ) (name : String) :
    s.lookup name = none ↔ name ∉ s.map (fun st => st.tool.name) := by
  unfold MCPServer.lookup
  simp only [List.find?_eq_none, beq_iff_eq, List.mem_map, not_exists, not_and]

theorem lookup_some {σ : Type} (s : MCPServer σ) (name : String) (st : ServerTool σ)
    (h : s.lookup name = some st) : st ∈ s ∧ st.tool.name = name := by
  unfold MCPServer.lookup at h
  refine ⟨List.mem_of_find?_eq_some h, ?_⟩
  have := List.find?_some h
  simpa using this

/-- C21: dispatching a tool name that is not among the registered names, such as
"does_not_exist", yields the `UnknownTool` failure carrying the requested name and
leaves the world as it was: no provider call is logged and the provider state is
unchanged, so no handler ran. A registered name is dispatched to a handler
registered under that name. -/
theorem unknown_tool_fails {σ : Type} (E : Env σ) (toolName : String)
    (request : CallToolRequest) (w : World σ) :
    (toolName ∉ (registeredTools : MCPServer σ).map (fun st => st.tool.name) →
      dispatch registeredTools E toolName request w = (.UnknownTool toolName, w) ∧
      (dispatch registeredTools E toolName request w).2.calls = w.calls ∧
      (dispatch registeredTools E toolName request w).2.state = w.state) ∧
    (toolName ∈ (registeredTools : MCPServer σ).map (fun st => st.tool.name) →
      ∃ st ∈ (registeredTools : MCPServer σ), st.tool.name = toolName ∧
        dispatch registeredTools E toolName request w =
          (.handled (st.handler E request w).1, (st.handler E request w).2)) ∧
    "does_not_exist" ∉ (registeredTools : MCPServer σ).map (fun st => st.tool.name) ∧
    dispatch registeredTools E "does_not_exist" request w =
      (.UnknownTool "does_not_exist", w) := by
  have hun : ∀ n, n ∉ (registeredTools : MCPServer σ).map (fun st => st.tool.name) →
      dispatch registeredTools E n request w = (.UnknownTool n, w) := by
    intro n hn
    have hl := (lookup_eq_none_iff (registeredTools : MCPServer σ) n).mpr hn
    simp only [dispatch, hl]
  have hdne : "does_not_exist" ∉ (registeredTools : MCPServer σ).map
      (fun st => st.tool.name) := by
    rw [registeredTools_names]
    decide
  refine ⟨fun h => ?_, fun h => ?_, hdne, hun _ hdne⟩
  · rw [hun _ h]
    exact ⟨rfl, rfl, rfl⟩
  · cases hl : (registeredTools : MCPServer σ).lookup toolName with
    | none => exact absurd h ((lookup_eq_none_iff _ _).mp hl)
    | some st =>
      obtain ⟨hmem, hname⟩ := lookup_some _ _ _ hl
      exact ⟨st, hmem, hname, by simp only [dispatch, hl]⟩

theorem unknown_tool_fails_witness :
    "does_not_exist" ∉ (registeredTools : MCPServer Unit).map (fun st => st.tool.name) ∧
    dispatch registeredTools idleEnv "does_not_exist" ⟨.map [("x", .int 1)]⟩ idleWorld =
      (.UnknownTool "does_not_exist", idleWorld) ∧
    (dispatch registeredTools idleEnv "does_not_exist" ⟨.map [("x", .int 1)]⟩
      idleWorld).2.calls = [] ∧
    (dispatch registeredTools idleEnv "mouse_get_position" ⟨.map []⟩ idleWorld).2.calls =
      [.Location] :=
  ⟨(unknown_tool_fails idleEnv "does_not_exist" ⟨.map [("x", .int 1)]⟩ idleWorld).2.2.1,
    ((unknown_tool_fails idleEnv "does_not_exist" ⟨.map [("x", .int 1)]⟩ idleWorld).1
      (unknown_tool_fails idleEnv "does_not_exist" ⟨.map [("x", .int 1)]⟩ idleWorld).2.2.1).1,
    by decide, by decide⟩

/-! ## Theorems: the capture chain of `screen_capture` -/

/-- The run of `screen_capture`: one capture, issued in the given world or after the
`GetScreenSize` query, the image of its bitmap, and a result decided by the PNG
encoding of that image. -/
theorem screenCaptureHandler_run {σ : Type} (E : Env σ) (request : CallToolRequest)
    (w : World σ) :
    ∃ (a : List Int) (w1 : World σ),
      (w1 = w ∨ w1 = (invoke E .GetScreenSize w).2) ∧
      screenCaptureHandler E request w =
        ((match E.pngEncode (capturedImage E a w1) with
          | (_, some err) => failureOf (wrapError "failed to encode image" err)
          | (buf, none) => successOf E (.map [("image", .string (E.base64Encode buf)),
              ("format", .string "png"), ("encoding", .string "base64")])),
         captureDone E a w1) := by
  by_cases hr : 0 ≤ getIntArg E.toPlatform (getArgs request) "x" (-1) ∧
      0 ≤ getIntArg E.toPlatform (getArgs request) "y" (-1) ∧
      0 < getIntArg E.toPlatform (getArgs request) "width" (-1) ∧
      0 < getIntArg E.toPlatform (getArgs request) "height" (-1) <;>
    by_cases hd : getIntArg E.toPlatform (getArgs request) "display_id" (-1) ≥ 0
  · refine ⟨[getIntArg E.toPlatform (getArgs request) "x" (-1),
      getIntArg E.toPlatform (getArgs request) "y" (-1),
      getIntArg E.toPlatform (getArgs request) "width" (-1),
      getIntArg E.toPlatform (getArgs request) "height" (-1)] ++
      [getIntArg E.toPlatform (getArgs request) "display_id" (-1)], w, Or.inl rfl, ?_⟩
    unfold screenCaptureHandler capturedImage captureDone capturedBitmap
    dsimp only
    rw [regionArgs_valid _ _ _ _ hr, if_pos hd,
      if_neg (show ¬ ([_, _, _, _] : List Int).length = 0 from by simp)]
    dsimp only
    rw [if_pos (by simp)]
    split <;> rename_i heq <;> simp only [heq]
  · refine ⟨[getIntArg E.toPlatform (getArgs request) "x" (-1),
      getIntArg E.toPlatform (getArgs request) "y" (-1),
      getIntArg E.toPlatform (getArgs request) "width" (-1),
      getIntArg E.toPlatform (getArgs request) "height" (-1)], w, Or.inl rfl, ?_⟩
    unfold screenCaptureHandler capturedImage captureDone capturedBitmap
    dsimp only
    rw [regionArgs_valid _ _ _ _ hr, if_neg hd]
    dsimp only
    rw [if_pos (by simp)]
    split <;> rename_i heq <;> simp only [heq]
  · refine ⟨[0, 0, (invoke E .GetScreenSize w).1.1, (invoke E .GetScreenSize w).1.2] ++
      [getIntArg E.toPlatform (getArgs request) "display_id" (-1)],
      (invoke E .GetScreenSize w).2, Or.inr rfl, ?_⟩
    unfold screenCaptureHandler capturedImage captureDone capturedBitmap
    dsimp only
    rw [regionArgs_invalid _ _ _ _ hr, if_pos hd,
      if_pos (show ([] : List Int).length = 0 from rfl)]
    dsimp only
    rw [if_pos (by simp)]
    split <;> rename_i heq <;> simp only [heq]
  · refine ⟨[], w, Or.inl rfl, ?_⟩
    unfold screenCaptureHandler capturedImage captureDone capturedBitmap
    dsimp only
    rw [regionArgs_invalid _ _ _ _ hr, if_neg hd]
    dsimp only
    rw [if_neg (by simp)]
    split <;> rename_i heq <;> simp only [heq]

theorem screenCapture_registration {σ : Type} :
    ∀ st ∈ (registeredTools : MCPServer σ), st.tool.name = "screen_capture" →
      st.handler = screenCaptureHandler := by
  simp only [registeredTools, registerMouseTools, registerKeyboardTools, registerScreenTools,
    registerWindowTools, registerProcessTools, registerSystemTools,
    MCPServer.AddTool, List.nil_append, List.cons_append,
    List.forall_mem_cons, List.not_mem_nil, false_imp_iff, implies_true, and_true]
  refine ⟨?_, ?_, ?_, ?_, ?_, ?_, ?_, ?_, ?_, ?_, ?_, ?_, ?_, ?_, ?_, ?_, ?_, ?_, ?_, ?_, ?_, ?_,
    ?_, ?_, ?_, ?_, ?_, ?_, ?_, ?_, ?_, ?_, ?_, ?_, ?_, ?_, ?_, ?_, ?_, ?_, ?_, ?_, ?_, ?_⟩
  all_goals
    first
    | trivial
    | (intro hname; exact absurd hname (by decide))

/-! ## Theorems: exactly one of result and error -/

/-- C9: every registered handler returns exactly one of a result and an error, on
every request and every provider. For `screen_capture`, which captures once and has
the provider make an image of the bitmap: when PNG encoding of that image fails, the
handler returns the wrapped encoding error and no result. -/
theorem handler_result_exclusive {σ : Type} (st : ServerTool σ)
    (hst : st ∈ (registeredTools : MCPServer σ)) (E : Env σ) (request : CallToolRequest)
    (w : World σ) :
    (st.handler E request w).1.exclusive ∧
    (st.tool.name = "screen_capture" →
      ∃ (a : List Int) (w1 : World σ),
        (w1 = w ∨ w1 = (invoke E .GetScreenSize w).2) ∧
        (st.handler E request w).2 = captureDone E a w1 ∧
        ∀ buf err, E.pngEncode (capturedImage E a w1) = (buf, some err) →
          (st.handler E request w).1 =
            (none, some (wrapError "failed to encode image" err))) := by
  refine ⟨handler_exclusive st hst E request w, fun hname => ?_⟩
  rw [screenCapture_registration st hst hname]
  obtain ⟨a, w1, hw1, hrun⟩ := screenCaptureHandler_run E request w
  refine ⟨a, w1, hw1, by rw [hrun], fun buf err henc => ?_⟩
  rw [hrun, henc]
  rfl

theorem handler_result_exclusive_witness :
    screenCaptureEntry ∈ (registeredTools : MCPServer Unit) ∧
    (screenCaptureHandler failingPngEnv ⟨.map []⟩ idleWorld).1 =
      (none, some ⟨"failed to encode image: png: unsupported image"⟩) ∧
    (screenCaptureHandler failingPngEnv ⟨.map []⟩ idleWorld).2.calls =
      [.CaptureScreen [], .ToImage ⟨[]⟩, .FreeBitmap ⟨[]⟩] ∧
    failingPngEnv.pngEncode (capturedImage failingPngEnv [] idleWorld) =
      ([], some ⟨"png: unsupported image"⟩) ∧
    (((screenCaptureEntry : ServerTool Unit).handler failingPngEnv ⟨.map []⟩
        idleWorld).1.exclusive ∧
      ((screenCaptureEntry : ServerTool Unit).tool.name = "screen_capture" →
        ∃ (a : List Int) (w1 : World Unit),
          (w1 = idleWorld ∨ w1 = (invoke failingPngEnv .GetScreenSize idleWorld).2) ∧
          ((screenCaptureEntry : ServerTool Unit).handler failingPngEnv ⟨.map []⟩
            idleWorld).2 = captureDone failingPngEnv a w1 ∧
          ∀ buf err, failingPngEnv.pngEncode (capturedImage failingPngEnv a w1) =
              (buf, some err) →
            ((screenCaptureEntry : ServerTool Unit).handler failingPngEnv ⟨.map []⟩
              idleWorld).1 = (none, some (wrapError "failed to encode image" err)))) :=
  ⟨screenCaptureEntry_mem, rfl, rfl, rfl,
    handler_result_exclusive screenCaptureEntry screenCaptureEntry_mem failingPngEnv
      ⟨.map []⟩ idleWorld⟩
/-! ## Theorems: the text a successful handler returns -/

/-- A success return carries the text `json.MarshalIndent` wrote for the payload. -/
theorem successOf_marshalled {σ : Type} (E : Env σ) (data : Value) (text : String)
    (h : E.jsonMarshalIndent data = (text, none)) :
    successOf E data = (some (NewToolResultText text), none) := by
  simp [successOf, jsonResponse, h]

/-- When marshalling fails, a success return carries the error object instead. -/
theorem successOf_marshal_error {σ : Type} (E : Env σ) (data : Value) (text : String)
    (err : GoError) (h : E.jsonMarshalIndent data = (text, some err)) :
    successOf E data =
      (some (NewToolResultText ("\x7b\"error\": \"" ++ err.Error ++ "\"\x7d")), none) := by
  simp [successOf, jsonResponse, h]

/-! ## Theorems: the payload of `screen_capture` -/

/-- C12: `screen_capture` captures once and has the provider make an image of the
captured bitmap. When PNG encoding of that image succeeds with bytes `buf`, the
handler returns the text marshalled from the payload with `image` the base64
encoding of `buf`, `format` "png" and `encoding` "base64". With the standard base64
encoding, decoding `image` succeeds and gives `buf` back, so the decoded bytes begin
with the PNG signature whenever the encoder's output does. -/
theorem screenCapture_payload {σ : Type} (E : Env σ) (request : CallToolRequest)
    (w : World σ) :
    ∃ (a : List Int) (w1 : World σ),
      (w1 = w ∨ w1 = (invoke E .GetScreenSize w).2) ∧
      (screenCaptureHandler E request w).2 = captureDone E a w1 ∧
      ∀ buf, E.pngEncode (capturedImage E a w1) = (buf, none) →
        (∀ text, E.jsonMarshalIndent (.map [("image", .string (E.base64Encode buf)),
            ("format", .string "png"), ("encoding", .string "base64")]) = (text, none) →
          (screenCaptureHandler E request w).1 = (some (NewToolResultText text), none)) ∧
        (E.base64Encode = base64StdEncode → (∀ b ∈ buf, b < 256) →
          base64StdDecode (E.base64Encode buf) = some buf ∧
          (pngSignature <+: buf →
            ∃ decoded, base64StdDecode (E.base64Encode buf) = some decoded ∧
              decoded.take 8 = pngSignature)) := by
  obtain ⟨a, w1, hw1, hrun⟩ := screenCaptureHandler_run E request w
  refine ⟨a, w1, hw1, by rw [hrun], fun buf hbuf => ⟨fun text htext => ?_, ?_⟩⟩
  · rw [hrun, hbuf]
    exact successOf_marshalled E _ text htext
  · intro h64 hbytes
    rw [h64]
    have hdec := base64StdDecode_encode buf hbytes
    refine ⟨hdec, ?_⟩
    intro hsig
    refine ⟨buf, hdec, ?_⟩
    obtain ⟨t, ht⟩ := hsig
    rw [← ht]
    simp [pngSignature]

theorem screenCapture_payload_witness :
    (screenCaptureHandler pngEnv ⟨.map []⟩ idleWorld).1 =
      (some (NewToolResultText
        "\x7b\n  \"encoding\": \"base64\",\n  \"format\": \"png\",\n  \"image\": \"iVBORw0KGgo=\"\n\x7d"),
       none) ∧
    (screenCaptureHandler pngEnv ⟨.map []⟩ idleWorld).2.calls =
      [.CaptureScreen [], .ToImage ⟨[]⟩, .FreeBitmap ⟨[]⟩] ∧
    pngEnv.pngEncode (capturedImage pngEnv [] idleWorld) = (pngSignature, none) ∧
    pngEnv.base64Encode pngSignature = "iVBORw0KGgo=" ∧
    base64StdDecode "iVBORw0KGgo=" = some pngSignature ∧
    (∃ (a : List Int) (w1 : World Unit),
      (w1 = idleWorld ∨ w1 = (invoke pngEnv .GetScreenSize idleWorld).2) ∧
      (screenCaptureHandler pngEnv ⟨.map []⟩ idleWorld).2 = captureDone pngEnv a w1 ∧
      ∀ buf, pngEnv.pngEncode (capturedImage pngEnv a w1) = (buf, none) →
        (∀ text, pngEnv.jsonMarshalIndent (.map [("image", .string (pngEnv.base64Encode buf)),
            ("format", .string "png"), ("encoding", .string "base64")]) = (text, none) →
          (screenCaptureHandler pngEnv ⟨.map []⟩ idleWorld).1 =
            (some (NewToolResultText text), none)) ∧
        (pngEnv.base64Encode = base64StdEncode → (∀ b ∈ buf, b < 256) →
          base64StdDecode (pngEnv.base64Encode buf) = some buf ∧
          (pngSignature <+: buf →
            ∃ decoded, base64StdDecode (pngEnv.base64Encode buf) = some decoded ∧
              decoded.take 8 = pngSignature))) :=
  ⟨by decide, by decide, by decide, by decide, by decide,
    screenCapture_payload pngEnv ⟨.map []⟩ idleWorld⟩
/-! ## Theorems: `mouse_move` -/

/-- C10: `mouse_move` with integer `x` and `y` and no `display_id` succeeds, issues
exactly one provider call `Move(x, y)`, and returns the text that
`json.MarshalIndent` writes for the payload with status "success" and message
"Mouse moved to (x, y)" in decimal; at 100 and 200 the message is
"Mouse moved to (100, 200)". -/
theorem mouseMove_success {σ : Type} (E : Env σ) (args : Args) (vx vy : Value) (x y : Int)
    (w : World σ)
    (hx : args.get? "x" = some vx) (hxi : E.coerceInt vx = some x)
    (hy : args.get? "y" = some vy) (hyi : E.coerceInt vy = some y)
    (hd : args.get? "display_id" = none) :
    (∀ text, E.jsonMarshalIndent (.map [("status", .string "success"),
        ("message", .string ("Mouse moved to (" ++ fmtInt x ++ ", " ++ fmtInt y ++ ")"))]) =
        (text, none) →
      (mouseMoveHandler E ⟨.map args⟩ w).1 = (some (NewToolResultText text), none)) ∧
    (∀ text err, E.jsonMarshalIndent (.map [("status", .string "success"),
        ("message", .string ("Mouse moved to (" ++ fmtInt x ++ ", " ++ fmtInt y ++ ")"))]) =
        (text, some err) →
      (mouseMoveHandler E ⟨.map args⟩ w).1 =
        (some (NewToolResultText ("\x7b\"error\": \"" ++ err.Error ++ "\"\x7d")), none)) ∧
    ((mouseMoveHandler E ⟨.map args⟩ w).1.1.isSome = true ∧
      (mouseMoveHandler E ⟨.map args⟩ w).1.2 = none) ∧
    (mouseMoveHandler E ⟨.map args⟩ w).2.calls = w.calls ++ [.Move x y []] ∧
    (mouseMoveHandler E ⟨.map args⟩ w).2.state = (E.robotgo (.Move x y []) w.state).2 ∧
    (x = 100 → y = 200 →
      "Mouse moved to (" ++ fmtInt x ++ ", " ++ fmtInt y ++ ")" = "Mouse moved to (100, 200)") := by
  have hgx : getRequiredIntArg E.toPlatform args "x" = (x, none) := by
    cases vx <;> simp_all [getRequiredIntArg, Platform.coerceInt]
  have hgy : getRequiredIntArg E.toPlatform args "y" = (y, none) := by
    cases vy <;> simp_all [getRequiredIntArg, Platform.coerceInt]
  have hgd : getIntArg E.toPlatform args "display_id" (-1) = -1 := by
    simp [getIntArg, hd]
  have hres : (mouseMoveHandler E ⟨.map args⟩ w).1 =
      successOf E (.map [("status", .string "success"),
        ("message", .string ("Mouse moved to (" ++ fmtInt x ++ ", " ++ fmtInt y ++ ")"))]) := by
    simp [mouseMoveHandler, getArgs, hgx, hgy, hgd]
  refine ⟨fun text h => ?_, fun text err h => ?_, ?_, ?_, ?_, ?_⟩
  · rw [hres]
    exact successOf_marshalled E _ text h
  · rw [hres]
    exact successOf_marshal_error E _ text err h
  · rw [hres]
    exact ⟨rfl, rfl⟩
  · simp [mouseMoveHandler, getArgs, hgx, hgy, hgd, invoke]
  · simp [mouseMoveHandler, getArgs, hgx, hgy, hgd, invoke]
  · intro h1 h2
    subst h1 h2
    decide

theorem mouseMove_success_witness :
    (mouseMoveHandler jsonEnv ⟨.map [("x", .float64 (F64.ofInt 100)), ("y", .int 200)]⟩
        idleWorld).1 =
      (some (NewToolResultText
        "\x7b\n  \"message\": \"Mouse moved to (100, 200)\",\n  \"status\": \"success\"\n\x7d"),
       none) ∧
    (mouseMoveHandler jsonEnv ⟨.map [("x", .float64 (F64.ofInt 100)), ("y", .int 200)]⟩
        idleWorld).2.calls = [.Move 100 200 []] ∧
    jsonEnv.jsonMarshalIndent (.map [("status", .string "success"),
        ("message", .string ("Mouse moved to (" ++ fmtInt 100 ++ ", " ++ fmtInt 200 ++ ")"))]) =
      ("\x7b\n  \"message\": \"Mouse moved to (100, 200)\",\n  \"status\": \"success\"\n\x7d",
        none) ∧
    (∀ text, jsonEnv.jsonMarshalIndent (.map [("status", .string "success"),
        ("message", .string ("Mouse moved to (" ++ fmtInt 100 ++ ", " ++ fmtInt 200 ++ ")"))]) =
        (text, none) →
      (mouseMoveHandler jsonEnv ⟨.map [("x", .float64 (F64.ofInt 100)), ("y", .int 200)]⟩
        idleWorld).1 = (some (NewToolResultText text), none)) :=
  ⟨by decide, by decide, by decide,
    (mouseMove_success jsonEnv [("x", .float64 (F64.ofInt 100)), ("y", .int 200)]
      (.float64 (F64.ofInt 100)) (.int 200) 100 200 idleWorld rfl (by decide) rfl rfl rfl).1⟩
/-! ## Theorems: documented defaults reach the provider -/

theorem f64_one_three :
    F64.toRat ⟨0x3FF0000000000000⟩ = 1 ∧ F64.toRat ⟨0x4008000000000000⟩ = 3 := by
  have h1 := F64.eqDecimal_sound ⟨0x3FF0000000000000⟩ 1 0 (by decide)
  have h3 := F64.eqDecimal_sound ⟨0x4008000000000000⟩ 3 0 (by decide)
  constructor
  · rw [h1]; norm_num
  · rw [h3]; norm_num

/-- C16: the defaults documented in the registered parameter descriptions are the
values the provider receives when the parameter is absent. The descriptions document
exactly sixteen defaults, and each documented text denotes the value named here. For
each of the nine tools concerned, with its required parameters supplied, the handler
issues exactly one provider call, and the argument fed by a documented parameter is
the documented value whenever that parameter is absent: low 1.0 and high 3.0, button
"left", a single click for double false, direction "down" for down true, num 5 and
delay 100, and first button "OK". -/
theorem documented_default_applied {σ : Type} (E : Env σ) (args : Args) (w : World σ) :
    (((registeredTools : MCPServer Unit).map
        (fun st => (st.tool.name, st.tool.documentedDefaults))).filter
        (fun e => !e.2.isEmpty) =
      [("mouse_move_smooth", [("low", "1.0"), ("high", "3.0")]),
       ("mouse_click", [("button", "'left'"), ("double", "false")]),
       ("mouse_click_at", [("button", "'left'"), ("double", "false")]),
       ("mouse_toggle", [("button", "'left'"), ("down", "true")]),
       ("mouse_drag", [("button", "'left'")]),
       ("mouse_drag_smooth", [("low", "1.0"), ("high", "3.0"), ("button", "'left'")]),
       ("mouse_scroll_smooth", [("num", "5"), ("delay", "100")]),
       ("key_toggle", [("down", "true")]),
       ("alert_show", [("default_btn", "'OK'")])]) ∧
    (F64.toRat ⟨0x3FF0000000000000⟩ = 1 ∧ F64.toRat ⟨0x4008000000000000⟩ = 3) ∧
    ((DefaultVal.float ⟨0x3FF0000000000000⟩).documentedAs "1.0".data = true ∧
      (DefaultVal.float ⟨0x4008000000000000⟩).documentedAs "3.0".data = true ∧
      (DefaultVal.string "left").documentedAs "'left'".data = true ∧
      (DefaultVal.bool false).documentedAs "false".data = true ∧
      (DefaultVal.bool true).documentedAs "true".data = true ∧
      (DefaultVal.int 5).documentedAs "5".data = true ∧
      (DefaultVal.int 100).documentedAs "100".data = true ∧
      (DefaultVal.string "OK").documentedAs "'OK'".data = true) ∧
    (∀ x y, getRequiredIntArg E.toPlatform args "x" = (x, none) →
      getRequiredIntArg E.toPlatform args "y" = (y, none) →
      ∃ low high, (mouseMoveSmoothHandler E ⟨.map args⟩ w).2.calls =
          w.calls ++ [.MoveSmooth x y low high] ∧
        (args.get? "low" = none → low = ⟨0x3FF0000000000000⟩) ∧
        (args.get? "high" = none → high = ⟨0x4008000000000000⟩)) ∧
    (∃ button double, (mouseClickHandler E ⟨.map args⟩ w).2.calls =
        w.calls ++ [.Click button double] ∧
      (args.get? "button" = none → button = "left") ∧
      (args.get? "double" = none → double = none)) ∧
    (∀ x y, getRequiredIntArg E.toPlatform args "x" = (x, none) →
      getRequiredIntArg E.toPlatform args "y" = (y, none) →
      ∃ button double, (mouseClickAtHandler E ⟨.map args⟩ w).2.calls =
          w.calls ++ [.MoveClick x y button double] ∧
        (args.get? "button" = none → button = "left") ∧
        (args.get? "double" = none → double = none)) ∧
    (∃ button direction, (mouseToggleHandler E ⟨.map args⟩ w).2.calls =
        w.calls ++ [.Toggle button direction] ∧
      (args.get? "button" = none → button = "left") ∧
      (args.get? "down" = none → direction = "down")) ∧
    (∀ x y, getRequiredIntArg E.toPlatform args "x" = (x, none) →
      getRequiredIntArg E.toPlatform args "y" = (y, none) →
      ∃ button, (mouseDragHandler E ⟨.map args⟩ w).2.calls = w.calls ++ [.Drag x y button] ∧
        (args.get? "button" = none → button = "left")) ∧
    (∀ x y, getRequiredIntArg E.toPlatform args "x" = (x, none) →
      getRequiredIntArg E.toPlatform args "y" = (y, none) →
      ∃ low high button, (mouseDragSmoothHandler E ⟨.map args⟩ w).2.calls =
          w.calls ++ [.DragSmooth x y low high button] ∧
        (args.get? "low" = none → low = ⟨0x3FF0000000000000⟩) ∧
        (args.get? "high" = none → high = ⟨0x4008000000000000⟩) ∧
        (args.get? "button" = none → button = "left")) ∧
    (∀ to_, getRequiredIntArg E.toPlatform args "to" = (to_, none) →
      ∃ num delay, (mouseScrollSmoothHandler E ⟨.map args⟩ w).2.calls =
          w.calls ++ [.ScrollSmooth to_ num delay] ∧
        (args.get? "num" = none → num = 5) ∧
        (args.get? "delay" = none → delay = 100)) ∧
    (∀ key, getRequiredStringArg args "key" = (key, none) →
      ∃ direction, (keyToggleHandler E ⟨.map args⟩ w).2.calls =
          w.calls ++ [.KeyToggle key direction] ∧
        (args.get? "down" = none → direction = "down")) ∧
    (∀ title message, getRequiredStringArg args "title" = (title, none) →
      getRequiredStringArg args "message" = (message, none) →
      ∃ defaultBtn rest, (alertShowHandler E ⟨.map args⟩ w).2.calls =
          w.calls ++ [.Alert title message (defaultBtn :: rest)] ∧
        (args.get? "default_btn" = none → defaultBtn = "OK")) := by
  refine ⟨registered_documentedDefaults, f64_one_three, by decide,
    ?_, ?_, ?_, ?_, ?_, ?_, ?_, ?_, ?_⟩
  · intro x y hx hy
    refine ⟨getFloatArg args "low" ⟨0x3FF0000000000000⟩,
      getFloatArg args "high" ⟨0x4008000000000000⟩, ?_,
      fun h => getFloatArg_absent _ _ _ h, fun h => getFloatArg_absent _ _ _ h⟩
    simp [mouseMoveSmoothHandler, getArgs, hx, hy, invoke]
  · refine ⟨getStringArg args "button" "left",
      if getBoolArg args "double" false then some true else none, ?_,
      fun h => getStringArg_absent _ _ _ h,
      fun h => by rw [getBoolArg_absent _ _ _ h]; rfl⟩
    by_cases hb : getBoolArg args "double" false = true <;>
      simp [mouseClickHandler, getArgs, hb, invoke]
  · intro x y hx hy
    refine ⟨getStringArg args "button" "left",
      if getBoolArg args "double" false then some true else none, ?_,
      fun h => getStringArg_absent _ _ _ h,
      fun h => by rw [getBoolArg_absent _ _ _ h]; rfl⟩
    by_cases hb : getBoolArg args "double" false = true <;>
      simp [mouseClickAtHandler, getArgs, hx, hy, hb, invoke]
  · refine ⟨getStringArg args "button" "left",
      if getBoolArg args "down" true then "down" else "up", ?_,
      fun h => getStringArg_absent _ _ _ h,
      fun h => by rw [getBoolArg_absent _ _ _ h]; rfl⟩
    by_cases hb : getBoolArg args "down" true = true <;>
      simp [mouseToggleHandler, getArgs, hb, invoke]
  · intro x y hx hy
    refine ⟨getStringArg args "button" "left", ?_, fun h => getStringArg_absent _ _ _ h⟩
    simp [mouseDragHandler, getArgs, hx, hy, invoke]
  · intro x y hx hy
    refine ⟨getFloatArg args "low" ⟨0x3FF0000000000000⟩,
      getFloatArg args "high" ⟨0x4008000000000000⟩, getStringArg args "button" "left", ?_,
      fun h => getFloatArg_absent _ _ _ h, fun h => getFloatArg_absent _ _ _ h,
      fun h => getStringArg_absent _ _ _ h⟩
    simp [mouseDragSmoothHandler, getArgs, hx, hy, invoke]
  · intro to_ hto
    refine ⟨getIntArg E.toPlatform args "num" 5, getIntArg E.toPlatform args "delay" 100, ?_,
      fun h => getIntArg_absent _ _ _ _ h, fun h => getIntArg_absent _ _ _ _ h⟩
    simp [mouseScrollSmoothHandler, getArgs, hto, invoke]
  · intro key hkey
    refine ⟨if getBoolArg args "down" true then "down" else "up", ?_,
      fun h => by rw [getBoolArg_absent _ _ _ h]; rfl⟩
    by_cases hb : getBoolArg args "down" true = true <;>
      simp [keyToggleHandler, getArgs, hkey, hb, invoke]
  · intro title message ht hm
    refine ⟨getStringArg args "default_btn" "OK",
      if getStringArg args "cancel_btn" "" ≠ "" then [getStringArg args "cancel_btn" ""] else [],
      ?_, fun h => getStringArg_absent _ _ _ h⟩
    by_cases hc : getStringArg args "cancel_btn" "" = "" <;>
      simp [alertShowHandler, getArgs, ht, hm, hc, invoke]

theorem documented_default_applied_witness :
    (mouseScrollSmoothHandler idleEnv ⟨.map [("to", .int 3)]⟩ idleWorld).2.calls =
      [.ScrollSmooth 3 5 100] ∧
    (mouseScrollSmoothHandler idleEnv ⟨.map [("to", .int 3), ("num", .int 9)]⟩
      idleWorld).2.calls = [.ScrollSmooth 3 9 100] ∧
    (mouseMoveSmoothHandler idleEnv ⟨.map [("x", .int 1), ("y", .int 2)]⟩ idleWorld).2.calls =
      [.MoveSmooth 1 2 ⟨0x3FF0000000000000⟩ ⟨0x4008000000000000⟩] ∧
    (alertShowHandler idleEnv ⟨.map [("title", .string "t"), ("message", .string "m")]⟩
      idleWorld).2.calls = [.Alert "t" "m" ["OK"]] ∧
    getRequiredIntArg idleEnv.toPlatform [("to", .int 3)] "to" = (3, none) ∧
    (∃ num delay, (mouseScrollSmoothHandler idleEnv ⟨.map [("to", .int 3)]⟩
          idleWorld).2.calls = idleWorld.calls ++ [.ScrollSmooth 3 num delay] ∧
        (Args.get? [("to", .int 3)] "num" = none → num = 5) ∧
        (Args.get? [("to", .int 3)] "delay" = none → delay = 100)) :=
  ⟨by decide, by decide, by decide, by decide, by decide,
    (documented_default_applied idleEnv [("to", .int 3)]
      idleWorld).2.2.2.2.2.2.2.2.2.1 3 (by decide)⟩

end ComputerUse
